import Mathlib

/-!
# TUSAS HGU OPC-UA gateway: line-protocol writer and data pipeline

A shallow embedding of `influxdb_writer.hpp`, `data_manager.hpp` and the parts
of `common.hpp` / `config.hpp` they use, followed by theorems about them.

Conventions of the embedding:
* `std::string` is a list of characters (`Str`); `ss << x` and `result += x`
  append to the end of the list.
* `double` is an IEEE-754 binary64 datum given by sign, integer significand and
  binary exponent (`Double`), with its decimal rendering and the arithmetic the
  outlier test uses.
* `TimePoint` is the tick count of `std::chrono::system_clock` (nanoseconds
  since the Unix epoch).
* The 64-bit statistics counters are natural numbers; a call adds at most two
  to a counter, so wrap-around is outside any feasible run.
* The network is an oracle: the `n`-th `httpPost` of a call of `writeBatch`
  receives `net n`. Calls of `httpPost` and `sleepMs` are recorded in a trace.
* The data manager is a state machine whose steps are the public calls and one
  iteration of a worker's loop; pushes and pops of the queue and calls of the
  writer are recorded as events.
-/

namespace TusasHgu

/-! ## Strings -/

/-- A `std::string`, as the list of its characters. -/
abbrev Str := List Char

/-! ## `double` and its fixed-point rendering -/

/-- An IEEE-754 binary64 value: a finite number `(-1)^neg * mant * 2^exp`,
an infinity, or a NaN. The sign bit and the payload of a NaN are not kept: no
comparison and no arithmetic result of the code depends on them. -/
inductive Double where
  | finite (neg : Bool) (mant : Nat) (exp : Int)
  | inf (neg : Bool)
  | nan
  deriving DecidableEq, Repr

/-- Quotient `num / den` rounded to the nearest integer, ties to even. -/
def roundHalfEven (num den : Nat) : Nat :=
  let q := num / den
  let r := num % den
  if 2 * r < den then q
  else if den < 2 * r then q + 1
  else if q % 2 = 0 then q else q + 1

/-- The decimal digits of `n`, left-padded with zeros to `width` characters. -/
def zeroPad (width n : Nat) : Str :=
  let ds := Nat.toDigits 10 n
  List.replicate (width - ds.length) '0' ++ ds

/-- Rendering of `ss << std::fixed << std::setprecision(6) << value`: the exact
binary value, correctly rounded to six decimals. For a NaN the text is that of a
NaN with clear sign bit; the code prints `-nan` for a NaN whose sign bit is set,
which the type does not tell apart. -/
def Double.fixed6 : Double → Str
  | .nan => "nan".toList
  | .inf neg => (if neg then "-".toList else []) ++ "inf".toList
  | .finite neg mant exp =>
    let scaled :=
      if 0 ≤ exp then roundHalfEven (mant * 2 ^ exp.toNat * 1000000) 1
      else roundHalfEven (mant * 1000000) (2 ^ (-exp).toNat)
    (if neg then "-".toList else []) ++ Nat.toDigits 10 (scaled / 1000000)
      ++ ".".toList ++ zeroPad 6 (scaled % 1000000)

/-- Number of halvings that bring `n` below 2; `fuel` bounds the recursion. -/
def log2Fuel : Nat → Nat → Nat
  | 0, _ => 0
  | fuel + 1, n => if n < 2 then 0 else log2Fuel fuel (n / 2) + 1

/-- The position of the leading bit of `n` (0 for `n < 2`). -/
def floorLog2 (n : Nat) : Nat := log2Fuel n n

/-- The integer part of the binary logarithm of `num / den` (both positive). -/
def floorLog2Ratio (num den : Nat) : Int :=
  let a := floorLog2 num
  let b := floorLog2 den
  if b ≤ a then
    if den * 2 ^ (a - b) ≤ num then ((a - b : Nat) : Int) else ((a - b : Nat) : Int) - 1
  else
    if den ≤ num * 2 ^ (b - a) then - ((b - a : Nat) : Int) else - ((b - a : Nat) : Int) - 1

/-- The binary64 value nearest to `(-1)^neg * num / den` (ties to even): 53
significant bits, least exponent -1074, overflow to infinity. -/
def Double.ofRatio (neg : Bool) (num den : Nat) : Double :=
  if num = 0 then .finite neg 0 0
  else
    let e := max (floorLog2Ratio num den - 52) (-1074)
    let m :=
      if 0 ≤ e then roundHalfEven num (den * 2 ^ e.toNat)
      else roundHalfEven (num * 2 ^ (-e).toNat) den
    let (m, e) := if m = 2 ^ 53 then (2 ^ 52, e + 1) else (m, e)
    if 971 < e then .inf neg
    else if m = 0 then .finite neg 0 0
    else .finite neg m e

/-- The function `std::abs` on `double`. -/
def Double.abs : Double → Double
  | .finite _ m e => .finite false m e
  | .inf _ => .inf false
  | .nan => .nan

/-- IEEE-754 subtraction `x - y`, rounding to nearest. -/
def Double.sub : Double → Double → Double
  | .nan, _ => .nan
  | _, .nan => .nan
  | .inf a, .inf b => if a = b then .nan else .inf a
  | .inf a, .finite _ _ _ => .inf a
  | .finite _ _ _, .inf b => .inf (!b)
  | .finite nx mx ex, .finite ny my ey =>
    let e := min ex ey
    let ix : Int := (if nx then -1 else 1) * (mx * 2 ^ (ex - e).toNat : Nat)
    let iy : Int := (if ny then -1 else 1) * (my * 2 ^ (ey - e).toNat : Nat)
    let d := ix - iy
    if d = 0 then .finite (mx == 0 && my == 0 && nx && !ny) 0 0
    else if 0 ≤ e then Double.ofRatio (decide (d < 0)) (d.natAbs * 2 ^ e.toNat) 1
    else Double.ofRatio (decide (d < 0)) d.natAbs (2 ^ (-e).toNat)

/-- IEEE-754 division `x / y`, rounding to nearest. -/
def Double.div : Double → Double → Double
  | .nan, _ => .nan
  | _, .nan => .nan
  | .inf _, .inf _ => .nan
  | .inf a, .finite ny _ _ => .inf (a != ny)
  | .finite nx _ _, .inf b => .finite (nx != b) 0 0
  | .finite nx mx ex, .finite ny my ey =>
    if my = 0 then (if mx = 0 then .nan else .inf (nx != ny))
    else
      let e := ex - ey
      if 0 ≤ e then Double.ofRatio (nx != ny) (mx * 2 ^ e.toNat) my
      else Double.ofRatio (nx != ny) mx (my * 2 ^ (-e).toNat)

/-- IEEE-754 comparison `x > y` (false when either side is a NaN). -/
def Double.gt : Double → Double → Bool
  | .nan, _ => false
  | _, .nan => false
  | .inf a, .inf b => !a && b
  | .inf a, .finite _ _ _ => !a
  | .finite _ _ _, .inf b => b
  | .finite nx mx ex, .finite ny my ey =>
    let e := min ex ey
    let ix : Int := (if nx then -1 else 1) * (mx * 2 ^ (ex - e).toNat : Nat)
    let iy : Int := (if ny then -1 else 1) * (my * 2 ^ (ey - e).toNat : Nat)
    decide (iy < ix)

/-! ## `common.hpp` -/

/-- A `std::chrono::system_clock::time_point`: nanoseconds since the epoch. -/
structure TimePoint where
  sinceEpochNs : Int
  deriving DecidableEq, Repr

/-- The record `SensorData`. -/
structure SensorData where
  id : Str
  name : Str
  value : Double
  unit : Str
  quality : Str
  timestamp : TimePoint
  deriving DecidableEq, Repr

/-- The function `getCurrentTimestamp`: the clock reading in milliseconds,
converted to `uint64_t`. -/
def getCurrentTimestamp (now : TimePoint) : Nat :=
  (Int.tdiv now.sinceEpochNs 1000000 % 2 ^ 64).toNat

/-- The record `PerformanceMetrics`: its four counters and the time of the last
update. The latency average, a `double` that no modelled operation reads, is
left out. -/
structure PerformanceMetrics where
  totalSamples : Nat
  successfulWrites : Nat
  failedWrites : Nat
  reconnects : Nat
  lastUpdateTime : Nat
  deriving DecidableEq, Repr

/-- The constructor `PerformanceMetrics()`. -/
def PerformanceMetrics.new : PerformanceMetrics :=
  { totalSamples := 0, successfulWrites := 0, failedWrites := 0, reconnects := 0,
    lastUpdateTime := 0 }

/-! ## `config.hpp` -/

/-- The configuration values read by the writer, the data manager and the
OPC UA client, after loading (each getter of `Config` reads one of these). -/
structure Config where
  getInfluxDBUrl : Str
  getInfluxDBToken : Str
  getInfluxDBOrg : Str
  getInfluxDBBucket : Str
  getInfluxDBMeasurement : Str
  getInfluxDBTimeout : Int
  getSystemLocation : Str
  getEquipmentId : Str
  getBatchSize : Int
  getFlushInterval : Int
  getWorkerThreads : Int
  getDataBufferSize : Int
  getEnableValidation : Bool
  getOutlierDetection : Bool
  getOutlierThreshold : Double
  getOPCUAEndpoint : Str
  getSecurityMode : Str
  getConnectionTimeout : Int
  getSubscriptionInterval : Int
  getAutoReconnect : Bool
  getReconnectDelay : Int
  getMaxReconnectAttempts : Int
  deriving DecidableEq, Repr

/-! ## `influxdb_writer.hpp`: encoding -/

/-- The characters `escapeTagValue` prefixes with a backslash. -/
def isTagSpecial (c : Char) : Bool :=
  c == ' ' || c == ',' || c == '=' || c == '\\'

/-- The function `InfluxDBWriter::escapeTagValue`: the loop over the characters
of `value`, appending to `result`. -/
def escapeTagValue (value : Str) : Str :=
  value.foldl (fun result c =>
    if isTagSpecial c then (result ++ ['\\']) ++ [c] else result ++ [c]) []

/-- The characters `escapeFieldValue` prefixes with a backslash. -/
def isFieldSpecial (c : Char) : Bool :=
  c == '"' || c == '\\'

/-- The function `InfluxDBWriter::escapeFieldValue`. -/
def escapeFieldValue (value : Str) : Str :=
  value.foldl (fun result c =>
    if isFieldSpecial c then (result ++ ['\\']) ++ [c] else result ++ [c]) []

/-- The function `InfluxDBWriter::formatTimestamp`: `duration_cast` to
milliseconds (truncating toward zero), then `std::to_string`. -/
def formatTimestamp (timestamp : TimePoint) : Str :=
  let ms := Int.tdiv timestamp.sinceEpochNs 1000000
  (toString ms).toList

/-- The function `InfluxDBWriter::generateLineProtocol`, one stream insertion
per line. -/
def generateLineProtocol (config : Config) (data : SensorData) : Str :=
  let ss : Str := []
  let ss := ss ++ config.getInfluxDBMeasurement
  let ss := ss ++ ",sensor_id=".toList ++ escapeTagValue data.id
  let ss := ss ++ ",sensor_name=".toList ++ escapeTagValue data.name
  let ss := ss ++ ",location=".toList ++ escapeTagValue config.getSystemLocation
  let ss := ss ++ ",equipment=".toList ++ escapeTagValue config.getEquipmentId
  let ss := if !data.unit.isEmpty then ss ++ ",unit=".toList ++ escapeTagValue data.unit else ss
  let ss := ss ++ " ".toList
  let ss := ss ++ "value=".toList ++ data.value.fixed6
  let ss := ss ++ ",quality=\"".toList ++ escapeFieldValue data.quality ++ "\"".toList
  let ss := ss ++ " ".toList ++ formatTimestamp data.timestamp
  ss

/-- The loop of `InfluxDBWriter::generateBatchLineProtocol` from index `i`
on, with `ss` the text written so far. -/
def generateBatchLoop (config : Config) : Nat → List SensorData → Str → Str
  | _, [], ss => ss
  | i, d :: rest, ss =>
    let ss := if 0 < i then ss ++ "\n".toList else ss
    let ss := ss ++ generateLineProtocol config d
    generateBatchLoop config (i + 1) rest ss

/-- The function `InfluxDBWriter::generateBatchLineProtocol`. -/
def generateBatchLineProtocol (config : Config) (data : List SensorData) : Str :=
  generateBatchLoop config 0 data []

/-! ## `influxdb_writer.hpp`: delivery -/

/-- The struct `HTTPResponse`. -/
structure HTTPResponse where
  statusCode : Int
  body : Str
  success : Bool
  deriving DecidableEq, Repr

/-- The constructor `HTTPResponse()`. -/
def HTTPResponse.new : HTTPResponse := { statusCode := 0, body := [], success := false }

/-- What the network gives back to one `httpPost` / `httpGet`: whether
`curl_easy_perform` returned `CURLE_OK`, the code `curl_easy_getinfo` reports
for `CURLINFO_RESPONSE_CODE`, and the bytes of the response body, which libcurl
hands to the write callback during the transfer (empty when the answer carries
no body: the callback is then not called). -/
structure CurlResult where
  ok : Bool
  responseCode : Int
  body : Str
  deriving DecidableEq, Repr

/-- An observable action of the writer during a write: a call
`httpPost(url, data)` or a call `sleepMs(ms)`. -/
inductive IOEvent where
  | post (url data : Str)
  | sleep (ms : Nat)
  deriving DecidableEq, Repr

/-- Whether an event is a POST. -/
def IOEvent.isPost : IOEvent → Bool
  | .post _ _ => true
  | _ => false

/-- Number of POSTs in a trace. -/
def postCount (tr : List IOEvent) : Nat := (tr.filter IOEvent.isPost).length

/-- The arguments of the `sleepMs` calls of a trace, in order. -/
def sleepsOf (tr : List IOEvent) : List Nat :=
  tr.filterMap (fun e => match e with
    | .sleep ms => some ms
    | _ => none)

/-- The state of an `InfluxDBWriter`. `curl_` tells whether the handle is
non-null. `maxRetries_` and `retryDelay_` are `int` members that only the
constructor assigns (3 and 1000). -/
structure InfluxDBWriter where
  config_ : Config
  curl_ : Bool
  baseUrl_ : Str
  authHeader_ : Str
  connected_ : Bool
  connectTimeout_ : Int
  requestTimeout_ : Int
  maxRetries_ : Nat
  retryDelay_ : Nat
  totalWrites_ : Nat
  successfulWrites_ : Nat
  failedWrites_ : Nat
  deriving DecidableEq, Repr

/-- The constructor `InfluxDBWriter(config)`. -/
def InfluxDBWriter.new (config : Config) : InfluxDBWriter where
  config_ := config
  curl_ := false
  baseUrl_ := []
  authHeader_ := []
  connected_ := false
  connectTimeout_ := config.getInfluxDBTimeout
  requestTimeout_ := 10000
  maxRetries_ := 3
  retryDelay_ := 1000
  totalWrites_ := 0
  successfulWrites_ := 0
  failedWrites_ := 0

/-- The function `InfluxDBWriter::initialize`; `curlInit` tells whether
`curl_easy_init` returned a handle. -/
def InfluxDBWriter.initializeWriter (w : InfluxDBWriter) (curlInit : Bool) : Bool × InfluxDBWriter :=
  let w := { w with curl_ := curlInit }
  if !w.curl_ then (false, w)
  else
    let w := { w with baseUrl_ := w.config_.getInfluxDBUrl }
    let w := if w.baseUrl_.getLast? = some '/' then { w with baseUrl_ := w.baseUrl_.dropLast } else w
    let token := w.config_.getInfluxDBToken
    let w := if !token.isEmpty then { w with authHeader_ := "Authorization: Token ".toList ++ token } else w
    (true, w)

/-- The function `InfluxDBWriter::buildWriteUrl`. -/
def InfluxDBWriter.buildWriteUrl (w : InfluxDBWriter) : Str :=
  let ss : Str := []
  let ss := ss ++ w.baseUrl_ ++ "/api/v2/write".toList
  let ss := ss ++ "?org=".toList ++ w.config_.getInfluxDBOrg
  let ss := ss ++ "&bucket=".toList ++ w.config_.getInfluxDBBucket
  let ss := ss ++ "&precision=ms".toList
  ss

/-- The function `InfluxDBWriter::buildPingUrl`. -/
def InfluxDBWriter.buildPingUrl (w : InfluxDBWriter) : Str :=
  w.baseUrl_ ++ "/ping".toList

/-- The call `curl_easy_perform(curl_)`, returning whether the code is
`CURLE_OK`. libcurl passes the bytes of the body to `writeCallback` together with the
pointer stored as `CURLOPT_WRITEDATA`. `configureCurlOptions`, the only place
that sets this option, stores `&HTTPResponse().body`: the address of a member of
a temporary object that is destroyed at the end of that statement. So
`writeCallback`, which appends to the string behind the pointer whenever the
pointer is not null, writes to a destroyed object: the call has no defined
result, `none`. When the answer carries no body the callback is not called and
the call returns. -/
def curl_easy_perform (r : CurlResult) : Option Bool :=
  if !r.body.isEmpty then none else some r.ok

/-- The function `InfluxDBWriter::httpPost`, given what the network returns
for this request: without a handle the default response; otherwise, when
`curl_easy_perform` has a defined result, the reported response code and
whether the transfer succeeded. The member `body` of the response is never
written. -/
def InfluxDBWriter.httpPost (w : InfluxDBWriter) (r : CurlResult) : Option HTTPResponse :=
  let response := HTTPResponse.new
  if !w.curl_ then some response
  else
    match curl_easy_perform r with
    | none => none
    | some res =>
      let response := { response with statusCode := r.responseCode }
      let response := { response with success := res }
      some response

/-- The function `InfluxDBWriter::httpGet`, on the same handle and with the
same write callback as `httpPost`. -/
def InfluxDBWriter.httpGet (w : InfluxDBWriter) (r : CurlResult) : Option HTTPResponse :=
  let response := HTTPResponse.new
  if !w.curl_ then some response
  else
    match curl_easy_perform r with
    | none => none
    | some res =>
      let response := { response with statusCode := r.responseCode }
      let response := { response with success := res }
      some response

/-- The function `InfluxDBWriter::ping`. -/
def InfluxDBWriter.ping (w : InfluxDBWriter) (r : CurlResult) : Option Bool :=
  if !w.curl_ then some false
  else
    match w.httpGet r with
    | none => none
    | some response => some (response.success && response.statusCode == 200)

/-- The function `InfluxDBWriter::connect`. -/
def InfluxDBWriter.connect (w : InfluxDBWriter) (r : CurlResult) :
    Option (Bool × InfluxDBWriter) :=
  if w.connected_ then some (true, w)
  else
    match w.ping r with
    | none => none
    | some true => some (true, { w with connected_ := true })
    | some false => some (false, w)

/-- The function `InfluxDBWriter::disconnect`. -/
def InfluxDBWriter.disconnect (w : InfluxDBWriter) : InfluxDBWriter :=
  let w := if w.curl_ then { w with curl_ := false } else w
  { w with connected_ := false }

/-- The function `InfluxDBWriter::shouldRetry`. -/
def shouldRetry (statusCode : Int) : Bool :=
  statusCode == 429 || statusCode == 502 || statusCode == 503 || statusCode == 504
    || statusCode == 0

/-- The `while (retries <= maxRetries_)` loop of `InfluxDBWriter::writeBatch`.
The first component of the result is `true` when the loop was left by
`return true`, `false` when it was left by `break` or by its condition. The
`n`-th call of `httpPost` receives `net n`. The result is `none` when a call of
`httpPost` has no defined result; it is also `none` when the fuel runs out,
which does not happen with the fuel `writeBatch` gives (`writeBatch_returns`,
`writeBatch_undefined`). -/
def InfluxDBWriter.writeBatchLoop (w : InfluxDBWriter) (url lineProtocol : Str)
    (net : Nat → CurlResult) : Nat → Nat → List IOEvent → Option (Bool × List IOEvent)
  | 0, _, _ => none
  | fuel + 1, retries, tr =>
    if retries ≤ w.maxRetries_ then
      match w.httpPost (net (postCount tr)) with
      | none => none
      | some response =>
        let tr := tr ++ [IOEvent.post url lineProtocol]
        if response.success && response.statusCode == 204 then some (true, tr)
        else if !shouldRetry response.statusCode then some (false, tr)
        else
          let retries := retries + 1
          let tr :=
            if retries ≤ w.maxRetries_ then tr ++ [IOEvent.sleep (w.retryDelay_ * retries)]
            else tr
          w.writeBatchLoop url lineProtocol net fuel retries tr
    else some (false, tr)

/-- The function `InfluxDBWriter::writeBatch`: the returned value, the writer
afterwards and the trace of its `httpPost` and `sleepMs` calls; `none` when a
call of `httpPost` has no defined result. -/
def InfluxDBWriter.writeBatch (w : InfluxDBWriter) (data : List SensorData)
    (net : Nat → CurlResult) : Option (Bool × InfluxDBWriter × List IOEvent) :=
  if !w.connected_ || data.isEmpty then some (false, w, [])
  else
    let lineProtocol := generateBatchLineProtocol w.config_ data
    let url := w.buildWriteUrl
    let w := { w with totalWrites_ := w.totalWrites_ + 1 }
    match w.writeBatchLoop url lineProtocol net (w.maxRetries_ + 2) 0 [] with
    | none => none
    | some (true, tr) => some (true, { w with successfulWrites_ := w.successfulWrites_ + 1 }, tr)
    | some (false, tr) => some (false, { w with failedWrites_ := w.failedWrites_ + 1 }, tr)

/-! ## Vocabulary for the delivery properties -/

/-- A response that `writeBatch` accepts: transport success and status 204. -/
def HTTPResponse.accepted (r : HTTPResponse) : Bool :=
  r.success && r.statusCode == 204

/-- A response after which `writeBatch` tries again: not accepted, and its
status passes `shouldRetry`. -/
def HTTPResponse.retriableFailure (r : HTTPResponse) : Bool :=
  !r.accepted && shouldRetry r.statusCode

/-- The oracle that answers the successive requests with the given results and
with a failed transfer without response code and without body after them. -/
def netOfList (rs : List CurlResult) (n : Nat) : CurlResult :=
  rs.getD n { ok := false, responseCode := 0, body := [] }

/-- A completed transfer with the given HTTP status and no body. -/
def httpStatus (code : Int) : CurlResult := { ok := true, responseCode := code, body := [] }

/-- A completed transfer with the given HTTP status and the given body. -/
def httpAnswer (code : Int) (body : Str) : CurlResult :=
  { ok := true, responseCode := code, body := body }

/-- The events of `count` failed attempts starting with attempt number `start`:
each a POST followed by the back-off sleep before the next attempt. -/
def retriedAttempts (w : InfluxDBWriter) (url lineProtocol : Str) (start count : Nat) :
    List IOEvent :=
  ((List.range' start count).map (fun j =>
    [IOEvent.post url lineProtocol, IOEvent.sleep (w.retryDelay_ * (j + 1))])).flatten

/-! ## `data_manager.hpp` -/

/-- What a call `dataWriter_->writeBatch(currentBatch_)` does: it returns a
boolean or raises an exception. -/
inductive SinkOutcome where
  | returned (success : Bool)
  | threw
  deriving DecidableEq, Repr

/-- An observable action of the data manager: `dataQueue_.push(d)`, the
`dataQueue_.front()` / `dataQueue_.pop()` pair, or a call of the writer with
the batch. -/
inductive PipelineEvent where
  | pushed (d : SensorData)
  | popped (d : SensorData)
  | sinkCall (batch : List SensorData)
  deriving DecidableEq, Repr

/-- What a step reads from outside the data manager: the clock when
`shouldFlush` runs, the clock and the millisecond timestamp taken by
`flushBatch`, and what the writer does if it is called. -/
structure StepEnv where
  nowCheck : TimePoint
  nowFlush : TimePoint
  nowMetrics : TimePoint
  sink : SinkOutcome
  deriving DecidableEq, Repr

/-- The state of a `DataManager`. The queue has its front at the head of the
list; `lastValues_` is the map from sensor id to sample, one entry per key;
`dataWriter_` tells whether the pointer is non-null; `workerThreads_` is the
number of worker threads. -/
structure DataManager where
  config_ : Config
  running_ : Bool
  dataQueue_ : List SensorData
  workerThreads_ : Nat
  dataWriter_ : Bool
  metrics_ : PerformanceMetrics
  lastValues_ : List (Str × SensorData)
  currentBatch_ : List SensorData
  lastFlush_ : TimePoint
  deriving DecidableEq, Repr

/-- The constructor `DataManager(config)`; `now` is the clock reading. -/
def DataManager.new (config : Config) (now : TimePoint) : DataManager where
  config_ := config
  running_ := false
  dataQueue_ := []
  workerThreads_ := 0
  dataWriter_ := false
  metrics_ := PerformanceMetrics.new
  lastValues_ := []
  currentBatch_ := []
  lastFlush_ := now

/-- The function `DataManager::initialize`: a negative thread count makes
`reserve` throw, which the function catches. -/
def DataManager.initializeManager (m : DataManager) : Bool × DataManager :=
  if m.running_ then (true, m)
  else
    let threadCount := m.config_.getWorkerThreads
    if threadCount < 0 then (false, m)
    else (true, { m with running_ := true, workerThreads_ := threadCount.toNat })

/-- The function `DataManager::setDataWriter`. -/
def DataManager.setDataWriter (m : DataManager) (writer : Bool) : DataManager :=
  { m with dataWriter_ := writer }

/-- The function `DataManager::getQueueSize`. -/
def DataManager.getQueueSize (m : DataManager) : Nat := m.dataQueue_.length

/-- The function `DataManager::detectOutlier`. -/
def DataManager.detectOutlier (m : DataManager) (data : SensorData) : Bool :=
  match m.lastValues_.lookup data.id with
  | none => false
  | some last =>
    let lastValue := last.value
    let threshold := m.config_.getOutlierThreshold.div (.finite false 100 0)
    let change := ((data.value.sub lastValue).abs).div lastValue.abs
    change.gt threshold

/-- The function `DataManager::validateSensorData`. -/
def DataManager.validateSensorData (m : DataManager) (data : SensorData) : Bool :=
  if !m.config_.getEnableValidation then true
  else if data.id.isEmpty || data.name.isEmpty then false
  else if data.quality != "good".toList && data.quality != "uncertain".toList then false
  else if m.config_.getOutlierDetection && m.detectOutlier data then false
  else true

/-- The function `DataManager::updateLastValue`: `lastValues_[data.id] = data`. -/
def DataManager.updateLastValue (m : DataManager) (data : SensorData) : DataManager :=
  { m with lastValues_ := (data.id, data) :: m.lastValues_.filter (fun p => p.1 != data.id) }

/-- The function `DataManager::addSensorData(const SensorData&)`. -/
def DataManager.addSensorData (m : DataManager) (data : SensorData) :
    DataManager × List PipelineEvent :=
  if !m.running_ then (m, [])
  else if !m.validateSensorData data then
    ({ m with metrics_ := { m.metrics_ with failedWrites := m.metrics_.failedWrites + 1 } }, [])
  else
    let m := { m with dataQueue_ := m.dataQueue_ ++ [data] }
    let m := { m with metrics_ := { m.metrics_ with totalSamples := m.metrics_.totalSamples + 1 } }
    (m, [PipelineEvent.pushed data])

/-- The loop body of `DataManager::addSensorData(const std::vector<SensorData>&)`,
run over the elements in order. -/
def DataManager.addSensorDataLoop (m : DataManager) (tr : List PipelineEvent) :
    List SensorData → DataManager × List PipelineEvent
  | [] => (m, tr)
  | data :: rest =>
    if m.validateSensorData data then
      let m := { m with dataQueue_ := m.dataQueue_ ++ [data] }
      let m := { m with metrics_ := { m.metrics_ with totalSamples := m.metrics_.totalSamples + 1 } }
      DataManager.addSensorDataLoop m (tr ++ [PipelineEvent.pushed data]) rest
    else
      let m := { m with metrics_ := { m.metrics_ with failedWrites := m.metrics_.failedWrites + 1 } }
      DataManager.addSensorDataLoop m tr rest

/-- The function `DataManager::addSensorData(const std::vector<SensorData>&)`. -/
def DataManager.addSensorDataList (m : DataManager) (dataList : List SensorData) :
    DataManager × List PipelineEvent :=
  if !m.running_ || dataList.isEmpty then (m, [])
  else m.addSensorDataLoop [] dataList

/-- The conversion `static_cast<size_t>` of an `int`. -/
def toSizeT (x : Int) : Nat := (x % 2 ^ 64).toNat

/-- The function `DataManager::shouldFlush`; `now` is the clock reading. -/
def DataManager.shouldFlush (m : DataManager) (now : TimePoint) : Bool :=
  if toSizeT m.config_.getBatchSize ≤ m.currentBatch_.length then true
  else
    let elapsed := Int.tdiv (now.sinceEpochNs - m.lastFlush_.sinceEpochNs) 1000000
    decide (m.config_.getFlushInterval ≤ elapsed)

/-- The function `DataManager::updateMetrics`. -/
def DataManager.updateMetrics (m : DataManager) (success : Bool) (now : TimePoint) : DataManager :=
  let m :=
    if success then
      { m with metrics_ := { m.metrics_ with successfulWrites := m.metrics_.successfulWrites + 1 } }
    else
      { m with metrics_ := { m.metrics_ with failedWrites := m.metrics_.failedWrites + 1 } }
  { m with metrics_ := { m.metrics_ with lastUpdateTime := getCurrentTimestamp now } }

/-- The function `DataManager::flushBatch`. -/
def DataManager.flushBatch (m : DataManager) (env : StepEnv) : DataManager × List PipelineEvent :=
  if m.currentBatch_.isEmpty || !m.dataWriter_ then (m, [])
  else
    let call := [PipelineEvent.sinkCall m.currentBatch_]
    let m :=
      match env.sink with
      | .returned success =>
        let m :=
          if success then
            { m with metrics_ :=
                { m.metrics_ with successfulWrites := m.metrics_.successfulWrites + 1 } }
          else
            { m with metrics_ := { m.metrics_ with failedWrites := m.metrics_.failedWrites + 1 } }
        m.updateMetrics success env.nowMetrics
      | .threw =>
        { m with metrics_ := { m.metrics_ with failedWrites := m.metrics_.failedWrites + 1 } }
    let m := { m with currentBatch_ := [] }
    let m := { m with lastFlush_ := env.nowFlush }
    (m, call)

/-- The function `DataManager::addToBatch`. -/
def DataManager.addToBatch (m : DataManager) (data : SensorData) (env : StepEnv) :
    DataManager × List PipelineEvent :=
  let m := { m with currentBatch_ := m.currentBatch_ ++ [data] }
  if m.shouldFlush env.nowCheck then m.flushBatch env else (m, [])

/-- One iteration of the loop of `DataManager::workerThread`, run without another
thread in between: with a non-empty queue the wait returns at once, the front
sample is popped and processed; with an empty queue the wait times out and the
flush check runs. A worker that finds `running_` false leaves its loop. The call
of `calculateLatency` only writes the latency average, which is not modelled.
The code gives up `queueMutex_` after the pop and takes `lastValuesMutex_` and
`batchMutex_` one after the other; the iteration cut at these points, for
several workers, is `WorkerPool.step`. -/
def DataManager.workerIteration (m : DataManager) (env : StepEnv) :
    DataManager × List PipelineEvent :=
  if !m.running_ then (m, [])
  else
    match m.dataQueue_ with
    | data :: rest =>
      let m := { m with dataQueue_ := rest }
      let m := m.updateLastValue data
      let (m, evs) := m.addToBatch data env
      (m, PipelineEvent.popped data :: evs)
    | [] =>
      if m.shouldFlush env.nowCheck then m.flushBatch env else (m, [])

/-- The function `DataManager::shutdown`. -/
def DataManager.shutdown (m : DataManager) (env : StepEnv) : DataManager × List PipelineEvent :=
  if !m.running_ then (m, [])
  else
    let m := { m with running_ := false }
    let m := { m with workerThreads_ := 0 }
    if !m.currentBatch_.isEmpty then m.flushBatch env else (m, [])

/-- A call made on the data manager from outside, or one worker iteration. -/
inductive PipelineOp where
  | start
  | setWriter (writer : Bool)
  | enqueue (data : SensorData)
  | enqueueMany (dataList : List SensorData)
  | worker (env : StepEnv)
  | stop (env : StepEnv)
  deriving DecidableEq, Repr

/-- The effect of one operation. -/
def DataManager.step (m : DataManager) : PipelineOp → DataManager × List PipelineEvent
  | .start => (m.initializeManager.2, [])
  | .setWriter writer => (m.setDataWriter writer, [])
  | .enqueue data => m.addSensorData data
  | .enqueueMany dataList => m.addSensorDataList dataList
  | .worker env => m.workerIteration env
  | .stop env => m.shutdown env

/-- The effect of a sequence of operations, with the events they produce. -/
def DataManager.run (m : DataManager) : List PipelineOp → DataManager × List PipelineEvent
  | [] => (m, [])
  | op :: ops =>
    let r := m.step op
    let r2 := DataManager.run r.1 ops
    (r2.1, r.2 ++ r2.2)

/-- The samples pushed onto the queue, in order. -/
def pushedOf (tr : List PipelineEvent) : List SensorData :=
  tr.filterMap (fun e => match e with
    | .pushed d => some d
    | _ => none)

/-- The samples popped from the queue, in order. -/
def poppedOf (tr : List PipelineEvent) : List SensorData :=
  tr.filterMap (fun e => match e with
    | .popped d => some d
    | _ => none)

/-- The function `DataManager::addSensorData(const SensorData&)` up to its
block `std::lock_guard<std::mutex> lock(queueMutex_)`: the test of `running_`
and the validation. The boolean tells whether the call goes on to the push. -/
def DataManager.addSensorDataCheck (m : DataManager) (data : SensorData) : Bool × DataManager :=
  if !m.running_ then (false, m)
  else if !m.validateSensorData data then
    (false, { m with metrics_ := { m.metrics_ with failedWrites := m.metrics_.failedWrites + 1 } })
  else (true, m)

/-- The function `DataManager::addSensorData(const SensorData&)` from its block
`std::lock_guard<std::mutex> lock(queueMutex_)` on: the push and the count. -/
def DataManager.addSensorDataPush (m : DataManager) (data : SensorData) :
    DataManager × List PipelineEvent :=
  let m := { m with dataQueue_ := m.dataQueue_ ++ [data] }
  let m := { m with metrics_ := { m.metrics_ with totalSamples := m.metrics_.totalSamples + 1 } }
  (m, [PipelineEvent.pushed data])

/-- A data manager with the threads that work on it, each between two of its
critical sections. `validated` holds the samples of the calls of
`addSensorData(const SensorData&)` that have passed the validation and not yet
taken `queueMutex_`; `listCall` holds the elements still to be visited by the
call of `addSensorData(const std::vector<SensorData>&)` that holds `queueMutex_`,
if there is one; `popped` holds the samples that workers have popped and not yet
passed to `updateLastValue`; `cached` holds the samples that workers have passed
to `updateLastValue` and not yet to `addToBatch`. -/
structure WorkerPool where
  manager : DataManager
  validated : List SensorData
  listCall : Option (List SensorData)
  popped : List SensorData
  cached : List SensorData
  deriving DecidableEq, Repr

/-- A new data manager, with no thread at work. -/
def WorkerPool.new (config : Config) (now : TimePoint) : WorkerPool where
  manager := DataManager.new config now
  validated := []
  listCall := none
  popped := []
  cached := []

/-- The number of worker threads that hold no sample: they are at the wait on
`queueCondition_`. -/
def WorkerPool.waitingWorkers (p : WorkerPool) : Nat :=
  p.manager.workerThreads_ - (p.popped.length + p.cached.length)

/-- An action of the data manager that other threads can tell apart: an action
on the queue or the writer, or a call `updateLastValue(d)`. -/
inductive PoolEvent where
  | pipeline (e : PipelineEvent)
  | cacheUpdate (d : SensorData)
  deriving DecidableEq, Repr

/-- What one thread does between two points at which another thread can run:
a call of `initialize()` or `setDataWriter`; the validation of a call
`addSensorData(data)`, and the push of the `i`-th validated sample; the entry of
a call `addSensorData(dataList)` into its critical section, and one round of its
loop; of a worker, the pop under `queueMutex_`, the call of `updateLastValue`
for the `i`-th popped sample, the call of `addToBatch` for the `i`-th cached
sample, and the flush check after a wait that timed out. -/
inductive WorkerOp where
  | start
  | setWriter (writer : Bool)
  | validate (data : SensorData)
  | push (i : Nat)
  | beginMany (dataList : List SensorData)
  | stepMany
  | pop
  | update (i : Nat)
  | append (i : Nat) (env : StepEnv)
  | timeout (env : StepEnv)
  deriving DecidableEq, Repr

/-- The effect of one such action. An action that cannot take place leaves
everything as it is: a push or a pop while a list call holds `queueMutex_`, a
second list call while one is under way, a pop or a flush check with every
worker holding a sample or with `running_` false, a pop from an empty queue, and
an index beyond the samples held. `shutdown()` is not among the actions: the
pool is followed from the constructor up to the call of `shutdown()`. The flush
check of a worker whose wait timed out takes place after it gave up
`queueMutex_`, so the queue need not be empty any more. -/
def WorkerPool.step (p : WorkerPool) : WorkerOp → WorkerPool × List PoolEvent
  | .start => ({ p with manager := p.manager.initializeManager.2 }, [])
  | .setWriter writer => ({ p with manager := p.manager.setDataWriter writer }, [])
  | .validate data =>
    let r := p.manager.addSensorDataCheck data
    if r.1 then ({ p with manager := r.2, validated := p.validated ++ [data] }, [])
    else ({ p with manager := r.2 }, [])
  | .push i =>
    match p.listCall, p.validated[i]? with
    | none, some data =>
      let r := p.manager.addSensorDataPush data
      ({ p with manager := r.1, validated := p.validated.eraseIdx i }, r.2.map PoolEvent.pipeline)
    | _, _ => (p, [])
  | .beginMany dataList =>
    if !p.manager.running_ || dataList.isEmpty then (p, [])
    else
      match p.listCall with
      | none => ({ p with listCall := some dataList }, [])
      | some _ => (p, [])
  | .stepMany =>
    match p.listCall with
    | some (data :: rest) =>
      let r := p.manager.addSensorDataLoop [] [data]
      ({ p with manager := r.1, listCall := if rest.isEmpty then none else some rest },
        r.2.map PoolEvent.pipeline)
    | _ => ({ p with listCall := none }, [])
  | .pop =>
    if !p.manager.running_ || p.listCall.isSome || p.waitingWorkers == 0 then (p, [])
    else
      match p.manager.dataQueue_ with
      | data :: rest =>
        ({ p with manager := { p.manager with dataQueue_ := rest }, popped := p.popped ++ [data] },
          [PoolEvent.pipeline (PipelineEvent.popped data)])
      | [] => (p, [])
  | .update i =>
    match p.popped[i]? with
    | some data =>
      ({ p with manager := p.manager.updateLastValue data, popped := p.popped.eraseIdx i,
                cached := p.cached ++ [data] }, [PoolEvent.cacheUpdate data])
    | none => (p, [])
  | .append i env =>
    match p.cached[i]? with
    | some data =>
      let r := p.manager.addToBatch data env
      ({ p with manager := r.1, cached := p.cached.eraseIdx i }, r.2.map PoolEvent.pipeline)
    | none => (p, [])
  | .timeout env =>
    if !p.manager.running_ || p.waitingWorkers == 0 then (p, [])
    else if p.manager.shouldFlush env.nowCheck then
      let r := p.manager.flushBatch env
      ({ p with manager := r.1 }, r.2.map PoolEvent.pipeline)
    else (p, [])

/-- The effect of a sequence of such actions, with the events they produce. -/
def WorkerPool.run (p : WorkerPool) : List WorkerOp → WorkerPool × List PoolEvent
  | [] => (p, [])
  | op :: ops =>
    let r := p.step op
    let r2 := WorkerPool.run r.1 ops
    (r2.1, r.2 ++ r2.2)

/-- The samples passed to `updateLastValue`, in order. -/
def cacheUpdatesOf (tr : List PoolEvent) : List SensorData :=
  tr.filterMap (fun e => match e with
    | .cacheUpdate d => some d
    | _ => none)

/-- The actions on the queue and the writer, in order. -/
def pipelineOf (tr : List PoolEvent) : List PipelineEvent :=
  tr.filterMap (fun e => match e with
    | .pipeline e => some e
    | _ => none)

/-- A sample that the claim says is rejected: empty id, empty name, or a
quality that is neither `good` nor `uncertain`. -/
def invalidSample (d : SensorData) : Prop :=
  d.id = [] ∨ d.name = [] ∨ (d.quality ≠ "good".toList ∧ d.quality ≠ "uncertain".toList)

/-! ## `sensor_mapping.hpp` -/

/-- IEEE-754 comparison `x >= y` (false when either side is a NaN). -/
def Double.ge : Double → Double → Bool
  | .nan, _ => false
  | _, .nan => false
  | .inf a, .inf b => !a || b
  | .inf a, .finite _ _ _ => !a
  | .finite _ _ _, .inf b => b
  | .finite nx mx ex, .finite ny my ey =>
    let e := min ex ey
    let ix : Int := (if nx then -1 else 1) * (mx * 2 ^ (ex - e).toNat : Nat)
    let iy : Int := (if ny then -1 else 1) * (my * 2 ^ (ey - e).toNat : Nat)
    decide (iy ≤ ix)

/-- IEEE-754 comparison `x <= y`. -/
def Double.le (x y : Double) : Bool := y.ge x

/-- IEEE-754 comparison `x == y` (false when either side is a NaN; the two
zeros are equal). -/
def Double.equal : Double → Double → Bool
  | .nan, _ => false
  | _, .nan => false
  | .inf a, .inf b => a == b
  | .inf _, .finite _ _ _ => false
  | .finite _ _ _, .inf _ => false
  | .finite nx mx ex, .finite ny my ey =>
    let e := min ex ey
    let ix : Int := (if nx then -1 else 1) * (mx * 2 ^ (ex - e).toNat : Nat)
    let iy : Int := (if ny then -1 else 1) * (my * 2 ^ (ey - e).toNat : Nat)
    decide (ix = iy)

/-- The conversion of an integer of at most 32 bits to `double`. -/
def Double.ofInt (i : Int) : Double := Double.ofRatio (decide (i < 0)) i.natAbs 1

/-- The enumeration `SensorMapping::SensorCategory`. -/
inductive SensorCategory where
  | PRESSURE
  | TEMPERATURE
  | FLOW
  | LEVEL
  | PUMP
  | FILTER
  | SYSTEM
  | ALARM
  deriving DecidableEq, Repr

/-- The record `SensorMapping::SensorDefinition`. -/
structure SensorDefinition where
  id : Str
  name : Str
  nodeId : Str
  unit : Str
  category : SensorCategory
  minValue : Double
  maxValue : Double
  isDigital : Bool
  deriving DecidableEq, Repr

/-- The catalog `SensorMapping::getAllSensors`, entry by entry. -/
def getAllSensors : List SensorDefinition :=
  [ ⟨"pressure_supply".toList, "Ana Besleme Basıncı".toList,
      "ns=2;s=\"DB100\".\"Pressure_Supply\"".toList, "bar".toList,
      .PRESSURE, .finite false 0 0, .finite false 350 0, false⟩,
    ⟨"pressure_return".toList, "Dönüş Basıncı".toList,
      "ns=2;s=\"DB100\".\"Pressure_Return\"".toList, "bar".toList,
      .PRESSURE, .finite false 0 0, .finite false 50 0, false⟩,
    ⟨"pressure_accumulator".toList, "Akümülatör Basıncı".toList,
      "ns=2;s=\"DB100\".\"Pressure_Accumulator\"".toList, "bar".toList,
      .PRESSURE, .finite false 0 0, .finite false 350 0, false⟩,
    ⟨"pressure_filter_inlet".toList, "Filtre Giriş Basıncı".toList,
      "ns=2;s=\"DB100\".\"Pressure_Filter_Inlet\"".toList, "bar".toList,
      .PRESSURE, .finite false 0 0, .finite false 50 0, false⟩,
    ⟨"pressure_filter_outlet".toList, "Filtre Çıkış Basıncı".toList,
      "ns=2;s=\"DB100\".\"Pressure_Filter_Outlet\"".toList, "bar".toList,
      .PRESSURE, .finite false 0 0, .finite false 50 0, false⟩,
    ⟨"temperature_oil_tank".toList, "Tank Yağ Sıcaklığı".toList,
      "ns=2;s=\"DB100\".\"Temperature_Oil_Tank\"".toList, "°C".toList,
      .TEMPERATURE, .finite true 10 0, .finite false 80 0, false⟩,
    ⟨"temperature_oil_return".toList, "Dönüş Yağ Sıcaklığı".toList,
      "ns=2;s=\"DB100\".\"Temperature_Oil_Return\"".toList, "°C".toList,
      .TEMPERATURE, .finite true 10 0, .finite false 80 0, false⟩,
    ⟨"temperature_motor".toList, "Motor Sıcaklığı".toList,
      "ns=2;s=\"DB100\".\"Temperature_Motor\"".toList, "°C".toList,
      .TEMPERATURE, .finite true 10 0, .finite false 100 0, false⟩,
    ⟨"temperature_ambient".toList, "Ortam Sıcaklığı".toList,
      "ns=2;s=\"DB100\".\"Temperature_Ambient\"".toList, "°C".toList,
      .TEMPERATURE, .finite true 10 0, .finite false 50 0, false⟩,
    ⟨"flow_rate_supply".toList, "Besleme Debisi".toList,
      "ns=2;s=\"DB100\".\"Flow_Rate_Supply\"".toList, "L/min".toList,
      .FLOW, .finite false 0 0, .finite false 200 0, false⟩,
    ⟨"flow_rate_return".toList, "Dönüş Debisi".toList,
      "ns=2;s=\"DB100\".\"Flow_Rate_Return\"".toList, "L/min".toList,
      .FLOW, .finite false 0 0, .finite false 200 0, false⟩,
    ⟨"oil_level_tank".toList, "Tank Yağ Seviyesi".toList,
      "ns=2;s=\"DB100\".\"Oil_Level_Tank\"".toList, "%".toList,
      .LEVEL, .finite false 0 0, .finite false 100 0, false⟩,
    ⟨"pump_current".toList, "Motor Akımı".toList,
      "ns=2;s=\"DB100\".\"Pump_Current\"".toList, "A".toList,
      .PUMP, .finite false 0 0, .finite false 50 0, false⟩,
    ⟨"pump_speed".toList, "Motor Devir".toList,
      "ns=2;s=\"DB100\".\"Pump_Speed\"".toList, "rpm".toList,
      .PUMP, .finite false 0 0, .finite false 1500 0, false⟩,
    ⟨"pump_power".toList, "Motor Güç".toList,
      "ns=2;s=\"DB100\".\"Pump_Power\"".toList, "kW".toList,
      .PUMP, .finite false 0 0, .finite false 30 0, false⟩,
    ⟨"pump_hours".toList, "Toplam Çalışma Saati".toList,
      "ns=2;s=\"DB100\".\"Pump_Hours\"".toList, "h".toList,
      .PUMP, .finite false 0 0, .finite false 100000 0, false⟩,
    ⟨"filter_pressure_diff".toList, "Filtre Basınç Farkı".toList,
      "ns=2;s=\"DB100\".\"Filter_Pressure_Diff\"".toList, "bar".toList,
      .FILTER, .finite false 0 0, .finite false 10 0, false⟩,
    ⟨"pump_status".toList, "Pompa Çalışma Durumu".toList,
      "ns=2;s=\"DB100\".\"Pump_Status\"".toList, [],
      .SYSTEM, .finite false 0 0, .finite false 1 0, true⟩,
    ⟨"system_ready".toList, "Sistem Hazır".toList,
      "ns=2;s=\"DB100\".\"System_Ready\"".toList, [],
      .SYSTEM, .finite false 0 0, .finite false 1 0, true⟩,
    ⟨"system_running".toList, "Sistem Çalışıyor".toList,
      "ns=2;s=\"DB100\".\"System_Running\"".toList, [],
      .SYSTEM, .finite false 0 0, .finite false 1 0, true⟩,
    ⟨"emergency_stop".toList, "Acil Durdurma".toList,
      "ns=2;s=\"DB100\".\"Emergency_Stop\"".toList, [],
      .SYSTEM, .finite false 0 0, .finite false 1 0, true⟩,
    ⟨"maintenance_mode".toList, "Bakım Modu".toList,
      "ns=2;s=\"DB100\".\"Maintenance_Mode\"".toList, [],
      .SYSTEM, .finite false 0 0, .finite false 1 0, true⟩,
    ⟨"oil_level_low_alarm".toList, "Düşük Yağ Seviyesi".toList,
      "ns=2;s=\"DB100\".\"Oil_Level_Low_Alarm\"".toList, [],
      .ALARM, .finite false 0 0, .finite false 1 0, true⟩,
    ⟨"filter_status".toList, "Filtre Durumu".toList,
      "ns=2;s=\"DB100\".\"Filter_Status\"".toList, [],
      .FILTER, .finite false 0 0, .finite false 1 0, true⟩,
    ⟨"filter_alarm".toList, "Filtre Tıkanma Alarmı".toList,
      "ns=2;s=\"DB100\".\"Filter_Alarm\"".toList, [],
      .ALARM, .finite false 0 0, .finite false 1 0, true⟩,
    ⟨"alarm_high_pressure".toList, "Yüksek Basınç Alarmı".toList,
      "ns=2;s=\"DB100\".\"Alarm_High_Pressure\"".toList, [],
      .ALARM, .finite false 0 0, .finite false 1 0, true⟩,
    ⟨"alarm_high_temperature".toList, "Yüksek Sıcaklık Alarmı".toList,
      "ns=2;s=\"DB100\".\"Alarm_High_Temperature\"".toList, [],
      .ALARM, .finite false 0 0, .finite false 1 0, true⟩,
    ⟨"alarm_low_oil_level".toList, "Düşük Yağ Seviyesi Alarmı".toList,
      "ns=2;s=\"DB100\".\"Alarm_Low_Oil_Level\"".toList, [],
      .ALARM, .finite false 0 0, .finite false 1 0, true⟩,
    ⟨"warning_filter".toList, "Filtre Uyarısı".toList,
      "ns=2;s=\"DB100\".\"Warning_Filter\"".toList, [],
      .ALARM, .finite false 0 0, .finite false 1 0, true⟩ ]

/-- The function `SensorMapping::getSensorById`: the first entry with the id,
or the entry with an empty id built with the default range. -/
def getSensorById (id : Str) : SensorDefinition :=
  match getAllSensors.find? (fun sensor => sensor.id == id) with
  | some sensor => sensor
  | none => ⟨[], [], [], [], .SYSTEM, .finite false 0 0, .finite false 1000 0, false⟩

/-- The function `SensorMapping::validateSensorValue`. -/
def validateSensorValue (sensor : SensorDefinition) (value : Double) : Bool :=
  if sensor.isDigital then
    value.equal (.finite false 0 0) || value.equal (.finite false 1 0)
  else
    value.ge sensor.minValue && value.le sensor.maxValue

/-! ## `opcua_client.hpp` -/

/-- The enumeration `ConnectionState`, in declaration order. -/
inductive ConnectionState where
  | DISCONNECTED
  | CONNECTING
  | CONNECTED
  | SUBSCRIPTION_ACTIVE
  | ERROR
  deriving DecidableEq, Repr

/-- The underlying value of a `ConnectionState`, which `>=` compares. -/
def ConnectionState.toNat : ConnectionState → Nat
  | .DISCONNECTED => 0
  | .CONNECTING => 1
  | .CONNECTED => 2
  | .SUBSCRIPTION_ACTIVE => 3
  | .ERROR => 4

/-- A `UA_String`: `length`, and under `data` the characters the pointer refers
to, `none` when the storage it refers to has been destroyed. -/
structure UAString where
  length : Nat
  data : Option Str
  deriving DecidableEq, Repr

/-- A `UA_NodeId` with a string identifier: 16-bit namespace index and the
identifier. -/
structure UANodeId where
  namespaceIndex : Nat
  identifier : UAString
  deriving DecidableEq, Repr

/-- The record `NodeInfo` of `common.hpp`. -/
structure NodeInfo where
  id : Str
  name : Str
  nodeId : UANodeId
  dataType : Str
  isSubscribed : Bool
  deriving DecidableEq, Repr

/-- The record `SubscriptionData`. -/
structure SubscriptionData where
  subscriptionId : Nat
  monitoredItemId : Nat
  sensorId : Str
  active : Bool
  deriving DecidableEq, Repr

/-- The payload of a `UA_Variant` as far as the client looks at it: one scalar
of a type the conversions know, or anything else. A `float` is given by the
`double` it converts to. -/
inductive UAVariant where
  | double (v : Double)
  | float (v : Double)
  | int32 (v : Int)
  | int16 (v : Int)
  | uint32 (v : Nat)
  | uint16 (v : Nat)
  | boolean (v : Bool)
  | byte (v : Nat)
  | other
  deriving DecidableEq, Repr

/-- The fields of a `UA_DataValue` that `processDataChange` reads; the server
timestamp is a `UA_DateTime`, 100-nanosecond ticks since 1601-01-01. -/
structure UADataValue where
  hasValue : Bool
  value : UAVariant
  hasStatus : Bool
  status : Nat
  hasServerTimestamp : Bool
  serverTimestamp : Int
  deriving DecidableEq, Repr

/-- What the server answers to the calls `connect()` makes: the status of
`UA_Client_connect` for an endpoint, the status of the read of a node (the
first argument is the position of the entry in the discovery loop), the service
result and subscription id of `UA_Client_Subscriptions_create`, and the status
and item id of `UA_Client_MonitoredItems_createDataChange` (the first argument
is the position in the loop, the second the subscription id). Status 0 is
`UA_STATUSCODE_GOOD`. The identifier bytes that reach the server are those found
behind the data pointer of the node id at the time of the call, which the node
id does not determine; the answers are given per position for that reason. -/
structure UAServer where
  connectStatus : Str → Nat
  readStatus : Nat → UANodeId → Nat
  createSubscription : Nat × Nat
  createMonitoredItem : Nat → Nat → UANodeId → Nat × Nat

/-- The state of an `OPCUAClient`. `client_` tells whether the handle is
non-null; `sensorNodes_` is the `std::map`, as the list of its entries in key
order; the threads and the security settings are left out. -/
structure OPCUAClient where
  config_ : Config
  client_ : Bool
  state_ : ConnectionState
  running_ : Bool
  endpoint_ : Str
  subscriptionId_ : Nat
  subscriptions_ : List SubscriptionData
  sensorNodes_ : List (Str × NodeInfo)
  sensorDefinitions_ : List SensorDefinition
  reconnectAttempts_ : Int
  lastReconnectAttempt_ : TimePoint
  messagesReceived_ : Nat
  subscriptionErrors_ : Nat
  lastDataTime_ : TimePoint
  deriving DecidableEq, Repr

/-- The constructor `OPCUAClient(config, dataManager)`; the two time points are
default-constructed. -/
def OPCUAClient.new (config : Config) : OPCUAClient where
  config_ := config
  client_ := false
  state_ := .DISCONNECTED
  running_ := false
  endpoint_ := config.getOPCUAEndpoint
  subscriptionId_ := 0
  subscriptions_ := []
  sensorNodes_ := []
  sensorDefinitions_ := getAllSensors
  reconnectAttempts_ := 0
  lastReconnectAttempt_ := ⟨0⟩
  messagesReceived_ := 0
  subscriptionErrors_ := 0
  lastDataTime_ := ⟨0⟩

/-- The function `OPCUAClient::setState`. -/
def OPCUAClient.setState (c : OPCUAClient) (newState : ConnectionState) : OPCUAClient :=
  if c.state_ ≠ newState then { c with state_ := newState } else c

/-- The function `OPCUAClient::isConnected`: `state_ >= ConnectionState::CONNECTED`. -/
def OPCUAClient.isConnected (c : OPCUAClient) : Bool :=
  decide (ConnectionState.CONNECTED.toNat ≤ c.state_.toNat)

/-- The function `OPCUAClient::resetReconnectAttempts`. -/
def OPCUAClient.resetReconnectAttempts (c : OPCUAClient) : OPCUAClient :=
  { c with reconnectAttempts_ := 0 }

/-- The function `OPCUAClient::initialize`; `clientNew` tells whether
`UA_Client_new()` returned a handle. -/
def OPCUAClient.initializeClient (c : OPCUAClient) (clientNew : Bool) : Bool × OPCUAClient :=
  let c := { c with client_ := clientNew }
  if !c.client_ then (false, c)
  else
    let c := c.setState .DISCONNECTED
    (true, c)

/-- An exception derived from `std::exception` that the node id parsing raises. -/
inductive StdException where
  | invalidArgument
  | outOfRange
  deriving DecidableEq, Repr

/-- Whether `s` begins with `pat`. -/
def startsWith : Str → Str → Bool
  | [], _ => true
  | _ :: _, [] => false
  | p :: ps, c :: cs => p == c && startsWith ps cs

/-- The search of `pat` in `s` from the front, `i` being the position of the
head of `s`. -/
def findFrom (pat : Str) : Str → Nat → Option Nat
  | [], i => if pat.isEmpty then some i else none
  | c :: cs, i => if startsWith pat (c :: cs) then some i else findFrom pat cs (i + 1)

/-- The function `std::string::find`; `none` is `npos`. -/
def strFind (s pat : Str) : Option Nat := findFrom pat s 0

/-- The function `std::string::substr(pos, count)` for `pos` within the string. -/
def substr (s : Str) (pos count : Nat) : Str := (s.drop pos).take count

/-- White space as `std::isspace` sees it in the C locale. -/
def isSpaceChar (c : Char) : Bool :=
  c == ' ' || c == '\t' || c == '\n' || c == '\x0b' || c == '\x0c' || c == '\r'

/-- The function `std::stoi` in base 10: leading white space, an optional sign,
then digits; what follows the digits is ignored. -/
def stoi (s : Str) : Except StdException Int :=
  let s := s.dropWhile isSpaceChar
  let (neg, s) :=
    match s with
    | '-' :: rest => (true, rest)
    | '+' :: rest => (false, rest)
    | _ => (false, s)
  let digits := s.takeWhile Char.isDigit
  if digits.isEmpty then .error .invalidArgument
  else
    let n : Nat := digits.foldl (fun acc c => acc * 10 + (c.toNat - '0'.toNat)) 0
    let v : Int := if neg then -(n : Int) else n
    if v < -2147483648 ∨ 2147483647 < v then .error .outOfRange
    else .ok v

/-- The macro `UA_NODEID_STRING(nsIndex, chars)`: the identifier is
`UA_STRING(chars)`, whose length is `strlen(chars)` and whose data pointer is
`chars` itself; nothing is copied. -/
def UA_NODEID_STRING (nsIndex : Nat) (chars : Str) : UANodeId :=
  let text := chars.takeWhile (fun ch => ch != '\x00')
  ⟨nsIndex, ⟨text.length, some text⟩⟩

/-- The statements of `OPCUAClient::parseNodeId` before its `return`: the
namespace `ns` and the local string `identifier`. The length passed to the first
`substr` is computed in `size_t`. For an empty identifier the test of its first
and last character is taken as false. -/
def parseNodeIdLocals (nodeIdString : Str) : Except StdException (Int × Str) :=
  match strFind nodeIdString "ns=".toList, strFind nodeIdString ";s=".toList with
  | some nsPos, some sPos =>
    let count := (((sPos : Int) - (nsPos : Int) - 3) % 2 ^ 64).toNat
    match stoi (substr nodeIdString (nsPos + 3) count) with
    | .error e => .error e
    | .ok ns =>
      let identifier := nodeIdString.drop (sPos + 3)
      let identifier :=
        if identifier.head? = some '"' ∧ identifier.getLast? = some '"' then
          substr identifier 1 (((identifier.length : Int) - 2) % 2 ^ 64).toNat
        else identifier
      .ok (ns, identifier)
  | _, _ => .error .invalidArgument

/-- The function `OPCUAClient::parseNodeId`. Its last statement is
`return UA_NODEID_STRING(ns, const_cast<char*>(identifier.c_str()))`: the
namespace is converted to 16 bits, and the data pointer of the identifier is the
buffer of the local `std::string identifier`, which is destroyed when the
function returns. The caller receives the namespace and the length; the
characters are no longer there, `data` is `none`. -/
def parseNodeId (nodeIdString : Str) : Except StdException UANodeId :=
  match parseNodeIdLocals nodeIdString with
  | .error e => .error e
  | .ok (ns, identifier) =>
    let nodeId := UA_NODEID_STRING (ns % 65536).toNat identifier
    .ok { nodeId with identifier := { nodeId.identifier with data := none } }

/-- Comparison `a < b` of two `std::string`s. -/
def strLt : Str → Str → Bool
  | [], [] => false
  | [], _ :: _ => true
  | _ :: _, [] => false
  | a :: as, b :: bs =>
    if a.toNat < b.toNat then true
    else if b.toNat < a.toNat then false
    else strLt as bs

/-- The assignment `map[key] = value` on a `std::map` given by its entries in
key order. -/
def mapInsert (key : Str) (value : NodeInfo) : List (Str × NodeInfo) → List (Str × NodeInfo)
  | [] => [(key, value)]
  | (k, v) :: rest =>
    if key = k then (key, value) :: rest
    else if strLt key k then (key, value) :: (k, v) :: rest
    else (k, v) :: mapInsert key value rest

/-- The function `OPCUAClient::addSensorNode`; `i` is the position of the
entry in the discovery loop. An exception of `parseNodeId` is caught. -/
def OPCUAClient.addSensorNode (c : OPCUAClient) (server : UAServer) (i : Nat)
    (sensor : SensorDefinition) : Bool × OPCUAClient :=
  match parseNodeId sensor.nodeId with
  | .error _ => (false, c)
  | .ok nodeId =>
    let status := server.readStatus i nodeId
    if status = 0 then
      let nodeInfo : NodeInfo := ⟨sensor.id, sensor.name, nodeId, [], false⟩
      (true, { c with sensorNodes_ := mapInsert sensor.id nodeInfo c.sensorNodes_ })
    else (false, c)

/-- The loop of `OPCUAClient::discoverNodes` from position `i` on. -/
def OPCUAClient.discoverLoop (server : UAServer) :
    Nat → List SensorDefinition → OPCUAClient → Int → OPCUAClient × Int
  | _, [], c, discoveredCount => (c, discoveredCount)
  | i, sensor :: rest, c, discoveredCount =>
    let r := c.addSensorNode server i sensor
    OPCUAClient.discoverLoop server (i + 1) rest r.2
      (if r.1 then discoveredCount + 1 else discoveredCount)

/-- The function `OPCUAClient::discoverNodes`. -/
def OPCUAClient.discoverNodes (c : OPCUAClient) (server : UAServer) : Bool × OPCUAClient :=
  let c := { c with sensorNodes_ := [] }
  let r := OPCUAClient.discoverLoop server 0 c.sensorDefinitions_ c 0
  (decide (0 < r.2), r.1)

/-- The function `OPCUAClient::createSubscription`. -/
def OPCUAClient.createSubscription (c : OPCUAClient) (server : UAServer) : Bool × OPCUAClient :=
  let response := server.createSubscription
  if response.1 ≠ 0 then (false, c)
  else (true, { c with subscriptionId_ := response.2 })

/-- The loop of `OPCUAClient::addMonitoredItems` over the entries of
`sensorNodes_` from position `i` on; `subs` is `subscriptions_`. -/
def monitorLoop (server : UAServer) (subscriptionId : Nat) :
    Nat → List (Str × NodeInfo) → List SubscriptionData → List SubscriptionData
  | _, [], subs => subs
  | i, (sensorId, nodeInfo) :: rest, subs =>
    let result := server.createMonitoredItem i subscriptionId nodeInfo.nodeId
    if result.1 = 0 then
      monitorLoop server subscriptionId (i + 1) rest
        (subs ++ [⟨subscriptionId, result.2, sensorId, true⟩])
    else monitorLoop server subscriptionId (i + 1) rest subs

/-- The function `OPCUAClient::addMonitoredItems`. -/
def OPCUAClient.addMonitoredItems (c : OPCUAClient) (server : UAServer) : Bool × OPCUAClient :=
  let c := { c with
    subscriptions_ := monitorLoop server c.subscriptionId_ 0 c.sensorNodes_ c.subscriptions_ }
  (!c.subscriptions_.isEmpty, c)

/-- The function `OPCUAClient::createSubscriptions`. -/
def OPCUAClient.createSubscriptions (c : OPCUAClient) (server : UAServer) : Bool × OPCUAClient :=
  let r := c.createSubscription server
  if !r.1 then (false, r.2)
  else
    let r := r.2.addMonitoredItems server
    if !r.1 then (false, r.2)
    else (true, r.2)

/-- The function `OPCUAClient::connect`; `steadyNow` is the clock reading at the
end. With a null handle the call of `UA_Client_connect` has no defined result:
the model returns `none`. -/
def OPCUAClient.connect (c : OPCUAClient) (server : UAServer) (steadyNow : TimePoint) :
    Option (Bool × OPCUAClient) :=
  if c.isConnected then some (true, c)
  else
    let c := c.setState .CONNECTING
    if !c.client_ then none
    else
      let status := server.connectStatus c.endpoint_
      if status ≠ 0 then
        let c := c.setState .ERROR
        some (false, c)
      else
        let c := c.setState .CONNECTED
        let c := c.resetReconnectAttempts
        let r := c.discoverNodes server
        if !r.1 then some (false, r.2)
        else
          let r := r.2.createSubscriptions server
          if !r.1 then some (false, r.2)
          else
            let c := r.2.setState .SUBSCRIPTION_ACTIVE
            let c := { c with lastDataTime_ := steadyNow }
            some (true, c)

/-- The function `OPCUAClient::convertUAVariantToDouble`. -/
def convertUAVariantToDouble : UAVariant → Double
  | .double v => v
  | .float v => v
  | .int32 v => Double.ofInt v
  | .int16 v => Double.ofInt v
  | .uint32 v => Double.ofInt v
  | .uint16 v => Double.ofInt v
  | _ => .finite false 0 0

/-- The function `OPCUAClient::convertUAVariantToBool`. -/
def convertUAVariantToBool : UAVariant → Bool
  | .boolean v => v
  | .byte v => v != 0
  | variant => !(convertUAVariantToDouble variant).equal (.finite false 0 0)

/-- A 64-bit signed result, wrapping on overflow. -/
def wrapInt64 (x : Int) : Int := (x + 2 ^ 63) % 2 ^ 64 - 2 ^ 63

/-- The function `std::chrono::system_clock::from_time_t`: whole seconds as a
time point. -/
def fromTimeT (seconds : Int) : TimePoint := ⟨wrapInt64 (seconds * 1000000000)⟩

/-- The function `OPCUAClient::processDataChange`: the client afterwards and
the sample passed to `dataManager_.addSensorData`, if one is. `value` is `none`
for a null pointer; `steadyNow` and `systemNow` are the readings of the two
clocks. -/
def OPCUAClient.processDataChange (c : OPCUAClient) (sensorId : Str)
    (value : Option UADataValue) (steadyNow systemNow : TimePoint) :
    OPCUAClient × Option SensorData :=
  let c := { c with messagesReceived_ := (c.messagesReceived_ + 1) % 2 ^ 64 }
  let c := { c with lastDataTime_ := steadyNow }
  let failed : OPCUAClient × Option SensorData :=
    ({ c with subscriptionErrors_ := (c.subscriptionErrors_ + 1) % 2 ^ 64 }, none)
  match value with
  | none => failed
  | some value =>
    if !value.hasValue then failed
    else
      let sensorDef := getSensorById sensorId
      if sensorDef.id.isEmpty then (c, none)
      else
        let numericValue : Double :=
          if sensorDef.isDigital then
            (if convertUAVariantToBool value.value then .finite false 1 0 else .finite false 0 0)
          else convertUAVariantToDouble value.value
        let quality : Str := "good".toList
        let quality : Str :=
          if value.hasStatus && value.status != 0 then "bad".toList else quality
        let data : SensorData :=
          ⟨sensorId, sensorDef.name, numericValue, sensorDef.unit, quality, systemNow⟩
        let data : SensorData :=
          if value.hasServerTimestamp then
            { data with
              timestamp := fromTimeT (Int.tdiv value.serverTimestamp 10000000 - 11644473600) }
          else data
        let data : SensorData :=
          if !validateSensorValue sensorDef numericValue then
            { data with quality := "uncertain".toList }
          else data
        (c, some data)

/-- The function `OPCUAClient::removeSubscriptions`. -/
def OPCUAClient.removeSubscriptions (c : OPCUAClient) : OPCUAClient :=
  let c :=
    if c.subscriptionId_ ≠ 0 ∧ c.client_ = true then { c with subscriptionId_ := 0 }
    else c
  { c with subscriptions_ := [] }

/-- The function `OPCUAClient::disconnect`. -/
def OPCUAClient.disconnect (c : OPCUAClient) : OPCUAClient :=
  let c :=
    if c.client_ then
      let c := c.removeSubscriptions
      { c with client_ := false }
    else c
  c.setState .DISCONNECTED

/-- The function `OPCUAClient::handleDisconnection`. -/
def OPCUAClient.handleDisconnection (c : OPCUAClient) : OPCUAClient :=
  let c := c.setState .DISCONNECTED
  { c with subscriptions_ := [] }

/-- The function `OPCUAClient::start`, as far as the flag goes. -/
def OPCUAClient.start (c : OPCUAClient) : OPCUAClient :=
  if c.running_ then c else { c with running_ := true }

/-- The function `OPCUAClient::stop`, as far as the flag goes. -/
def OPCUAClient.stop (c : OPCUAClient) : OPCUAClient :=
  if !c.running_ then c else { c with running_ := false }

/-- The function `OPCUAClient::shouldReconnect`; `now` is the reading of the
steady clock, the elapsed time is cast to whole seconds. -/
def OPCUAClient.shouldReconnect (c : OPCUAClient) (now : TimePoint) : Bool :=
  if c.isConnected || !c.config_.getAutoReconnect then false
  else
    let timeSinceLastAttempt :=
      Int.tdiv (now.sinceEpochNs - c.lastReconnectAttempt_.sinceEpochNs) 1000000000
    decide (Int.tdiv c.config_.getReconnectDelay 1000 ≤ timeSinceLastAttempt)

/-- A 32-bit signed result, wrapping on overflow. -/
def wrapInt32 (x : Int) : Int := (x + 2 ^ 31) % 2 ^ 32 - 2 ^ 31

/-- The function `OPCUAClient::incrementReconnectAttempts`. -/
def OPCUAClient.incrementReconnectAttempts (c : OPCUAClient) (now : TimePoint) : OPCUAClient :=
  let c := { c with reconnectAttempts_ := wrapInt32 (c.reconnectAttempts_ + 1) }
  { c with lastReconnectAttempt_ := now }

/-- The status code `UA_STATUSCODE_BADCONNECTIONCLOSED`. -/
def UA_STATUSCODE_BADCONNECTIONCLOSED : Nat := 0x80AE0000

/-- The status code `UA_STATUSCODE_BADSERVERNOTCONNECTED`. -/
def UA_STATUSCODE_BADSERVERNOTCONNECTED : Nat := 0x800D0000

/-- The status code `UA_STATUSCODE_BADTIMEOUT`. -/
def UA_STATUSCODE_BADTIMEOUT : Nat := 0x800A0000

/-- The status code `UA_STATUSCODE_BADCOMMUNICATIONERROR`. -/
def UA_STATUSCODE_BADCOMMUNICATIONERROR : Nat := 0x80050000

/-- The function `OPCUAClient::isRetriableError`. -/
def isRetriableError (status : Nat) : Bool :=
  status == UA_STATUSCODE_BADCONNECTIONCLOSED
    || status == UA_STATUSCODE_BADSERVERNOTCONNECTED
    || status == UA_STATUSCODE_BADTIMEOUT
    || status == UA_STATUSCODE_BADCOMMUNICATIONERROR

/-- The function `OPCUAClient::connect` once more, returning in addition the
values passed to `setState`, in order. -/
def OPCUAClient.connectTraced (c : OPCUAClient) (server : UAServer) (steadyNow : TimePoint) :
    Option (Bool × OPCUAClient × List ConnectionState) :=
  if c.isConnected then some (true, c, [])
  else
    let c := c.setState .CONNECTING
    if !c.client_ then none
    else
      let status := server.connectStatus c.endpoint_
      if status ≠ 0 then
        let c := c.setState .ERROR
        some (false, c, [.CONNECTING, .ERROR])
      else
        let c := c.setState .CONNECTED
        let c := c.resetReconnectAttempts
        let r := c.discoverNodes server
        if !r.1 then some (false, r.2, [.CONNECTING, .CONNECTED])
        else
          let r := r.2.createSubscriptions server
          if !r.1 then some (false, r.2, [.CONNECTING, .CONNECTED])
          else
            let c := r.2.setState .SUBSCRIPTION_ACTIVE
            let c := { c with lastDataTime_ := steadyNow }
            some (true, c, [.CONNECTING, .CONNECTED, .SUBSCRIPTION_ACTIVE])

/-- The function `OPCUAClient::performConnection`, with the values passed to
`setState` in order; `clientNew` tells whether `UA_Client_new()` returns a
handle. -/
def OPCUAClient.performConnection (c : OPCUAClient) (clientNew : Bool) (server : UAServer)
    (steadyNow : TimePoint) : Option (Bool × OPCUAClient × List ConnectionState) :=
  let r0 : OPCUAClient × List ConnectionState :=
    if c.client_ then (c.disconnect, [.DISCONNECTED]) else (c, [])
  let r1 := r0.1.initializeClient clientNew
  if !r1.1 then some (false, r1.2, r0.2)
  else
    match r1.2.connectTraced server steadyNow with
    | none => none
    | some r2 => some (r2.1, r2.2.1, r0.2 ++ [.DISCONNECTED] ++ r2.2.2)

/-- What one pass of the loop of `connectionThreadFunction` reads from outside:
the steady clock at the reconnect test, what a connection attempt meets, the
clock when the attempt is counted, the clock of the health check and the status
of its test read. -/
structure SupervisorEnv where
  nowReconnect : TimePoint
  clientNew : Bool
  server : UAServer
  nowConnected : TimePoint
  nowAttempt : TimePoint
  nowHealth : TimePoint
  healthStatus : Nat

/-- The health check of `connectionThreadFunction`. A test read through a null
handle has no defined result. -/
def OPCUAClient.healthCheck (c : OPCUAClient) (env : SupervisorEnv) :
    Option (OPCUAClient × List ConnectionState) :=
  if c.isConnected then
    let timeSinceLastData :=
      Int.tdiv (env.nowHealth.sinceEpochNs - c.lastDataTime_.sinceEpochNs) 1000000000
    if 60 < timeSinceLastData then
      if !c.sensorNodes_.isEmpty then
        if !c.client_ then none
        else if env.healthStatus ≠ 0 then some (c.handleDisconnection, [.DISCONNECTED])
        else some ({ c with lastDataTime_ := env.nowHealth }, [])
      else some (c, [])
    else some (c, [])
  else some (c, [])

/-- One pass of the loop of `OPCUAClient::connectionThreadFunction`, with the
values passed to `setState` in order and whether a connection attempt was made.
A pass that finds `running_` false leaves the loop. -/
def OPCUAClient.connectionIteration (c : OPCUAClient) (env : SupervisorEnv) :
    Option (OPCUAClient × List ConnectionState × Bool) :=
  if !c.running_ then some (c, [], false)
  else if !c.isConnected && c.shouldReconnect env.nowReconnect then
    match c.performConnection env.clientNew env.server env.nowConnected with
    | none => none
    | some r =>
      if r.1 then
        match r.2.1.healthCheck env with
        | none => none
        | some h => some (h.1, r.2.2 ++ h.2, true)
      else
        let c := r.2.1.incrementReconnectAttempts env.nowAttempt
        if c.config_.getMaxReconnectAttempts ≤ c.reconnectAttempts_ then
          some ({ c with running_ := false }, r.2.2, true)
        else
          match c.healthCheck env with
          | none => none
          | some h => some (h.1, r.2.2 ++ h.2, true)
  else
    match c.healthCheck env with
    | none => none
    | some h => some (h.1, h.2, false)

/-- One pass of the loop of `OPCUAClient::subscriptionThreadFunction`, with the
values passed to `setState`; `status` is what `UA_Client_run_iterate` returns
and `timeoutCode` the library constant `UA_STATUSCODE_TIMEOUT`. -/
def OPCUAClient.subscriptionIteration (c : OPCUAClient) (status timeoutCode : Nat) :
    OPCUAClient × List ConnectionState :=
  if !c.running_ then (c, [])
  else if c.isConnected && c.client_ then
    if status ≠ 0 ∧ status ≠ timeoutCode then
      if !isRetriableError status then (c.handleDisconnection, [.DISCONNECTED])
      else (c, [])
    else (c, [])
  else (c, [])

/-- An operation on a session: a call of the public interface, a loss of the
connection noticed by a thread, or one pass of one of the two thread loops. -/
inductive SessionOp where
  | initializeClient (clientNew : Bool)
  | connect (server : UAServer) (steadyNow : TimePoint)
  | disconnect
  | start
  | stop
  | handleDisconnection
  | supervisor (env : SupervisorEnv)
  | eventLoop (status timeoutCode : Nat)
  | dataChange (sensorId : Str) (value : Option UADataValue) (steadyNow systemNow : TimePoint)

/-- The effect of one operation, with the values passed to `setState` in order;
`none` when the operation has no defined result. -/
def OPCUAClient.sessionStep (c : OPCUAClient) :
    SessionOp → Option (OPCUAClient × List ConnectionState)
  | .initializeClient clientNew =>
    let r := c.initializeClient clientNew
    some (r.2, if r.1 then [.DISCONNECTED] else [])
  | .connect server steadyNow =>
    (c.connectTraced server steadyNow).map (fun r => r.2)
  | .disconnect => some (c.disconnect, [.DISCONNECTED])
  | .start => some (c.start, [])
  | .stop => some (c.stop, [])
  | .handleDisconnection => some (c.handleDisconnection, [.DISCONNECTED])
  | .supervisor env => (c.connectionIteration env).map (fun r => (r.1, r.2.1))
  | .eventLoop status timeoutCode => some (c.subscriptionIteration status timeoutCode)
  | .dataChange sensorId value steadyNow systemNow =>
    some ((c.processDataChange sensorId value steadyNow systemNow).1, [])

/-- The effect of a sequence of operations, with the values passed to
`setState` in order. -/
def OPCUAClient.sessionRun (c : OPCUAClient) :
    List SessionOp → Option (OPCUAClient × List ConnectionState)
  | [] => some (c, [])
  | op :: ops =>
    match c.sessionStep op with
    | none => none
    | some r =>
      match OPCUAClient.sessionRun r.1 ops with
      | none => none
      | some r2 => some (r2.1, r.2 ++ r2.2)

/-! ## Vocabulary for the pipeline and client properties -/

/-- The latest sample with the given id in a list of popped samples, or `init`
when the list has none. -/
def lastPoppedFrom (init : Option SensorData) (id : Str) (popped : List SensorData) :
    Option SensorData :=
  popped.foldl (fun acc s => if s.id = id then some s else acc) init

/-- The latest sample with the given id among the samples popped so far. -/
def lastPopped (id : Str) (popped : List SensorData) : Option SensorData :=
  lastPoppedFrom none id popped

/-- Whether the discovery accepts the catalog entry at position `i`: its address
parses and the read of its node succeeds. -/
def nodeAccepted (server : UAServer) (i : Nat) (sensor : SensorDefinition) : Bool :=
  match parseNodeId sensor.nodeId with
  | .ok nodeId => server.readStatus i nodeId == 0
  | .error _ => false

/-- The catalog entries the discovery accepts, from position `i` on. -/
def acceptedFrom (server : UAServer) : Nat → List SensorDefinition → List SensorDefinition
  | _, [] => []
  | i, sensor :: rest =>
    if nodeAccepted server i sensor then sensor :: acceptedFrom server (i + 1) rest
    else acceptedFrom server (i + 1) rest

/-- The subscription records of the monitored items the server accepts for the
entries of a node map. -/
def acceptedItems (server : UAServer) (subscriptionId : Nat) (nodes : List (Str × NodeInfo)) :
    List SubscriptionData :=
  monitorLoop server subscriptionId 0 nodes []


/-- The relation between two successive values of `state_` that the transition
property asks for: `CONNECTED` is entered from `CONNECTING` only, and
`SUBSCRIPTION_ACTIVE` is left for `DISCONNECTED` only. -/
def stateSucceeds (a b : ConnectionState) : Prop :=
  (b = .CONNECTED → a = .CONNECTING) ∧ (a = .SUBSCRIPTION_ACTIVE → b = .DISCONNECTED)

/-- The values passed to `setState` by a run from state `a` form, after `a`, a
chain for `stateSucceeds` that ends in `b`. -/
def validTrace (a : ConnectionState) (log : List ConnectionState) (b : ConnectionState) : Prop :=
  List.Chain' stateSucceeds (a :: log) ∧ (a :: log).getLast? = some b

/-- The accepted catalog entries with the node information `addSensorNode`
registers for them, from position `i` on, in catalog order. -/
def registeredFrom (server : UAServer) : Nat → List SensorDefinition → List (Str × NodeInfo)
  | _, [] => []
  | i, sensor :: rest =>
    match parseNodeId sensor.nodeId with
    | .ok nodeId =>
      if server.readStatus i nodeId = 0 then
        (sensor.id, ⟨sensor.id, sensor.name, nodeId, [], false⟩)
          :: registeredFrom server (i + 1) rest
      else registeredFrom server (i + 1) rest
    | .error _ => registeredFrom server (i + 1) rest

/-- The ids of the catalog cover the keys of the node map and the sensor ids of
the subscription records, and the session uses the catalog. -/
def catalogInvariant (c : OPCUAClient) : Prop :=
  c.sensorDefinitions_ = getAllSensors
    ∧ (∀ p ∈ c.sensorNodes_, ∃ d ∈ getAllSensors, d.id = p.1)
    ∧ (∀ s ∈ c.subscriptions_, ∃ d ∈ getAllSensors, d.id = s.sensorId)

/-- The address `ns=N;s="ID"`, the namespace written as a decimal numeral. -/
def stringAddress (N : Nat) (ID : Str) : Str :=
  "ns=".toList ++ Nat.toDigits 10 N ++ ";s=\"".toList ++ ID ++ "\"".toList

/-- The address `ns=N;i=K`, both numbers written as decimal numerals. -/
def numericAddress (N K : Nat) : Str :=
  "ns=".toList ++ Nat.toDigits 10 N ++ ";i=".toList ++ Nat.toDigits 10 K

/-- Tag escaping as the specification words it: each space, comma, equals sign
and backslash is preceded by one backslash, every other character is copied. -/
def escapeTagSpec : Str → Str
  | [] => []
  | c :: rest => (if isTagSpecial c then ['\\', c] else [c]) ++ escapeTagSpec rest

/-- The decoder that drops a backslash and keeps the character after it;
`escaped` tells whether the character before was such a backslash. -/
def unescapeFrom : Bool → Str → Str
  | _, [] => []
  | true, c :: rest => c :: unescapeFrom false rest
  | false, c :: rest =>
    if c = '\\' then unescapeFrom true rest else c :: unescapeFrom false rest

/-- The decoder, started outside an escape. -/
def unescape (s : Str) : Str := unescapeFrom false s

/-- Scan of an escaped text from the left: a backslash escapes the character
after it; the result is `true` when no space, comma or equals sign occurs
outside such an escaped position. -/
def noBareSeparatorFrom : Bool → Str → Bool
  | _, [] => true
  | true, _ :: rest => noBareSeparatorFrom false rest
  | false, c :: rest =>
    if c = '\\' then noBareSeparatorFrom true rest
    else if c = ' ' ∨ c = ',' ∨ c = '=' then false
    else noBareSeparatorFrom false rest

/-- The scan, started outside an escape. -/
def noBareSeparator (s : Str) : Bool := noBareSeparatorFrom false s

/-- The line layout as the specification words it. -/
def lineProtocolSpec (config : Config) (data : SensorData) : Str :=
  config.getInfluxDBMeasurement
    ++ (",sensor_id=".toList ++ escapeTagValue data.id)
    ++ (",sensor_name=".toList ++ escapeTagValue data.name)
    ++ (",location=".toList ++ escapeTagValue config.getSystemLocation)
    ++ (",equipment=".toList ++ escapeTagValue config.getEquipmentId)
    ++ (if data.unit = [] then [] else ",unit=".toList ++ escapeTagValue data.unit)
    ++ " ".toList
    ++ ("value=".toList ++ data.value.fixed6)
    ++ (",quality=\"".toList ++ escapeFieldValue data.quality ++ "\"".toList)
    ++ " ".toList
    ++ (toString (Int.tdiv data.timestamp.sinceEpochNs 1000000)).toList

/-- The double nearest to the decimal `12.345678`. -/
def value12345678 : Double := .finite false 6949998855054516 (-49)

/-- A configuration with the stock values of `config.json`. -/
def exampleConfig : Config where
  getInfluxDBUrl := "http://localhost:8086".toList
  getInfluxDBToken := "token".toList
  getInfluxDBOrg := "tusas".toList
  getInfluxDBBucket := "hgu_data".toList
  getInfluxDBMeasurement := "hgu_sensors".toList
  getInfluxDBTimeout := 5000
  getSystemLocation := "PLCSIM".toList
  getEquipmentId := "hgu_main".toList
  getBatchSize := 100
  getFlushInterval := 5000
  getWorkerThreads := 4
  getDataBufferSize := 10000
  getEnableValidation := true
  getOutlierDetection := false
  getOutlierThreshold := .finite false 10 0
  getOPCUAEndpoint := "opc.tcp://192.168.100.10:4840".toList
  getSecurityMode := "None".toList
  getConnectionTimeout := 30000
  getSubscriptionInterval := 1000
  getAutoReconnect := true
  getReconnectDelay := 5000
  getMaxReconnectAttempts := 10

/-- The sample of the encoding example, named `Supply Pressure`. -/
def pressureSample : SensorData where
  id := "pressure_supply".toList
  name := "Supply Pressure".toList
  value := value12345678
  unit := "bar".toList
  quality := "good".toList
  timestamp := ⟨1700000000000000000⟩

/-- A sample whose id holds a line feed between `a` and `b`. -/
def newlineSample : SensorData where
  id := ['a', '\n', 'b']
  name := "n".toList
  value := .finite false 1 0
  unit := []
  quality := "good".toList
  timestamp := ⟨0⟩

/-- A writer after construction, `initialize` with a handle, and `connect`
with a successful ping. -/
def connectedWriter : InfluxDBWriter :=
  { ((InfluxDBWriter.new exampleConfig).initializeWriter true).2 with connected_ := true }

/-- A sample with an empty id and otherwise valid fields. -/
def emptyIdSample : SensorData := { pressureSample with id := [] }

/-- A running data manager whose configuration has validation switched off. -/
def unvalidatedManager : DataManager :=
  (DataManager.new { exampleConfig with getEnableValidation := false } ⟨0⟩).initializeManager.2

/-- A running data manager with the stock configuration. -/
def runningManager : DataManager :=
  (DataManager.new exampleConfig ⟨0⟩).initializeManager.2

/-- The stock configuration with outlier detection switched on (threshold 10
percent). -/
def outlierConfig : Config := { exampleConfig with getOutlierDetection := true }

/-- A running data manager with outlier detection, whose cache holds the
value 100 for `pressure_supply`. -/
def cachedHundredManager : DataManager :=
  { (DataManager.new outlierConfig ⟨0⟩).initializeManager.2 with
    lastValues_ :=
      [("pressure_supply".toList, { pressureSample with value := .finite false 100 0 })] }

/-- The double nearest to the decimal `110.01`. -/
def value11001 : Double := .finite false 7741265546984817 (-46)

/-- A running data manager with a writer and one buffered sample. -/
def flushExampleManager : DataManager :=
  { runningManager.setDataWriter true with currentBatch_ := [pressureSample] }

/-- Clock readings at the epoch and a writer that reports success. -/
def idleEnv : StepEnv := ⟨⟨0⟩, ⟨0⟩, ⟨0⟩, .returned true⟩

/-- The pressure sample with value 100. -/
def hundredSample : SensorData := { pressureSample with value := .finite false 100 0 }

/-- The pressure sample with value 200. -/
def twoHundredSample : SensorData := { pressureSample with value := .finite false 200 0 }

/-- A status code other than `UA_STATUSCODE_GOOD`. -/
def badStatus : Nat := 0x80000000

/-- A server that opens the transport and refuses every read and every item. -/
def refusingServer : UAServer :=
  ⟨fun _ => 0, fun _ _ => badStatus, (0, 1), fun _ _ _ => (badStatus, 0)⟩

/-- A server that accepts everything. -/
def acceptingServer : UAServer :=
  ⟨fun _ => 0, fun _ _ => 0, (0, 7), fun i _ _ => (0, i + 1)⟩

/-- A server that cannot be reached. -/
def unreachableServer : UAServer :=
  ⟨fun _ => badStatus, fun _ _ => 0, (0, 7), fun i _ _ => (0, i + 1)⟩

/-- A server that accepts the reads and refuses the subscription. -/
def noSubscriptionServer : UAServer :=
  ⟨fun _ => 0, fun _ _ => 0, (badStatus, 0), fun i _ _ => (0, i + 1)⟩

/-- A server that accepts the reads and the subscription and refuses every item. -/
def noItemsServer : UAServer :=
  ⟨fun _ => 0, fun _ _ => 0, (0, 7), fun _ _ _ => (badStatus, 0)⟩

/-- A client built by the constructor and initialised. -/
def freshClient : OPCUAClient := ((OPCUAClient.new exampleConfig).initializeClient true).2

/-- A notification with a `double` value and a status, without server timestamp. -/
def notification (v : Double) (status : Nat) : UADataValue :=
  ⟨true, .double v, true, status, false, 0⟩

/-- A notification with value 100, no status and a server timestamp. -/
def stampedNotification (t : Int) : UADataValue :=
  ⟨true, .double (.finite false 100 0), false, 0, true, t⟩

/-- A pass of the supervisor ten seconds after the start, against a server that
cannot be reached. -/
def retryEnv : SupervisorEnv :=
  ⟨⟨10000000000⟩, true, unreachableServer, ⟨10000000000⟩, ⟨10000000000⟩, ⟨10000000000⟩, 0⟩

/-- A pass of the supervisor ten seconds after the start, against a server that
accepts everything. -/
def recoverEnv : SupervisorEnv :=
  ⟨⟨10000000000⟩, true, acceptingServer, ⟨10000000000⟩, ⟨10000000000⟩, ⟨10000000000⟩, 0⟩

/-- The example configuration with at most one reconnect attempt. -/
def cappedConfig : Config := { exampleConfig with getMaxReconnectAttempts := 1 }

/-- A started client with that configuration. -/
def cappedClient : OPCUAClient :=
  ((OPCUAClient.new cappedConfig).initializeClient true).2.start

/-- A session: connect, start the threads, lose the connection in the event loop,
reconnect in the supervisor, disconnect. -/
def exampleSession : List SessionOp :=
  [.connect acceptingServer ⟨5⟩, .start, .eventLoop badStatus 1, .supervisor recoverEnv,
    .disconnect]


/-- A session start: initialise, then connect to a server that accepts
everything. -/
def startupSession : List SessionOp := [.initializeClient true, .connect acceptingServer ⟨5⟩]


theorem escapeTagValue_foldl (v acc : Str) :
    v.foldl (fun result c =>
      if isTagSpecial c then (result ++ ['\\']) ++ [c] else result ++ [c]) acc
      = acc ++ escapeTagSpec v := by
  induction v generalizing acc with
  | nil => simp [escapeTagSpec]
  | cons c rest ih =>
    rw [List.foldl_cons, ih]
    by_cases hc : isTagSpecial c = true <;> simp [escapeTagSpec, hc]

theorem escapeTagValue_eq_spec (v : Str) : escapeTagValue v = escapeTagSpec v := by
  unfold escapeTagValue
  rw [escapeTagValue_foldl]
  simp

theorem isTagSpecial_iff (c : Char) :
    isTagSpecial c = true ↔ (c = ' ' ∨ c = ',' ∨ c = '=' ∨ c = '\\') := by
  simp [isTagSpecial, or_assoc]

theorem unescape_escapeTagSpec (v : Str) : unescape (escapeTagSpec v) = v := by
  unfold unescape
  induction v with
  | nil => simp [escapeTagSpec, unescapeFrom]
  | cons c rest ih =>
    by_cases hc : isTagSpecial c = true
    · simp [escapeTagSpec, hc, unescapeFrom, ih]
    · have hb : c ≠ '\\' := fun h => hc ((isTagSpecial_iff c).2 (Or.inr (Or.inr (Or.inr h))))
      simp [escapeTagSpec, hc, unescapeFrom, hb, ih]

theorem noBareSeparator_escapeTagSpec (v : Str) : noBareSeparator (escapeTagSpec v) = true := by
  unfold noBareSeparator
  induction v with
  | nil => simp [escapeTagSpec, noBareSeparatorFrom]
  | cons c rest ih =>
    by_cases hc : isTagSpecial c = true
    · simp [escapeTagSpec, hc, noBareSeparatorFrom, ih]
    · have hc2 : ¬ (c = ' ' ∨ c = ',' ∨ c = '=' ∨ c = '\\') := fun h => hc ((isTagSpecial_iff c).2 h)
      have hb : c ≠ '\\' := fun h => hc2 (Or.inr (Or.inr (Or.inr h)))
      have h1 : c ≠ ' ' := fun h => hc2 (Or.inl h)
      have h2 : c ≠ ',' := fun h => hc2 (Or.inr (Or.inl h))
      have h3 : c ≠ '=' := fun h => hc2 (Or.inr (Or.inr (Or.inl h)))
      simp [escapeTagSpec, hc, noBareSeparatorFrom, hb, h1, h2, h3, ih]

theorem noBareSeparatorFrom_preceded (s : Str) :
    ∀ (b : Bool), noBareSeparatorFrom b s = true →
      ∀ (i : Nat) (c : Char), s[i]? = some c → (c = ' ' ∨ c = ',' ∨ c = '=') →
        (b = true ∧ i = 0) ∨ ∃ j, i = j + 1 ∧ s[j]? = some '\\' := by
  induction s with
  | nil => intro b _ i c hi; simp at hi
  | cons x rest ih =>
    intro b hscan i c hi hsep
    have hcb : c ≠ '\\' := by
      rintro rfl
      rcases hsep with h | h | h <;> exact absurd h (by decide)
    cases b with
    | true =>
      cases i with
      | zero => exact Or.inl ⟨rfl, rfl⟩
      | succ j =>
        right
        simp only [noBareSeparatorFrom] at hscan
        simp only [List.getElem?_cons_succ] at hi
        rcases ih false hscan j c hi hsep with ⟨h, _⟩ | ⟨k, hk, hk2⟩
        · exact absurd h (by decide)
        · exact ⟨k + 1, by omega, by simpa using hk2⟩
    | false =>
      simp only [noBareSeparatorFrom] at hscan
      by_cases hx : x = '\\'
      · simp only [hx, if_true] at hscan
        cases i with
        | zero =>
          simp only [List.getElem?_cons_zero, Option.some.injEq] at hi
          exact absurd (hi ▸ hx) hcb
        | succ j =>
          right
          simp only [List.getElem?_cons_succ] at hi
          rcases ih true hscan j c hi hsep with ⟨_, h0⟩ | ⟨k, hk, hk2⟩
          · exact ⟨0, by omega, by simp [hx]⟩
          · exact ⟨k + 1, by omega, by simpa using hk2⟩
      · simp only [hx, if_false] at hscan
        by_cases hxs : x = ' ' ∨ x = ',' ∨ x = '='
        · simp [hxs] at hscan
        · simp only [hxs, if_false] at hscan
          cases i with
          | zero =>
            simp only [List.getElem?_cons_zero, Option.some.injEq] at hi
            exact absurd (hi ▸ hsep) hxs
          | succ j =>
            right
            simp only [List.getElem?_cons_succ] at hi
            rcases ih false hscan j c hi hsep with ⟨h, _⟩ | ⟨k, hk, hk2⟩
            · exact absurd h (by decide)
            · exact ⟨k + 1, by omega, by simpa using hk2⟩

/-- C2: `escapeTagValue v` is `v` with one backslash put before each space,
comma, equals sign and backslash and every other character copied; the decoder
that drops a backslash and keeps the next character recovers `v`; in the
escaped text no space, comma or equals sign stands outside an escaped position,
and each one has a backslash immediately before it. -/
theorem escapeTagValue_roundtrip (v : Str) :
    escapeTagValue v = escapeTagSpec v
      ∧ unescape (escapeTagValue v) = v
      ∧ noBareSeparator (escapeTagValue v) = true
      ∧ (∀ (i : Nat) (c : Char), (escapeTagValue v)[i]? = some c →
          (c = ' ' ∨ c = ',' ∨ c = '=') →
          ∃ j, i = j + 1 ∧ (escapeTagValue v)[j]? = some '\\') := by
  have hscan : noBareSeparator (escapeTagValue v) = true := by
    rw [escapeTagValue_eq_spec]
    exact noBareSeparator_escapeTagSpec v
  refine ⟨escapeTagValue_eq_spec v, ?_, hscan, ?_⟩
  · rw [escapeTagValue_eq_spec]
    exact unescape_escapeTagSpec v
  · intro i c hi hsep
    rcases noBareSeparatorFrom_preceded _ false hscan i c hi hsep with ⟨h, _⟩ | h
    · exact absurd h (by decide)
    · exact h

/-! ### Decimal rendering -/

theorem digitChar_isDigit (n : Nat) : (Nat.digitChar (n % 10)).isDigit = true := by
  have h : n % 10 < 10 := Nat.mod_lt _ (by decide)
  generalize n % 10 = d at h
  interval_cases d <;> decide

theorem toDigitsCore_isDigit (fuel : Nat) :
    ∀ (n : Nat) (acc : List Char), (∀ c ∈ acc, c.isDigit = true) →
      ∀ c ∈ Nat.toDigitsCore 10 fuel n acc, c.isDigit = true := by
  induction fuel with
  | zero => intro n acc h c hc; simpa [Nat.toDigitsCore] using h c hc
  | succ f ih =>
    intro n acc h c hc
    have hacc : ∀ x ∈ Nat.digitChar (n % 10) :: acc, x.isDigit = true := by
      intro x hx
      rcases List.mem_cons.1 hx with rfl | hx
      · exact digitChar_isDigit n
      · exact h x hx
    simp only [Nat.toDigitsCore] at hc
    split at hc
    · exact hacc c hc
    · exact ih (n / 10) _ hacc c hc

theorem toDigits_isDigit (n : Nat) : ∀ c ∈ Nat.toDigits 10 n, c.isDigit = true :=
  toDigitsCore_isDigit (n + 1) n [] (fun c hc => absurd hc (List.not_mem_nil c))

theorem zeroPad_isDigit (width n : Nat) : ∀ c ∈ zeroPad width n, c.isDigit = true := by
  intro c hc
  simp only [zeroPad, List.mem_append] at hc
  rcases hc with h | h
  · rw [(List.mem_replicate.1 h).2]
    decide
  · exact toDigits_isDigit n c h

theorem zeroPad_six_length (n : Nat) (h : n < 1000000) : (zeroPad 6 n).length = 6 := by
  have hlen : (Nat.toDigits 10 n).length ≤ 6 :=
    Nat.toDigitsCore_length 10 (by decide) (n + 1) n 6 (by simpa using h) (by decide)
  simp only [zeroPad, List.length_append, List.length_replicate]
  omega

/-- A finite `double` is rendered as an optional minus sign, a non-empty run of
digits, a point, and exactly six digits. -/
theorem fixed6_finite (neg : Bool) (mant : Nat) (exp : Int) :
    ∃ ip fr : Str,
      (Double.finite neg mant exp).fixed6
          = (if neg then ['-'] else []) ++ ip ++ ['.'] ++ fr
        ∧ ip ≠ [] ∧ fr.length = 6
        ∧ (∀ c ∈ ip, c.isDigit = true) ∧ (∀ c ∈ fr, c.isDigit = true) := by
  refine ⟨_, _, rfl, ?_, zeroPad_six_length _ (Nat.mod_lt _ (by decide)),
    toDigits_isDigit _, zeroPad_isDigit 6 _⟩
  intro h
  have hlen := congrArg List.length h
  have hpos : 0 < (Nat.toDigits 10
      ((if 0 ≤ exp then roundHalfEven (mant * 2 ^ exp.toNat * 1000000) 1
        else roundHalfEven (mant * 1000000) (2 ^ (-exp).toNat)) / 1000000)).length := by
    generalize (if 0 ≤ exp then roundHalfEven (mant * 2 ^ exp.toNat * 1000000) 1
        else roundHalfEven (mant * 1000000) (2 ^ (-exp).toNat)) / 1000000 = n
    have hne : Nat.toDigits 10 n ≠ [] := by
      unfold Nat.toDigits
      have key : ∀ (fuel m : Nat) (acc : List Char), acc ≠ [] →
          Nat.toDigitsCore 10 fuel m acc ≠ [] := by
        intro fuel
        induction fuel with
        | zero => intro m acc hacc; simpa [Nat.toDigitsCore] using hacc
        | succ f ih =>
          intro m acc _
          simp only [Nat.toDigitsCore]
          split
          · exact List.cons_ne_nil _ _
          · exact ih _ _ (List.cons_ne_nil _ _)
      simp only [Nat.toDigitsCore]
      split
      · exact List.cons_ne_nil _ _
      · exact key _ _ _ (List.cons_ne_nil _ _)
    exact List.length_pos.2 hne
  simp only [List.length_nil] at hlen
  omega

theorem isDigit_ne_newline (c : Char) (h : c.isDigit = true) : c ≠ '\n' := by
  rintro rfl
  exact absurd h (by decide)

theorem fixed6_no_newline (v : Double) : '\n' ∉ v.fixed6 := by
  cases v with
  | nan => decide
  | inf neg => cases neg <;> decide
  | finite neg mant exp =>
    obtain ⟨ip, fr, heq, _, _, hip, hfr⟩ := fixed6_finite neg mant exp
    rw [heq]
    intro hmem
    simp only [List.mem_append] at hmem
    rcases hmem with ((h | h) | h) | h
    · cases neg
      · exact absurd h (List.not_mem_nil _)
      · exact absurd h (by decide)
    · exact isDigit_ne_newline _ (hip _ h) rfl
    · exact absurd h (by decide)
    · exact isDigit_ne_newline _ (hfr _ h) rfl

theorem formatTimestamp_no_newline (t : TimePoint) : '\n' ∉ formatTimestamp t := by
  unfold formatTimestamp
  simp only []
  cases Int.tdiv t.sinceEpochNs 1000000 with
  | ofNat m =>
    intro h
    have h2 : '\n' ∈ Nat.toDigits 10 m := h
    exact isDigit_ne_newline _ (toDigits_isDigit m _ h2) rfl
  | negSucc m =>
    intro h
    have h2 : '\n' ∈ '-' :: Nat.toDigits 10 (m + 1) := h
    rcases List.mem_cons.1 h2 with h3 | h3
    · exact absurd h3 (by decide)
    · exact isDigit_ne_newline _ (toDigits_isDigit _ _ h3) rfl

/-- Both escaping loops only copy characters of the input and add backslashes. -/
theorem escapeLoop_mem (p : Char → Bool) (v : Str) :
    ∀ (acc : Str) (x : Char),
      x ∈ v.foldl (fun result c =>
        if p c then (result ++ ['\\']) ++ [c] else result ++ [c]) acc →
      x = '\\' ∨ x ∈ acc ∨ x ∈ v := by
  induction v with
  | nil => intro acc x hx; exact Or.inr (Or.inl hx)
  | cons c rest ih =>
    intro acc x hx
    rw [List.foldl_cons] at hx
    rcases ih _ x hx with h | h | h
    · exact Or.inl h
    · by_cases hp : p c = true
      · simp only [hp, if_true, List.mem_append, List.mem_singleton] at h
        rcases h with (h | h) | h
        · exact Or.inr (Or.inl h)
        · exact Or.inl h
        · exact Or.inr (Or.inr (by rw [h]; exact List.mem_cons_self _ _))
      · simp only [hp, Bool.false_eq_true, if_false, List.mem_append, List.mem_singleton] at h
        rcases h with h | h
        · exact Or.inr (Or.inl h)
        · exact Or.inr (Or.inr (by rw [h]; exact List.mem_cons_self _ _))
    · exact Or.inr (Or.inr (List.mem_cons_of_mem _ h))

theorem escapeTagValue_no_newline (v : Str) (h : '\n' ∉ v) : '\n' ∉ escapeTagValue v := by
  intro hmem
  rcases escapeLoop_mem isTagSpecial v [] _ hmem with h1 | h1 | h1
  · exact absurd h1 (by decide)
  · exact absurd h1 (List.not_mem_nil _)
  · exact h h1

theorem escapeFieldValue_no_newline (v : Str) (h : '\n' ∉ v) : '\n' ∉ escapeFieldValue v := by
  intro hmem
  rcases escapeLoop_mem isFieldSpecial v [] _ hmem with h1 | h1 | h1
  · exact absurd h1 (by decide)
  · exact absurd h1 (List.not_mem_nil _)
  · exact h h1

theorem generateLineProtocol_eq_spec (config : Config) (data : SensorData) :
    generateLineProtocol config data = lineProtocolSpec config data := by
  unfold generateLineProtocol lineProtocolSpec formatTimestamp
  cases hu : data.unit <;> simp [List.append_assoc]

/-- A line holds no newline character when the measurement, the location, the
equipment id and the sample's id, name, unit and quality hold none. -/
theorem generateLineProtocol_no_newline (config : Config) (data : SensorData)
    (h1 : '\n' ∉ config.getInfluxDBMeasurement) (h2 : '\n' ∉ config.getSystemLocation)
    (h3 : '\n' ∉ config.getEquipmentId) (h4 : '\n' ∉ data.id) (h5 : '\n' ∉ data.name)
    (h6 : '\n' ∉ data.unit) (h7 : '\n' ∉ data.quality) :
    '\n' ∉ generateLineProtocol config data := by
  rw [generateLineProtocol_eq_spec]
  unfold lineProtocolSpec
  have e1 := escapeTagValue_no_newline _ h4
  have e2 := escapeTagValue_no_newline _ h5
  have e3 := escapeTagValue_no_newline _ h2
  have e4 := escapeTagValue_no_newline _ h3
  have e5 := escapeTagValue_no_newline _ h6
  have e6 := escapeFieldValue_no_newline _ h7
  have e7 := fixed6_no_newline data.value
  have e8 : '\n' ∉ (toString (Int.tdiv data.timestamp.sinceEpochNs 1000000)).toList :=
    formatTimestamp_no_newline data.timestamp
  have l1 : '\n' ∉ ",sensor_id=".toList := by decide
  have l2 : '\n' ∉ ",sensor_name=".toList := by decide
  have l3 : '\n' ∉ ",location=".toList := by decide
  have l4 : '\n' ∉ ",equipment=".toList := by decide
  have l5 : '\n' ∉ ",unit=".toList := by decide
  have l6 : '\n' ∉ " ".toList := by decide
  have l7 : '\n' ∉ "value=".toList := by decide
  have l8 : '\n' ∉ ",quality=\"".toList := by decide
  have l9 : '\n' ∉ "\"".toList := by decide
  intro hmem
  simp only [List.mem_append] at hmem
  by_cases hu : data.unit = []
  · simp only [hu, if_true, List.not_mem_nil, or_false] at hmem
    tauto
  · simp only [hu, if_false, List.mem_append] at hmem
    tauto

theorem generateBatchLoop_succ (config : Config) (data : List SensorData) :
    ∀ (i : Nat) (ss : Str), 0 < i →
      generateBatchLoop config i data ss
        = ss ++ (data.map (fun d => '\n' :: generateLineProtocol config d)).flatten := by
  induction data with
  | nil => intro i ss _; simp [generateBatchLoop]
  | cons d rest ih =>
    intro i ss hi
    simp only [generateBatchLoop, hi, if_true]
    rw [ih (i + 1) _ (by omega)]
    simp [List.append_assoc]

theorem intercalate_cons_eq (sep : Char) (l : Str) (ls : List Str) :
    [sep].intercalate (l :: ls) = l ++ (ls.map (fun x => sep :: x)).flatten := by
  induction ls generalizing l with
  | nil => simp [List.intercalate]
  | cons l2 rest ih =>
    have h := ih l2
    simp only [List.intercalate] at h ⊢
    rw [List.intersperse_cons_cons]
    simp only [List.flatten_cons, List.map_cons, List.singleton_append]
    rw [h]
    simp

theorem generateBatchLineProtocol_eq_intercalate (config : Config) (data : List SensorData) :
    generateBatchLineProtocol config data
      = ['\n'].intercalate (data.map (generateLineProtocol config)) := by
  cases data with
  | nil => simp [generateBatchLineProtocol, generateBatchLoop, List.intercalate]
  | cons d rest =>
    rw [List.map_cons, intercalate_cons_eq]
    simp only [generateBatchLineProtocol, generateBatchLoop, Nat.lt_irrefl, if_false]
    rw [generateBatchLoop_succ config rest 1 _ (by omega)]
    simp [List.map_map, Function.comp_def]

/-- C3, the claim as stated, fails: the batch of the single sample whose id is
`a`, line feed, `b` splits at newlines into two lines, not one. -/
theorem generateBatchLineProtocol_newline_in_id :
    ((generateBatchLineProtocol exampleConfig [newlineSample]).splitOn '\n').length = 2
      ∧ (generateBatchLineProtocol exampleConfig [newlineSample]).splitOn '\n'
          ≠ [newlineSample].map (generateLineProtocol exampleConfig) := by
  decide

theorem splitOnP_piece_free (p : Char → Bool) (xs : Str) :
    ∀ l ∈ xs.splitOnP p, ∀ x ∈ l, p x = false := by
  induction xs with
  | nil =>
    intro l hl x hx
    rw [List.splitOnP_nil] at hl
    simp only [List.mem_singleton] at hl
    subst hl
    exact absurd hx (List.not_mem_nil x)
  | cons a rest ih =>
    intro l hl x hx
    rw [List.splitOnP_cons] at hl
    by_cases hp : p a = true
    · rw [if_pos hp] at hl
      rcases List.mem_cons.1 hl with h | h
      · subst h
        exact absurd hx (List.not_mem_nil x)
      · exact ih l h x hx
    · rw [if_neg hp] at hl
      cases hs : List.splitOnP p rest with
      | nil => rw [hs] at hl; simp at hl
      | cons piece pieces =>
        rw [hs] at hl ih
        simp only [List.modifyHead_cons, List.mem_cons] at hl
        rcases hl with h | h
        · subst h
          rcases List.mem_cons.1 hx with h2 | h2
          · subst h2; simpa using hp
          · exact ih piece (List.mem_cons_self _ _) x h2
        · exact ih l (List.mem_cons_of_mem _ h) x hx

/-- C3, amended: for a non-empty list of samples, the batch text split at
newlines is the list of the samples' lines, one per sample in input order,
exactly when none of these lines holds a newline character; in that case it has
as many lines as there are samples, the `i`-th being the line of the `i`-th
sample (so there is no trailing newline), and this is the case whenever the
measurement, the location, the equipment id and every sample's id, name, unit
and quality are free of newlines; for the empty list the text is empty. -/
theorem generateBatchLineProtocol_lines (config : Config) (data : List SensorData)
    (hne : data ≠ []) :
    ((generateBatchLineProtocol config data).splitOn '\n'
          = data.map (generateLineProtocol config)
        ↔ ∀ d ∈ data, '\n' ∉ generateLineProtocol config d)
      ∧ ((∀ d ∈ data, '\n' ∉ generateLineProtocol config d) →
          ((generateBatchLineProtocol config data).splitOn '\n').length = data.length
          ∧ ∀ (i : Nat) (h : i < data.length),
              ((generateBatchLineProtocol config data).splitOn '\n')[i]?
                = some (generateLineProtocol config (data.get ⟨i, h⟩)))
      ∧ (('\n' ∉ config.getInfluxDBMeasurement ∧ '\n' ∉ config.getSystemLocation
            ∧ '\n' ∉ config.getEquipmentId
            ∧ ∀ d ∈ data, '\n' ∉ d.id ∧ '\n' ∉ d.name ∧ '\n' ∉ d.unit ∧ '\n' ∉ d.quality) →
          ∀ d ∈ data, '\n' ∉ generateLineProtocol config d)
      ∧ generateBatchLineProtocol config [] = [] := by
  have hsplit : (∀ d ∈ data, '\n' ∉ generateLineProtocol config d) →
      (generateBatchLineProtocol config data).splitOn '\n'
        = data.map (generateLineProtocol config) := by
    intro hnl
    rw [generateBatchLineProtocol_eq_intercalate]
    apply List.splitOn_intercalate
    · intro l hl
      rcases List.mem_map.1 hl with ⟨d, hd, rfl⟩
      exact hnl d hd
    · simpa using hne
  refine ⟨⟨?_, hsplit⟩, ?_, ?_, rfl⟩
  · intro heq d hd hmem
    have hpiece : generateLineProtocol config d
        ∈ (generateBatchLineProtocol config data).splitOn '\n' := by
      rw [heq]
      exact List.mem_map.2 ⟨d, hd, rfl⟩
    have h := splitOnP_piece_free (fun x => x == '\n') _ _ hpiece _ hmem
    simp at h
  · intro hnl
    rw [hsplit hnl]
    refine ⟨List.length_map _ _, ?_⟩
    intro i h
    simp [List.getElem?_map, List.getElem?_eq_getElem h]
  · rintro ⟨h1, h2, h3, h4⟩ d hd
    exact generateLineProtocol_no_newline config d h1 h2 h3 (h4 d hd).1 (h4 d hd).2.1
      (h4 d hd).2.2.1 (h4 d hd).2.2.2

/-- Witness for C3: a batch of two samples. -/
theorem generateBatchLineProtocol_lines_witness :
    ((generateBatchLineProtocol exampleConfig
        [pressureSample, { pressureSample with id := "temp_oil".toList }]).splitOn '\n')
      = [pressureSample, { pressureSample with id := "temp_oil".toList }].map
          (generateLineProtocol exampleConfig) :=
  (generateBatchLineProtocol_lines exampleConfig
    [pressureSample, { pressureSample with id := "temp_oil".toList }]
    (by decide)).1.2 (by decide)

/-! ### Delivery: the retry loop -/

theorem postCount_append_post (tr : List IOEvent) (url data : Str) :
    postCount (tr ++ [IOEvent.post url data]) = postCount tr + 1 := by
  simp [postCount, List.filter_append, IOEvent.isPost]

theorem postCount_append_sleep (tr : List IOEvent) (ms : Nat) :
    postCount (tr ++ [IOEvent.sleep ms]) = postCount tr := by
  simp [postCount, List.filter_append, IOEvent.isPost]

theorem retriableFailure_iff (r : HTTPResponse) :
    r.retriableFailure = true ↔
      ¬ (r.success = true ∧ r.statusCode = 204) ∧
        (r.statusCode = 429 ∨ r.statusCode = 502 ∨ r.statusCode = 503 ∨ r.statusCode = 504
          ∨ r.statusCode = 0) := by
  unfold HTTPResponse.retriableFailure HTTPResponse.accepted shouldRetry
  by_cases h204 : r.statusCode = 204 <;> cases hs : r.success <;> simp [h204, or_assoc]

theorem accepted_iff (r : HTTPResponse) :
    r.accepted = true ↔ (r.success = true ∧ r.statusCode = 204) := by
  simp [HTTPResponse.accepted]

theorem retriableFailure_not_accepted (r : HTTPResponse) (h : r.retriableFailure = true) :
    r.accepted = false := by
  simp only [HTTPResponse.retriableFailure, Bool.and_eq_true, Bool.not_eq_true'] at h
  exact h.1

theorem httpPost_no_body (w : InfluxDBWriter) (r : CurlResult) (h : r.body = []) :
    w.httpPost r
      = some (if !w.curl_ then HTTPResponse.new
          else { statusCode := r.responseCode, body := [], success := r.ok }) := by
  unfold InfluxDBWriter.httpPost curl_easy_perform
  rw [h]
  cases w.curl_ <;> rfl

theorem httpPost_body (w : InfluxDBWriter) (r : CurlResult) (hc : w.curl_ = true)
    (h : r.body ≠ []) : w.httpPost r = none := by
  unfold InfluxDBWriter.httpPost curl_easy_perform
  rw [hc]
  cases hb : r.body with
  | nil => exact absurd hb h
  | cons a l => rfl

/-- The loop, run from attempt `retries`, when the attempts up to `k` return the
responses `resp j`, attempts `retries .. k-1` are retriable failures and attempt
`k` either is not or is the last one allowed: it ends after the POST of attempt
`k`, with one back-off sleep after each earlier POST, and reports whether
response `k` was accepted. -/
theorem writeBatchLoop_stop (w : InfluxDBWriter) (url lp : Str) (net : Nat → CurlResult)
    (resp : Nat → HTTPResponse) (k : Nat) (hk : k ≤ w.maxRetries_)
    (hresp : ∀ j, j ≤ k → w.httpPost (net j) = some (resp j))
    (hstop : k = w.maxRetries_ ∨ (resp k).retriableFailure = false) :
    ∀ (m retries fuel : Nat) (tr : List IOEvent),
      retries + m = k → m + 2 ≤ fuel → postCount tr = retries →
      (∀ j, retries ≤ j → j < k → (resp j).retriableFailure = true) →
      w.writeBatchLoop url lp net fuel retries tr
        = some ((resp k).accepted,
            tr ++ retriedAttempts w url lp retries m ++ [IOEvent.post url lp]) := by
  intro m
  induction m with
  | zero =>
    intro retries fuel tr hrk hfuel hpc _
    have hrk2 : retries = k := by omega
    subst hrk2
    obtain ⟨f, rfl⟩ : ∃ f, fuel = f + 1 := ⟨fuel - 1, by omega⟩
    obtain ⟨f2, rfl⟩ : ∃ f2, f = f2 + 1 := ⟨f - 1, by omega⟩
    simp only [InfluxDBWriter.writeBatchLoop, hk, if_true, hpc, hresp retries (Nat.le_refl _),
      retriedAttempts, List.range'_zero, List.map_nil, List.flatten_nil, List.append_nil]
    by_cases hacc : (resp retries).accepted = true
    · have h := hacc
      simp only [HTTPResponse.accepted] at h
      simp [h, hacc]
    · have hacc2 : (resp retries).accepted = false := by simpa using hacc
      have h := hacc2
      simp only [HTTPResponse.accepted] at h
      rw [hacc2]
      simp only [h, Bool.false_eq_true, if_false]
      by_cases hsr : shouldRetry (resp retries).statusCode = true
      · have hrf : (resp retries).retriableFailure = true := by
          simp [HTTPResponse.retriableFailure, hacc2, hsr]
        have hmax : retries = w.maxRetries_ := by
          rcases hstop with h1 | h1
          · exact h1
          · rw [hrf] at h1; exact absurd h1 (by decide)
        have hnot : ¬ (retries + 1 ≤ w.maxRetries_) := by omega
        simp [hsr, hnot, InfluxDBWriter.writeBatchLoop]
      · simp [hsr]
  | succ m ih =>
    intro retries fuel tr hrk hfuel hpc hall
    obtain ⟨f, rfl⟩ : ∃ f, fuel = f + 1 := ⟨fuel - 1, by omega⟩
    have hle : retries ≤ w.maxRetries_ := by omega
    have hrf := hall retries (Nat.le_refl _) (by omega)
    have hacc := retriableFailure_not_accepted _ hrf
    have hsr : shouldRetry (resp retries).statusCode = true := by
      simp only [HTTPResponse.retriableFailure, Bool.and_eq_true] at hrf
      exact hrf.2
    have hacc2 := hacc
    simp only [HTTPResponse.accepted] at hacc2
    have hnext : retries + 1 ≤ w.maxRetries_ := by omega
    simp only [InfluxDBWriter.writeBatchLoop, hle, if_true, hpc, hresp retries (by omega),
      hacc2, Bool.false_eq_true, if_false, hsr, Bool.not_true, hnext]
    rw [ih (retries + 1) f _ (by omega) (by omega)
      (by rw [postCount_append_sleep, postCount_append_post, hpc])
      (fun j hj1 hj2 => hall j (by omega) hj2)]
    simp [retriedAttempts, List.range'_succ, List.append_assoc]

/-- The loop, run from attempt `retries`, when attempts `retries .. k-1` return
retriable failures and attempt `k` has no defined result: the loop has none. -/
theorem writeBatchLoop_undefined (w : InfluxDBWriter) (url lp : Str) (net : Nat → CurlResult)
    (resp : Nat → HTTPResponse) (k : Nat) (hk : k ≤ w.maxRetries_)
    (hresp : ∀ j, j < k → w.httpPost (net j) = some (resp j))
    (hnone : w.httpPost (net k) = none) :
    ∀ (m retries fuel : Nat) (tr : List IOEvent),
      retries + m = k → postCount tr = retries →
      (∀ j, retries ≤ j → j < k → (resp j).retriableFailure = true) →
      w.writeBatchLoop url lp net fuel retries tr = none := by
  intro m
  induction m with
  | zero =>
    intro retries fuel tr hrk hpc _
    have hrk2 : retries = k := by omega
    subst hrk2
    cases fuel with
    | zero => rfl
    | succ f => simp only [InfluxDBWriter.writeBatchLoop, hk, if_true, hpc, hnone]
  | succ m ih =>
    intro retries fuel tr hrk hpc hall
    cases fuel with
    | zero => rfl
    | succ f =>
      have hle : retries ≤ w.maxRetries_ := by omega
      have hrf := hall retries (Nat.le_refl _) (by omega)
      have hacc := retriableFailure_not_accepted _ hrf
      have hsr : shouldRetry (resp retries).statusCode = true := by
        simp only [HTTPResponse.retriableFailure, Bool.and_eq_true] at hrf
        exact hrf.2
      have hacc2 := hacc
      simp only [HTTPResponse.accepted] at hacc2
      have hnext : retries + 1 ≤ w.maxRetries_ := by omega
      simp only [InfluxDBWriter.writeBatchLoop, hle, if_true, hpc, hresp retries (by omega),
        hacc2, Bool.false_eq_true, if_false, hsr, Bool.not_true, hnext]
      exact ih (retries + 1) f _ (by omega)
        (by rw [postCount_append_sleep, postCount_append_post, hpc])
        (fun j hj1 hj2 => hall j (by omega) hj2)

/-- There is always a stopping attempt: the first attempt up to `maxRetries`
whose response is not a retriable failure, or attempt `maxRetries` itself. -/
theorem exists_stop (maxRetries : Nat) (resp : Nat → HTTPResponse) :
    ∃ k, k ≤ maxRetries
      ∧ (∀ j, j < k → (resp j).retriableFailure = true)
      ∧ (k = maxRetries ∨ (resp k).retriableFailure = false) := by
  by_cases h : ∃ k, k ≤ maxRetries ∧ (resp k).retriableFailure = false
  · refine ⟨Nat.find h, (Nat.find_spec h).1, ?_, Or.inr (Nat.find_spec h).2⟩
    intro j hj
    have hmin := Nat.find_min h hj
    have hjle : j ≤ maxRetries := le_trans (Nat.le_of_lt hj) (Nat.find_spec h).1
    by_contra hcon
    exact hmin ⟨hjle, by simpa using hcon⟩
  · refine ⟨maxRetries, Nat.le_refl _, ?_, Or.inl rfl⟩
    intro j hj
    by_contra hcon
    exact h ⟨j, Nat.le_of_lt hj, by simpa using hcon⟩

theorem postCount_append (a b : List IOEvent) : postCount (a ++ b) = postCount a + postCount b := by
  simp [postCount, List.filter_append]

theorem sleepsOf_append (a b : List IOEvent) : sleepsOf (a ++ b) = sleepsOf a ++ sleepsOf b := by
  simp [sleepsOf, List.filterMap_append]

theorem retriedAttempts_succ (w : InfluxDBWriter) (url lp : Str) (start count : Nat) :
    retriedAttempts w url lp start (count + 1)
      = [IOEvent.post url lp, IOEvent.sleep (w.retryDelay_ * (start + 1))]
          ++ retriedAttempts w url lp (start + 1) count := by
  simp [retriedAttempts, List.range'_succ]

theorem postCount_retriedAttempts (w : InfluxDBWriter) (url lp : Str) (start count : Nat) :
    postCount (retriedAttempts w url lp start count) = count := by
  induction count generalizing start with
  | zero => simp [retriedAttempts, postCount]
  | succ n ih =>
    rw [retriedAttempts_succ, postCount_append, ih]
    simp [postCount, IOEvent.isPost]
    omega

theorem sleepsOf_retriedAttempts (w : InfluxDBWriter) (url lp : Str) (start count : Nat) :
    sleepsOf (retriedAttempts w url lp start count)
      = (List.range' start count).map (fun j => w.retryDelay_ * (j + 1)) := by
  induction count generalizing start with
  | zero => simp [retriedAttempts, sleepsOf]
  | succ n ih =>
    rw [retriedAttempts_succ, sleepsOf_append, ih, List.range'_succ]
    simp [sleepsOf]

/-- What `writeBatch` does on a connected writer with a non-empty batch, given
the stopping attempt `k` and the responses `resp j` that the attempts up to `k`
return. -/
theorem writeBatch_run (w : InfluxDBWriter) (data : List SensorData) (net : Nat → CurlResult)
    (resp : Nat → HTTPResponse)
    (hc : w.connected_ = true) (hd : data ≠ []) (k : Nat) (hk : k ≤ w.maxRetries_)
    (hresp : ∀ j, j ≤ k → w.httpPost (net j) = some (resp j))
    (hall : ∀ j, j < k → (resp j).retriableFailure = true)
    (hstop : k = w.maxRetries_ ∨ (resp k).retriableFailure = false) :
    w.writeBatch data net
      = some ((resp k).accepted,
          (if (resp k).accepted then
            { w with totalWrites_ := w.totalWrites_ + 1,
                     successfulWrites_ := w.successfulWrites_ + 1 }
           else
            { w with totalWrites_ := w.totalWrites_ + 1,
                     failedWrites_ := w.failedWrites_ + 1 }),
          retriedAttempts w w.buildWriteUrl (generateBatchLineProtocol w.config_ data) 0 k
            ++ [IOEvent.post w.buildWriteUrl (generateBatchLineProtocol w.config_ data)]) := by
  have hde : data.isEmpty = false := by
    cases data with
    | nil => exact absurd rfl hd
    | cons _ _ => rfl
  have hloop := writeBatchLoop_stop { w with totalWrites_ := w.totalWrites_ + 1 }
    w.buildWriteUrl (generateBatchLineProtocol w.config_ data) net resp k hk hresp hstop
    k 0 (w.maxRetries_ + 2) [] (by omega) (by omega) rfl (fun j _ hj => hall j hj)
  have hretr : retriedAttempts { w with totalWrites_ := w.totalWrites_ + 1 } w.buildWriteUrl
      (generateBatchLineProtocol w.config_ data) 0 k
      = retriedAttempts w w.buildWriteUrl (generateBatchLineProtocol w.config_ data) 0 k := rfl
  rw [hretr] at hloop
  unfold InfluxDBWriter.writeBatch
  rw [if_neg (by simp [hc, hde])]
  simp only []
  split
  · rename_i heq
    have h : InfluxDBWriter.writeBatchLoop { w with totalWrites_ := w.totalWrites_ + 1 }
        w.buildWriteUrl (generateBatchLineProtocol w.config_ data) net (w.maxRetries_ + 2) 0 []
        = none := heq
    rw [hloop] at h
    exact absurd h (by simp)
  · rename_i tr heq
    have h : InfluxDBWriter.writeBatchLoop { w with totalWrites_ := w.totalWrites_ + 1 }
        w.buildWriteUrl (generateBatchLineProtocol w.config_ data) net (w.maxRetries_ + 2) 0 []
        = some (true, tr) := heq
    rw [hloop] at h
    simp only [Option.some.injEq, Prod.mk.injEq, List.nil_append] at h
    rw [h.1, ← h.2]
    simp
  · rename_i tr heq
    have h : InfluxDBWriter.writeBatchLoop { w with totalWrites_ := w.totalWrites_ + 1 }
        w.buildWriteUrl (generateBatchLineProtocol w.config_ data) net (w.maxRetries_ + 2) 0 []
        = some (false, tr) := heq
    rw [hloop] at h
    simp only [Option.some.injEq, Prod.mk.injEq, List.nil_append] at h
    rw [h.1, ← h.2]
    simp

/-- On a connected writer with a non-empty batch: when the attempts before `k`
return retriable failures and the `httpPost` of attempt `k` has no defined
result, `writeBatch` has none. -/
theorem writeBatch_undefined (w : InfluxDBWriter) (data : List SensorData)
    (net : Nat → CurlResult) (resp : Nat → HTTPResponse)
    (hc : w.connected_ = true) (hd : data ≠ []) (k : Nat) (hk : k ≤ w.maxRetries_)
    (hresp : ∀ j, j < k → w.httpPost (net j) = some (resp j))
    (hall : ∀ j, j < k → (resp j).retriableFailure = true)
    (hnone : w.httpPost (net k) = none) :
    w.writeBatch data net = none := by
  have hde : data.isEmpty = false := by
    cases data with
    | nil => exact absurd rfl hd
    | cons _ _ => rfl
  have hloop := writeBatchLoop_undefined { w with totalWrites_ := w.totalWrites_ + 1 }
    w.buildWriteUrl (generateBatchLineProtocol w.config_ data) net resp k hk hresp hnone
    k 0 (w.maxRetries_ + 2) [] (by omega) rfl (fun j _ hj => hall j hj)
  unfold InfluxDBWriter.writeBatch
  rw [if_neg (by simp [hc, hde])]
  simp only []
  rw [hloop]

/-- A call of `writeBatch` returns when each `httpPost` up to attempt
`maxRetries_` has a defined result. -/
theorem writeBatch_returns (w : InfluxDBWriter) (data : List SensorData)
    (net : Nat → CurlResult)
    (h : ∀ j, j ≤ w.maxRetries_ → w.httpPost (net j) ≠ none) :
    ∃ r, w.writeBatch data net = some r := by
  by_cases hcd : w.connected_ = true ∧ data ≠ []
  · obtain ⟨hc, hd⟩ := hcd
    have hresp : ∀ j, j ≤ w.maxRetries_ →
        w.httpPost (net j) = some ((w.httpPost (net j)).getD HTTPResponse.new) := by
      intro j hj
      cases hp : w.httpPost (net j) with
      | none => exact absurd hp (h j hj)
      | some r => rfl
    obtain ⟨k, hk, hall, hstop⟩ := exists_stop w.maxRetries_
      (fun j => (w.httpPost (net j)).getD HTTPResponse.new)
    exact ⟨_, writeBatch_run w data net
      (fun j => (w.httpPost (net j)).getD HTTPResponse.new) hc hd k hk
      (fun j hj => hresp j (le_trans hj hk)) hall hstop⟩
  · refine ⟨(false, w, []), ?_⟩
    unfold InfluxDBWriter.writeBatch
    have hcond : (!w.connected_ || data.isEmpty) = true := by
      cases hconn : w.connected_
      · simp
      · cases data with
        | nil => simp
        | cons d rest => exact absurd ⟨hconn, List.cons_ne_nil d rest⟩ hcd
    rw [if_pos hcond]

theorem accepted_not_retriableFailure (r : HTTPResponse) (h : r.accepted = true) :
    r.retriableFailure = false := by
  simp [HTTPResponse.retriableFailure, h]

/-- The responses of a call whose attempts all deliver no body. -/
theorem httpPost_responses (w : InfluxDBWriter) (net : Nat → CurlResult) (n : Nat)
    (hbody : ∀ j, j ≤ n → (net j).body = []) :
    ∀ j, j ≤ n →
      w.httpPost (net j) = some ((w.httpPost (net j)).getD HTTPResponse.new) := by
  intro j hj
  rw [httpPost_no_body w (net j) (hbody j hj)]
  rfl

/-! ### Delivery: the claims -/

/-- The retry loop when every attempt returns a response (`resp j` for attempt
`j`): on a connected writer with a non-empty batch, `writeBatch` returns, and it
returns `true` exactly when some attempt `k <= maxRetries_` gets a response
with transport success and status 204 while every earlier response is not
accepted and has status 429, 502, 503, 504 or 0. With `maxRetries_ = 3` the
statuses 503, 503, 503 followed by an accepted 204 give `true` after four
POSTs; whenever `true` is returned the response to the last POST has transport
success and status 204, and a first response with transport success and status
200 gives `false`. -/
theorem writeBatch_true_iff (w : InfluxDBWriter) (data : List SensorData)
    (net : Nat → CurlResult) (resp : Nat → HTTPResponse)
    (hc : w.connected_ = true) (hd : data ≠ [])
    (hresp : ∀ j, j ≤ w.maxRetries_ → w.httpPost (net j) = some (resp j)) :
    (∃ b w2 tr, w.writeBatch data net = some (b, w2, tr))
    ∧ ((∃ w2 tr, w.writeBatch data net = some (true, w2, tr)) ↔
        ∃ k, k ≤ w.maxRetries_
          ∧ ((resp k).success = true ∧ (resp k).statusCode = 204)
          ∧ ∀ j, j < k →
              ¬ ((resp j).success = true ∧ (resp j).statusCode = 204)
              ∧ ((resp j).statusCode = 429 ∨ (resp j).statusCode = 502
                  ∨ (resp j).statusCode = 503
                  ∨ (resp j).statusCode = 504
                  ∨ (resp j).statusCode = 0))
    ∧ (w.maxRetries_ = 3 →
        (∀ j, j < 3 → (resp j).statusCode = 503) →
        ((resp 3).success = true ∧ (resp 3).statusCode = 204) →
        ∃ w2 tr, w.writeBatch data net = some (true, w2, tr) ∧ postCount tr = 4)
    ∧ (∀ w2 tr, w.writeBatch data net = some (true, w2, tr) →
        ∃ k, postCount tr = k + 1 ∧ (resp k).success = true
          ∧ (resp k).statusCode = 204)
    ∧ ((resp 0).success = true → (resp 0).statusCode = 200 →
        ∃ w2 tr, w.writeBatch data net = some (false, w2, tr)) := by
  obtain ⟨k, hk, hall, hstop⟩ := exists_stop w.maxRetries_ resp
  have hrun := writeBatch_run w data net resp hc hd k hk
    (fun j hj => hresp j (le_trans hj hk)) hall hstop
  have hback : ∀ k2, k2 ≤ w.maxRetries_ →
      ((resp k2).success = true ∧ (resp k2).statusCode = 204) →
      (∀ j, j < k2 →
        ¬ ((resp j).success = true ∧ (resp j).statusCode = 204)
        ∧ ((resp j).statusCode = 429 ∨ (resp j).statusCode = 502
            ∨ (resp j).statusCode = 503
            ∨ (resp j).statusCode = 504
            ∨ (resp j).statusCode = 0)) →
      ∃ w2 tr, w.writeBatch data net = some (true, w2, tr) ∧ postCount tr = k2 + 1 := by
    intro k2 hk2 hacc hprev
    have hacc2 : (resp k2).accepted = true := (accepted_iff _).2 hacc
    have hrun2 := writeBatch_run w data net resp hc hd k2 hk2
      (fun j hj => hresp j (le_trans hj hk2))
      (fun j hj => (retriableFailure_iff _).2 (hprev j hj))
      (Or.inr (accepted_not_retriableFailure _ hacc2))
    rw [hacc2] at hrun2
    exact ⟨_, _, hrun2, by rw [postCount_append, postCount_retriedAttempts]; rfl⟩
  refine ⟨⟨_, _, _, hrun⟩, ⟨?_, ?_⟩, ?_, ?_, ?_⟩
  · rintro ⟨w2, tr, h⟩
    rw [hrun] at h
    simp only [Option.some.injEq, Prod.mk.injEq] at h
    exact ⟨k, hk, (accepted_iff _).1 h.1, fun j hj => (retriableFailure_iff _).1 (hall j hj)⟩
  · rintro ⟨k2, hk2, hacc, hprev⟩
    obtain ⟨w2, tr, h, _⟩ := hback k2 hk2 hacc hprev
    exact ⟨w2, tr, h⟩
  · intro hmax h503 h204
    apply hback 3 (by omega) h204
    intro j hj
    rw [h503 j hj]
    exact ⟨fun h => absurd h.2 (by decide), Or.inr (Or.inr (Or.inl rfl))⟩
  · intro w2 tr h
    rw [hrun] at h
    simp only [Option.some.injEq, Prod.mk.injEq] at h
    refine ⟨k, ?_, (accepted_iff _).1 h.1⟩
    rw [← h.2.2, postCount_append, postCount_retriedAttempts]
    rfl
  · intro hs h200
    have hna : (resp 0).accepted = false := by
      simp [HTTPResponse.accepted, hs, h200]
    have hrf : (resp 0).retriableFailure = false := by
      simp [HTTPResponse.retriableFailure, hna, shouldRetry, h200]
    have hrun0 := writeBatch_run w data net resp hc hd 0 (Nat.zero_le _)
      (fun j hj => hresp j (le_trans hj (Nat.zero_le _)))
      (fun j hj => absurd hj (Nat.not_lt_zero j)) (Or.inr hrf)
    rw [hna] at hrun0
    exact ⟨_, _, hrun0⟩

/-- C4, the code at the failing input: the built-in writer (`maxRetries_ = 3`),
connected, one sample, and the answers 503, 503, 503, 204 of the claim, the
three 503 answers carrying a body as error answers do. The first `httpPost` has
no defined result, because the body is appended through the pointer to a
destroyed temporary, and so `writeBatch` has none: the sequence is not reported
successful. The same statuses without bodies give `true` after four POSTs. -/
theorem writeBatch_answers_with_body :
    connectedWriter.connected_ = true ∧ connectedWriter.curl_ = true
    ∧ connectedWriter.maxRetries_ = 3
    ∧ connectedWriter.httpPost (httpAnswer 503 "upstream unavailable".toList) = none
    ∧ connectedWriter.writeBatch [pressureSample]
        (netOfList [httpAnswer 503 "upstream unavailable".toList,
          httpAnswer 503 "upstream unavailable".toList,
          httpAnswer 503 "upstream unavailable".toList, httpStatus 204]) = none
    ∧ (connectedWriter.writeBatch [pressureSample]
        (netOfList [httpStatus 503, httpStatus 503, httpStatus 503, httpStatus 204])).map
          (fun r => (r.1, postCount r.2.2)) = some (true, 4) := by
  decide

/-- C5, the claim as stated, fails: a first response with status 0 (a failed
transfer) is not accepted and its status is none of 429, 502, 503, 504, yet the
writer sleeps 1000 ms, POSTs again and, on a 204, returns `true`. -/
theorem writeBatch_status_zero_is_retried :
    (connectedWriter.httpPost (netOfList [⟨false, 0, []⟩, httpStatus 204] 0)).map
        (fun r => (r.accepted, decide (r.statusCode ∈ [(429 : Int), 502, 503, 504])))
      = some (false, false)
      ∧ (connectedWriter.writeBatch [pressureSample]
            (netOfList [⟨false, 0, []⟩, httpStatus 204])).map
          (fun r => (r.1, postCount r.2.2, sleepsOf r.2.2)) = some (true, 2, [1000]) := by
  decide

/-- C5, amended: on a connected writer with a non-empty batch, if the first
`httpPost` returns a response (the answer carries no body) that is not accepted
and whose status is none of 429, 502, 503, 504 and 0, then `writeBatch` issues
exactly one POST, performs no sleep and returns `false`. -/
theorem writeBatch_no_retry (w : InfluxDBWriter) (data : List SensorData)
    (net : Nat → CurlResult) (resp : HTTPResponse)
    (hc : w.connected_ = true) (hd : data ≠ [])
    (hresp : w.httpPost (net 0) = some resp)
    (hna : ¬ (resp.success = true ∧ resp.statusCode = 204))
    (hs : resp.statusCode ≠ 429 ∧ resp.statusCode ≠ 502
      ∧ resp.statusCode ≠ 503 ∧ resp.statusCode ≠ 504
      ∧ resp.statusCode ≠ 0) :
    ∃ w2 tr, w.writeBatch data net = some (false, w2, tr)
      ∧ tr = [IOEvent.post w.buildWriteUrl (generateBatchLineProtocol w.config_ data)]
      ∧ postCount tr = 1 ∧ sleepsOf tr = [] := by
  have hna2 : resp.accepted = false := by
    cases h : resp.accepted
    · rfl
    · exact absurd ((accepted_iff _).1 h) hna
  have hrf : resp.retriableFailure = false := by
    cases h : resp.retriableFailure
    · rfl
    · rcases ((retriableFailure_iff _).1 h).2 with h1 | h1 | h1 | h1 | h1
      · exact absurd h1 hs.1
      · exact absurd h1 hs.2.1
      · exact absurd h1 hs.2.2.1
      · exact absurd h1 hs.2.2.2.1
      · exact absurd h1 hs.2.2.2.2
  have hrun := writeBatch_run w data net (fun _ => resp) hc hd 0 (Nat.zero_le _)
    (fun j hj => by
      have hj0 : j = 0 := Nat.le_zero.1 hj
      rw [hj0]
      exact hresp)
    (fun j hj => absurd hj (Nat.not_lt_zero j)) (Or.inr hrf)
  simp only [] at hrun
  rw [hna2] at hrun
  refine ⟨_, _, hrun, ?_, ?_, ?_⟩
  · simp [retriedAttempts]
  · simp [retriedAttempts, postCount, IOEvent.isPost]
  · simp [retriedAttempts, sleepsOf]

/-- Witness for C5: a first response with status 400 and no body. -/
theorem writeBatch_no_retry_witness :
    ∃ w2 tr, connectedWriter.writeBatch [pressureSample] (netOfList [httpStatus 400, httpStatus 204])
        = some (false, w2, tr)
      ∧ tr = [IOEvent.post connectedWriter.buildWriteUrl
                (generateBatchLineProtocol connectedWriter.config_ [pressureSample])]
      ∧ postCount tr = 1 ∧ sleepsOf tr = [] :=
  writeBatch_no_retry connectedWriter [pressureSample]
    (netOfList [httpStatus 400, httpStatus 204]) ⟨400, [], true⟩
    (by decide) (by decide) (by decide) (by decide) (by decide)

/-- C6, the code at the failing input: the first transfer fails after the
status line 200 was received (`success = false`, `statusCode = 200`); no retry
has been made yet and `maxRetries_` is 3, but `writeBatch` issues no second
POST, does not sleep, and returns `false`, although the next request would
have been answered with 204. -/
theorem writeBatch_failed_transfer_not_retried :
    (connectedWriter.httpPost (netOfList [⟨false, 200, []⟩, httpStatus 204] 0)).map
        HTTPResponse.success = some false
      ∧ connectedWriter.maxRetries_ = 3
      ∧ (connectedWriter.writeBatch [pressureSample]
            (netOfList [⟨false, 200, []⟩, httpStatus 204])).map
          (fun r => (r.1, postCount r.2.2, sleepsOf r.2.2)) = some (false, 1, []) := by
  decide

/-- The retry loop when every attempt returns a response (`resp j` for attempt
`j`): on a connected writer with a non-empty batch, `writeBatch` returns after
at most `maxRetries_ + 1` POSTs; when every response up to attempt
`maxRetries_` is a retriable failure it returns `false` after exactly
`maxRetries_ + 1` POSTs and `maxRetries_` sleeps, the `k`-th sleep being
`retryDelay_ * k` ms, each sleep standing between two POSTs and the trace ending
with a POST; with the built-in 3 and 1000 the sleeps are 1000, 2000, 3000. -/
theorem writeBatch_attempts (w : InfluxDBWriter) (data : List SensorData)
    (net : Nat → CurlResult) (resp : Nat → HTTPResponse)
    (hc : w.connected_ = true) (hd : data ≠ [])
    (hresp : ∀ j, j ≤ w.maxRetries_ → w.httpPost (net j) = some (resp j)) :
    (∃ b w2 tr, w.writeBatch data net = some (b, w2, tr) ∧ postCount tr ≤ w.maxRetries_ + 1)
    ∧ ((∀ j, j ≤ w.maxRetries_ →
          ¬ ((resp j).success = true ∧ (resp j).statusCode = 204)
          ∧ ((resp j).statusCode = 429 ∨ (resp j).statusCode = 502
              ∨ (resp j).statusCode = 503
              ∨ (resp j).statusCode = 504
              ∨ (resp j).statusCode = 0)) →
        ∃ w2 tr, w.writeBatch data net = some (false, w2, tr)
          ∧ postCount tr = w.maxRetries_ + 1
          ∧ (sleepsOf tr).length = w.maxRetries_
          ∧ (∀ k, 1 ≤ k → k ≤ w.maxRetries_ → (sleepsOf tr)[k - 1]? = some (w.retryDelay_ * k))
          ∧ tr = retriedAttempts w w.buildWriteUrl (generateBatchLineProtocol w.config_ data)
                    0 w.maxRetries_
                  ++ [IOEvent.post w.buildWriteUrl (generateBatchLineProtocol w.config_ data)]
          ∧ tr.getLast?
              = some (IOEvent.post w.buildWriteUrl (generateBatchLineProtocol w.config_ data))
          ∧ (w.maxRetries_ = 3 → w.retryDelay_ = 1000 → sleepsOf tr = [1000, 2000, 3000])) := by
  obtain ⟨k, hk, hall, hstop⟩ := exists_stop w.maxRetries_ resp
  have hrun := writeBatch_run w data net resp hc hd k hk
    (fun j hj => hresp j (le_trans hj hk)) hall hstop
  refine ⟨⟨_, _, _, hrun, ?_⟩, ?_⟩
  · rw [postCount_append, postCount_retriedAttempts]
    simp only [postCount, List.filter_cons, IOEvent.isPost, if_true, List.filter_nil,
      List.length_cons, List.length_nil]
    omega
  · intro hfail
    have hrf : ∀ j, j ≤ w.maxRetries_ → (resp j).retriableFailure = true :=
      fun j hj => (retriableFailure_iff _).2 (hfail j hj)
    have hrun2 := writeBatch_run w data net resp hc hd w.maxRetries_ (Nat.le_refl _)
      hresp (fun j hj => hrf j (Nat.le_of_lt hj)) (Or.inl rfl)
    rw [retriableFailure_not_accepted _ (hrf _ (Nat.le_refl _))] at hrun2
    have hsl : sleepsOf (retriedAttempts w w.buildWriteUrl
        (generateBatchLineProtocol w.config_ data) 0 w.maxRetries_
        ++ [IOEvent.post w.buildWriteUrl (generateBatchLineProtocol w.config_ data)])
        = (List.range' 0 w.maxRetries_).map (fun j => w.retryDelay_ * (j + 1)) := by
      rw [sleepsOf_append, sleepsOf_retriedAttempts]
      simp [sleepsOf]
    refine ⟨_, _, hrun2, ?_, ?_, ?_, rfl, by simp, ?_⟩
    · rw [postCount_append, postCount_retriedAttempts]
      rfl
    · rw [hsl]
      simp
    · intro k2 hk1 hk2
      rw [hsl]
      have hlt : k2 - 1 < w.maxRetries_ := by omega
      simp only [List.getElem?_map]
      rw [List.getElem?_range' 0 1 hlt]
      simp only [Option.map_some', Option.some.injEq]
      congr 1
      omega
    · intro h3 h1000
      rw [hsl, h3, h1000]
      decide

/-- C7, the code at the failing input: the built-in writer (`maxRetries_ = 3`,
`retryDelay_ = 1000`), connected, one sample, and every request answered with
status 429 and a body. Every response is a retriable failure, but the first
`httpPost` has no defined result, because the body is appended through the
pointer to a destroyed temporary, and so `writeBatch` has none: there are not
four POSTs and three sleeps. With the same status and no body there are four
POSTs and the sleeps 1000, 2000, 3000. -/
theorem writeBatch_retriable_with_body :
    connectedWriter.connected_ = true ∧ connectedWriter.curl_ = true
    ∧ connectedWriter.maxRetries_ = 3 ∧ connectedWriter.retryDelay_ = 1000
    ∧ shouldRetry 429 = true
    ∧ connectedWriter.httpPost (httpAnswer 429 "rate limit exceeded".toList) = none
    ∧ connectedWriter.writeBatch [pressureSample]
        (fun _ => httpAnswer 429 "rate limit exceeded".toList) = none
    ∧ (connectedWriter.writeBatch [pressureSample] (fun _ => httpStatus 429)).map
          (fun r => (r.1, postCount r.2.2, sleepsOf r.2.2))
        = some (false, 4, [1000, 2000, 3000]) := by
  decide

/-- C8, the claim as stated, fails: `writeBatch` on a writer that is not
connected returns `false` and leaves `successfulWrites_ + failedWrites_` at 0
(and likewise on a connected writer given an empty batch). -/
theorem writeBatch_guard_leaves_counters :
    (InfluxDBWriter.new exampleConfig).successfulWrites_
        + (InfluxDBWriter.new exampleConfig).failedWrites_ = 0
      ∧ ((InfluxDBWriter.new exampleConfig).writeBatch [pressureSample]
            (netOfList [httpStatus 204])).map
          (fun r => (r.1, r.2.1.successfulWrites_ + r.2.1.failedWrites_)) = some (false, 0)
      ∧ (connectedWriter.writeBatch [] (netOfList [httpStatus 204])).map
          (fun r => (r.1, r.2.1.successfulWrites_ + r.2.1.failedWrites_)) = some (false, 0) := by
  decide

/-- C8, amended: every call of `writeBatch` whose answers carry no body
returns; on a connected writer with a non-empty batch it adds exactly one to
`successfulWrites_ + failedWrites_`, to `successfulWrites_` when it returns
`true` and to `failedWrites_` when it returns `false`; on a writer that is not
connected, or with an empty batch, it returns `false`, makes no request and
leaves the writer unchanged. -/
theorem writeBatch_counters (w : InfluxDBWriter) (data : List SensorData)
    (net : Nat → CurlResult)
    (hbody : ∀ j, j ≤ w.maxRetries_ → (net j).body = []) :
    ∃ b w2 tr, w.writeBatch data net = some (b, w2, tr)
      ∧ ((w.connected_ = true ∧ data ≠ []) →
          w2.successfulWrites_ + w2.failedWrites_
              = w.successfulWrites_ + w.failedWrites_ + 1
            ∧ (b = true →
                w2.successfulWrites_ = w.successfulWrites_ + 1 ∧ w2.failedWrites_ = w.failedWrites_)
            ∧ (b = false →
                w2.failedWrites_ = w.failedWrites_ + 1
                  ∧ w2.successfulWrites_ = w.successfulWrites_))
      ∧ (¬ (w.connected_ = true ∧ data ≠ []) → b = false ∧ w2 = w ∧ tr = []) := by
  by_cases hcd : w.connected_ = true ∧ data ≠ []
  · obtain ⟨hc, hd⟩ := hcd
    have hresp := httpPost_responses w net w.maxRetries_ hbody
    obtain ⟨k, hk, hall, hstop⟩ := exists_stop w.maxRetries_
      (fun j => (w.httpPost (net j)).getD HTTPResponse.new)
    have hrun := writeBatch_run w data net
      (fun j => (w.httpPost (net j)).getD HTTPResponse.new) hc hd k hk
      (fun j hj => hresp j (le_trans hj hk)) hall hstop
    refine ⟨_, _, _, hrun, ?_, fun h => absurd ⟨hc, hd⟩ h⟩
    intro _
    cases hacc : ((w.httpPost (net k)).getD HTTPResponse.new).accepted
    · simp
      omega
    · simp
      omega
  · refine ⟨false, w, [], ?_, fun h => absurd h hcd, fun _ => ⟨rfl, rfl, rfl⟩⟩
    unfold InfluxDBWriter.writeBatch
    have hcond : (!w.connected_ || data.isEmpty) = true := by
      cases hconn : w.connected_
      · simp
      · cases data with
        | nil => simp
        | cons d rest => exact absurd ⟨hconn, List.cons_ne_nil d rest⟩ hcd
    rw [if_pos hcond]

/-- Witness for C8: the built-in writer, one sample, the answers 503 and 204
without body. -/
theorem writeBatch_counters_witness :
    ∃ b w2 tr, connectedWriter.writeBatch [pressureSample]
        (netOfList [httpStatus 503, httpStatus 204]) = some (b, w2, tr)
      ∧ ((connectedWriter.connected_ = true ∧ [pressureSample] ≠ []) →
          w2.successfulWrites_ + w2.failedWrites_
              = connectedWriter.successfulWrites_ + connectedWriter.failedWrites_ + 1
            ∧ (b = true →
                w2.successfulWrites_ = connectedWriter.successfulWrites_ + 1
                  ∧ w2.failedWrites_ = connectedWriter.failedWrites_)
            ∧ (b = false →
                w2.failedWrites_ = connectedWriter.failedWrites_ + 1
                  ∧ w2.successfulWrites_ = connectedWriter.successfulWrites_))
      ∧ (¬ (connectedWriter.connected_ = true ∧ [pressureSample] ≠ []) →
          b = false ∧ w2 = connectedWriter ∧ tr = []) :=
  writeBatch_counters connectedWriter [pressureSample]
    (netOfList [httpStatus 503, httpStatus 204]) (by decide)

/-! ### The ingestion queue -/

theorem validateSensorData_invalid (m : DataManager) (d : SensorData)
    (hval : m.config_.getEnableValidation = true) (hd : invalidSample d) :
    m.validateSensorData d = false := by
  unfold DataManager.validateSensorData
  simp only [hval, Bool.not_true, Bool.false_eq_true, if_false]
  rcases hd with h | h | ⟨h1, h2⟩
  · simp [h]
  · simp [h]
  · by_cases he : (d.id.isEmpty || d.name.isEmpty) = true
    · simp [he]
    · have hq : (d.quality != "good".toList && d.quality != "uncertain".toList) = true := by
        rw [Bool.and_eq_true, bne_iff_ne, bne_iff_ne]
        exact ⟨h1, h2⟩
      simp only [he, Bool.false_eq_true, if_false, hq, if_true]

theorem validateSensorData_congr (m m2 : DataManager) (hc : m2.config_ = m.config_)
    (hl : m2.lastValues_ = m.lastValues_) (d : SensorData) :
    m2.validateSensorData d = m.validateSensorData d := by
  unfold DataManager.validateSensorData DataManager.detectOutlier
  rw [hc, hl]

/-- The loop of the list overload: the valid elements are appended to the
queue in order and counted as samples, the others are counted as failed. -/
theorem addSensorDataLoop_eq (ds : List SensorData) :
    ∀ (m : DataManager) (tr : List PipelineEvent),
      m.addSensorDataLoop tr ds
        = ({ m with
              dataQueue_ := m.dataQueue_ ++ ds.filter (fun d => m.validateSensorData d),
              metrics_ := { m.metrics_ with
                totalSamples := m.metrics_.totalSamples
                  + (ds.filter (fun d => m.validateSensorData d)).length,
                failedWrites := m.metrics_.failedWrites
                  + (ds.filter (fun d => !m.validateSensorData d)).length } },
            tr ++ (ds.filter (fun d => m.validateSensorData d)).map PipelineEvent.pushed) := by
  induction ds with
  | nil => intro m tr; simp [DataManager.addSensorDataLoop]
  | cons d rest ih =>
    intro m tr
    by_cases hv : m.validateSensorData d = true
    · have hcongr : ∀ x, DataManager.validateSensorData
          { m with dataQueue_ := m.dataQueue_ ++ [d],
                   metrics_ := { m.metrics_ with totalSamples := m.metrics_.totalSamples + 1 } } x
          = m.validateSensorData x := fun x => validateSensorData_congr m _ rfl rfl x
      simp only [DataManager.addSensorDataLoop, hv, if_true]
      rw [ih]
      simp only [hcongr, List.filter_cons, hv, if_true, Bool.not_true, Bool.false_eq_true,
        if_false, List.length_cons, List.map_cons, List.append_assoc, List.singleton_append,
        Nat.add_assoc, Nat.add_comm 1]
    · have hv2 : m.validateSensorData d = false := by simpa using hv
      have hcongr : ∀ x, DataManager.validateSensorData
          { m with metrics_ := { m.metrics_ with failedWrites := m.metrics_.failedWrites + 1 } } x
          = m.validateSensorData x := fun x => validateSensorData_congr m _ rfl rfl x
      simp only [DataManager.addSensorDataLoop, hv2, Bool.false_eq_true, if_false]
      rw [ih]
      simp only [hcongr, List.filter_cons, hv2, Bool.false_eq_true, if_false, Bool.not_false,
        if_true, List.length_cons, Nat.add_assoc, Nat.add_comm 1]

theorem pushedOf_append (a b : List PipelineEvent) :
    pushedOf (a ++ b) = pushedOf a ++ pushedOf b := by
  simp [pushedOf, List.filterMap_append]

theorem poppedOf_append (a b : List PipelineEvent) :
    poppedOf (a ++ b) = poppedOf a ++ poppedOf b := by
  simp [poppedOf, List.filterMap_append]

theorem pushedOf_map_pushed (l : List SensorData) :
    pushedOf (l.map PipelineEvent.pushed) = l := by
  induction l with
  | nil => rfl
  | cons d rest ih =>
    simp only [pushedOf, List.map_cons, List.filterMap_cons] at ih ⊢
    rw [ih]

theorem poppedOf_map_pushed (l : List SensorData) :
    poppedOf (l.map PipelineEvent.pushed) = [] := by
  induction l with
  | nil => rfl
  | cons d rest ih =>
    simp only [poppedOf, List.map_cons, List.filterMap_cons] at ih ⊢
    rw [ih]

/-- A flush neither touches the queue or the configuration nor pushes or pops. -/
theorem flushBatch_queue (m : DataManager) (env : StepEnv) :
    (m.flushBatch env).1.dataQueue_ = m.dataQueue_
      ∧ (m.flushBatch env).1.config_ = m.config_
      ∧ pushedOf (m.flushBatch env).2 = [] ∧ poppedOf (m.flushBatch env).2 = [] := by
  unfold DataManager.flushBatch
  by_cases h : (m.currentBatch_.isEmpty || !m.dataWriter_) = true
  · simp [h, pushedOf, poppedOf]
  · simp only [h, Bool.false_eq_true, if_false]
    refine ⟨?_, ?_, by simp [pushedOf], by simp [poppedOf]⟩
    · cases env.sink with
      | returned success => cases success <;> simp [DataManager.updateMetrics]
      | threw => simp
    · cases env.sink with
      | returned success => cases success <;> simp [DataManager.updateMetrics]
      | threw => simp

theorem addToBatch_queue (m : DataManager) (data : SensorData) (env : StepEnv) :
    (m.addToBatch data env).1.dataQueue_ = m.dataQueue_
      ∧ (m.addToBatch data env).1.config_ = m.config_
      ∧ pushedOf (m.addToBatch data env).2 = [] ∧ poppedOf (m.addToBatch data env).2 = [] := by
  unfold DataManager.addToBatch
  simp only []
  split
  · exact flushBatch_queue _ env
  · exact ⟨rfl, rfl, rfl, rfl⟩

/-- One operation: what was popped, followed by the queue afterwards, is the
queue before followed by what was pushed; the configuration is kept. -/
theorem step_queue (m : DataManager) (op : PipelineOp) :
    poppedOf (m.step op).2 ++ (m.step op).1.dataQueue_
        = m.dataQueue_ ++ pushedOf (m.step op).2
      ∧ (m.step op).1.config_ = m.config_ := by
  cases op with
  | start =>
    simp only [DataManager.step, DataManager.initializeManager]
    by_cases hr : m.running_ = true
    · simp [hr, pushedOf, poppedOf]
    · by_cases ht : m.config_.getWorkerThreads < 0 <;> simp [hr, ht, pushedOf, poppedOf]
  | setWriter writer => simp [DataManager.step, DataManager.setDataWriter, pushedOf, poppedOf]
  | enqueue data =>
    simp only [DataManager.step, DataManager.addSensorData]
    by_cases hr : m.running_ = true
    · by_cases hv : m.validateSensorData data = true
      · simp [hr, hv, pushedOf, poppedOf]
      · simp [hr, hv, pushedOf, poppedOf]
    · simp [hr, pushedOf, poppedOf]
  | enqueueMany dataList =>
    simp only [DataManager.step, DataManager.addSensorDataList]
    by_cases hc : (!m.running_ || dataList.isEmpty) = true
    · simp [hc, pushedOf, poppedOf]
    · simp only [hc, Bool.false_eq_true, if_false]
      rw [addSensorDataLoop_eq]
      simp [pushedOf_map_pushed, poppedOf_map_pushed]
  | worker env =>
    obtain ⟨cfg, running, queue, wt, dw, met, lv, cb, lf⟩ := m
    cases running with
    | false => simp [DataManager.step, DataManager.workerIteration, pushedOf, poppedOf]
    | true =>
      cases queue with
      | nil =>
        have h := flushBatch_queue ⟨cfg, true, [], wt, dw, met, lv, cb, lf⟩ env
        simp only [DataManager.step, DataManager.workerIteration, Bool.not_true,
          Bool.false_eq_true, if_false]
        split
        · rw [h.1, h.2.2.1, h.2.2.2]
          exact ⟨rfl, h.2.1⟩
        · simp [pushedOf, poppedOf]
      | cons d rest =>
        have h := addToBatch_queue
          (DataManager.updateLastValue ⟨cfg, true, rest, wt, dw, met, lv, cb, lf⟩ d) d env
        simp only [DataManager.step, DataManager.workerIteration, Bool.not_true,
          Bool.false_eq_true, if_false]
        refine ⟨?_, ?_⟩
        · simp only [poppedOf, pushedOf, List.filterMap_cons] at h ⊢
          rw [h.1, h.2.2.1, h.2.2.2]
          simp [DataManager.updateLastValue]
        · rw [h.2.1]
          simp [DataManager.updateLastValue]
  | stop env =>
    obtain ⟨cfg, running, queue, wt, dw, met, lv, cb, lf⟩ := m
    cases running with
    | false => simp [DataManager.step, DataManager.shutdown, pushedOf, poppedOf]
    | true =>
      have h := flushBatch_queue ⟨cfg, false, queue, 0, dw, met, lv, cb, lf⟩ env
      simp only [DataManager.step, DataManager.shutdown, Bool.not_true, Bool.false_eq_true,
        if_false]
      split
      · rw [h.1, h.2.2.1, h.2.2.2, h.2.1]
        simp
      · simp [pushedOf, poppedOf]

theorem run_queue (ops : List PipelineOp) :
    ∀ (m : DataManager),
      poppedOf (m.run ops).2 ++ (m.run ops).1.dataQueue_
          = m.dataQueue_ ++ pushedOf (m.run ops).2
        ∧ (m.run ops).1.config_ = m.config_ := by
  induction ops with
  | nil => intro m; simp [DataManager.run, pushedOf, poppedOf]
  | cons op ops ih =>
    intro m
    have h1 := step_queue m op
    have h2 := ih (m.step op).1
    simp only [DataManager.run, poppedOf_append, pushedOf_append]
    refine ⟨?_, by rw [h2.2, h1.2]⟩
    rw [List.append_assoc, h2.1, ← List.append_assoc, h1.1, List.append_assoc]

/-- The samples one operation pushes: a validated sample for `enqueue`, the
validated elements for `enqueueMany`, nothing otherwise. -/
theorem step_pushed (m : DataManager) (op : PipelineOp) :
    pushedOf (m.step op).2 =
      match op with
      | .enqueue d => if m.running_ = true ∧ m.validateSensorData d = true then [d] else []
      | .enqueueMany ds =>
        if m.running_ = true then ds.filter (fun d => m.validateSensorData d) else []
      | _ => [] := by
  cases op with
  | start => simp [DataManager.step, pushedOf]
  | setWriter writer => simp [DataManager.step, pushedOf]
  | enqueue data =>
    simp only [DataManager.step, DataManager.addSensorData]
    by_cases hr : m.running_ = true
    · by_cases hv : m.validateSensorData data = true
      · simp [hr, hv, pushedOf]
      · simp [hr, hv, pushedOf]
    · simp [hr, pushedOf]
  | enqueueMany dataList =>
    simp only [DataManager.step, DataManager.addSensorDataList]
    by_cases hr : m.running_ = true
    · cases dataList with
      | nil => simp [hr, pushedOf]
      | cons d rest =>
        simp only [hr, Bool.not_true, List.isEmpty_cons, Bool.or_self, Bool.false_eq_true,
          if_false, if_true]
        rw [addSensorDataLoop_eq]
        simp [pushedOf_map_pushed]
    · simp [hr, pushedOf]
  | worker env =>
    obtain ⟨cfg, running, queue, wt, dw, met, lv, cb, lf⟩ := m
    cases running with
    | false => simp [DataManager.step, DataManager.workerIteration, pushedOf]
    | true =>
      cases queue with
      | nil =>
        have h := flushBatch_queue ⟨cfg, true, [], wt, dw, met, lv, cb, lf⟩ env
        simp only [DataManager.step, DataManager.workerIteration, Bool.not_true,
          Bool.false_eq_true, if_false]
        split
        · exact h.2.2.1
        · rfl
      | cons d rest =>
        have h := addToBatch_queue
          (DataManager.updateLastValue ⟨cfg, true, rest, wt, dw, met, lv, cb, lf⟩ d) d env
        simp only [DataManager.step, DataManager.workerIteration, Bool.not_true,
          Bool.false_eq_true, if_false]
        simp only [pushedOf, List.filterMap_cons] at h ⊢
        exact h.2.2.1
  | stop env =>
    obtain ⟨cfg, running, queue, wt, dw, met, lv, cb, lf⟩ := m
    cases running with
    | false => simp [DataManager.step, DataManager.shutdown, pushedOf]
    | true =>
      have h := flushBatch_queue ⟨cfg, false, queue, 0, dw, met, lv, cb, lf⟩ env
      simp only [DataManager.step, DataManager.shutdown, Bool.not_true, Bool.false_eq_true,
        if_false]
      split
      · exact h.2.2.1
      · rfl

theorem step_pushed_valid (m : DataManager) (op : PipelineOp)
    (hval : m.config_.getEnableValidation = true) (d : SensorData)
    (hd : d ∈ pushedOf (m.step op).2) : ¬ invalidSample d := by
  intro hinv
  have hfalse := validateSensorData_invalid m d hval hinv
  rw [step_pushed] at hd
  cases op with
  | enqueue x =>
    simp only [] at hd
    by_cases hc : m.running_ = true ∧ m.validateSensorData x = true
    · rw [if_pos hc] at hd
      have hx : d = x := by simpa using hd
      rw [hx] at hfalse
      rw [hc.2] at hfalse
      exact absurd hfalse (by decide)
    · rw [if_neg hc] at hd
      exact absurd hd (List.not_mem_nil d)
  | enqueueMany ds =>
    simp only [] at hd
    by_cases hr : m.running_ = true
    · rw [if_pos hr] at hd
      have hv := (List.mem_filter.1 hd).2
      rw [hfalse] at hv
      exact absurd hv (by decide)
    · rw [if_neg hr] at hd
      exact absurd hd (List.not_mem_nil d)
  | start => exact absurd hd (List.not_mem_nil d)
  | setWriter w => exact absurd hd (List.not_mem_nil d)
  | worker env => exact absurd hd (List.not_mem_nil d)
  | stop env => exact absurd hd (List.not_mem_nil d)

theorem run_pushed_valid (ops : List PipelineOp) :
    ∀ (m : DataManager), m.config_.getEnableValidation = true →
      ∀ d, d ∈ pushedOf (m.run ops).2 → ¬ invalidSample d := by
  induction ops with
  | nil => intro m _ d hd; exact absurd hd (List.not_mem_nil d)
  | cons op ops ih =>
    intro m hval d hd
    simp only [DataManager.run, pushedOf_append, List.mem_append] at hd
    rcases hd with h | h
    · exact step_pushed_valid m op hval d h
    · exact ih (m.step op).1 (by rw [(step_queue m op).2]; exact hval) d h

/-- C9, the claim as stated, fails: with `enable_validation` false a running
data manager queues a sample whose id is empty and leaves the failed counter
at 0. -/
theorem addSensorData_unvalidated_empty_id :
    unvalidatedManager.running_ = true
      ∧ emptyIdSample.id = []
      ∧ (unvalidatedManager.addSensorData emptyIdSample).1.dataQueue_ = [emptyIdSample]
      ∧ unvalidatedManager.metrics_.failedWrites = 0
      ∧ (unvalidatedManager.addSensorData emptyIdSample).1.metrics_.failedWrites = 0 := by
  decide

/-- C9, amended: on a running data manager whose configuration has validation
enabled, `addSensorData` of a sample with an empty id, an empty name, or a
quality other than `good` and `uncertain` changes nothing but the failed
counter, which grows by one; the list overload appends exactly the elements
that pass validation, in order, and adds the number of the others to the failed
counter, every such invalid element being among the others; and in any run from
such a state no invalid sample is ever pushed onto the queue. -/
theorem addSensorData_rejects_invalid (m : DataManager) (hrun : m.running_ = true)
    (hval : m.config_.getEnableValidation = true) :
    (∀ d, invalidSample d →
        m.addSensorData d
          = ({ m with metrics_ :=
                { m.metrics_ with failedWrites := m.metrics_.failedWrites + 1 } }, [])
        ∧ (m.addSensorData d).1.dataQueue_ = m.dataQueue_
        ∧ (m.addSensorData d).1.metrics_.failedWrites = m.metrics_.failedWrites + 1)
    ∧ (∀ ds : List SensorData,
        (m.addSensorDataList ds).1.dataQueue_
            = m.dataQueue_ ++ ds.filter (fun d => m.validateSensorData d)
        ∧ (m.addSensorDataList ds).1.metrics_.failedWrites
            = m.metrics_.failedWrites + (ds.filter (fun d => !m.validateSensorData d)).length
        ∧ (∀ d, invalidSample d → m.validateSensorData d = false)
        ∧ ((∀ d ∈ ds, invalidSample d) →
            (m.addSensorDataList ds).1.dataQueue_ = m.dataQueue_
            ∧ (m.addSensorDataList ds).1.metrics_.failedWrites
                = m.metrics_.failedWrites + ds.length))
    ∧ (∀ (ops : List PipelineOp) (d : SensorData),
        d ∈ pushedOf (m.run ops).2 → ¬ invalidSample d) := by
  have hlist : ∀ ds : List SensorData,
      (m.addSensorDataList ds).1.dataQueue_
          = m.dataQueue_ ++ ds.filter (fun d => m.validateSensorData d)
      ∧ (m.addSensorDataList ds).1.metrics_.failedWrites
          = m.metrics_.failedWrites + (ds.filter (fun d => !m.validateSensorData d)).length := by
    intro ds
    unfold DataManager.addSensorDataList
    cases ds with
    | nil => simp
    | cons d rest =>
      simp only [hrun, Bool.not_true, List.isEmpty_cons, Bool.or_self, Bool.false_eq_true,
        if_false]
      rw [addSensorDataLoop_eq]
      exact ⟨rfl, rfl⟩
  refine ⟨?_, ?_, fun ops d hd => run_pushed_valid ops m hval d hd⟩
  · intro d hd
    have hv := validateSensorData_invalid m d hval hd
    have h : m.addSensorData d
        = ({ m with metrics_ :=
              { m.metrics_ with failedWrites := m.metrics_.failedWrites + 1 } }, []) := by
      unfold DataManager.addSensorData
      rw [if_neg (by simp [hrun]), if_pos (by simp [hv])]
    rw [h]
    exact ⟨rfl, rfl, rfl⟩
  · intro ds
    refine ⟨(hlist ds).1, (hlist ds).2, fun d hd => validateSensorData_invalid m d hval hd, ?_⟩
    intro hall
    have hnone : ds.filter (fun d => m.validateSensorData d) = [] := by
      rw [List.filter_eq_nil_iff]
      intro d hd
      rw [validateSensorData_invalid m d hval (hall d hd)]
      decide
    have hevery : ds.filter (fun d => !m.validateSensorData d) = ds := by
      rw [List.filter_eq_self]
      intro d hd
      rw [validateSensorData_invalid m d hval (hall d hd)]
      rfl
    rw [(hlist ds).1, (hlist ds).2, hnone, hevery]
    simp

/-- Witness for C9: the running stock data manager and the sample whose id is
empty. -/
theorem addSensorData_rejects_invalid_witness :
    (runningManager.addSensorData emptyIdSample).1.dataQueue_ = runningManager.dataQueue_
      ∧ (runningManager.addSensorData emptyIdSample).1.metrics_.failedWrites
          = runningManager.metrics_.failedWrites + 1 :=
  ((addSensorData_rejects_invalid runningManager (by decide) (by decide)).1
    emptyIdSample (Or.inl rfl)).2

/-- C10: in every run of operations (starting the workers, setting the writer,
`enqueue`, `enqueueMany`, worker iterations, shutdown) from a new data manager,
and so after every prefix of it, `getQueueSize` is the number of samples pushed
minus the number popped, and the samples pushed are, in order, the samples
popped followed by the queue contents: the queue is first-in first-out. -/
theorem queue_conservation (config : Config) (now : TimePoint) (ops : List PipelineOp) :
    ((DataManager.new config now).run ops).1.getQueueSize
        = (pushedOf ((DataManager.new config now).run ops).2).length
          - (poppedOf ((DataManager.new config now).run ops).2).length
      ∧ ((DataManager.new config now).run ops).1.getQueueSize
          + (poppedOf ((DataManager.new config now).run ops).2).length
        = (pushedOf ((DataManager.new config now).run ops).2).length
      ∧ pushedOf ((DataManager.new config now).run ops).2
        = poppedOf ((DataManager.new config now).run ops).2
          ++ ((DataManager.new config now).run ops).1.dataQueue_
      ∧ poppedOf ((DataManager.new config now).run ops).2
          <+: pushedOf ((DataManager.new config now).run ops).2
      ∧ (∀ k : Nat,
          ((DataManager.new config now).run (ops.take k)).1.getQueueSize
              + (poppedOf ((DataManager.new config now).run (ops.take k)).2).length
            = (pushedOf ((DataManager.new config now).run (ops.take k)).2).length
          ∧ pushedOf ((DataManager.new config now).run (ops.take k)).2
            = poppedOf ((DataManager.new config now).run (ops.take k)).2
              ++ ((DataManager.new config now).run (ops.take k)).1.dataQueue_) := by
  have key : ∀ l : List PipelineOp,
      pushedOf ((DataManager.new config now).run l).2
        = poppedOf ((DataManager.new config now).run l).2
          ++ ((DataManager.new config now).run l).1.dataQueue_ := by
    intro l
    have h := (run_queue l (DataManager.new config now)).1
    simp only [DataManager.new, List.nil_append] at h ⊢
    exact h.symm
  have len : ∀ l : List PipelineOp,
      ((DataManager.new config now).run l).1.getQueueSize
          + (poppedOf ((DataManager.new config now).run l).2).length
        = (pushedOf ((DataManager.new config now).run l).2).length := by
    intro l
    rw [key l, List.length_append, DataManager.getQueueSize]
    omega
  refine ⟨?_, len ops, key ops, ?_, fun k => ⟨len (ops.take k), key (ops.take k)⟩⟩
  · have h := len ops
    omega
  · exact ⟨_, (key ops).symm⟩

/-! ### Outlier detection -/

/-- C11: `detectOutlier` returns `true` exactly when a last value `L` is cached
for the sample's id and the binary64 quotient `|value - L| / |L|` is strictly
greater than the binary64 quotient `threshold / 100`; with no cached value it
returns `false` for every value; with `L = 100` and threshold 10 the value 110
is not an outlier (the change equals the threshold) and 110.01 is, whether 100,
110 and 10 are given with exponent 0 or with a 53-bit significand. -/
theorem detectOutlier_iff (m : DataManager) (data : SensorData) :
    (m.detectOutlier data = true ↔
        ∃ last, m.lastValues_.lookup data.id = some last
          ∧ (((data.value.sub last.value).abs).div last.value.abs).gt
              (m.config_.getOutlierThreshold.div (.finite false 100 0)) = true)
      ∧ (m.lastValues_.lookup data.id = none → m.detectOutlier data = false)
      ∧ (∀ last, m.lastValues_.lookup data.id = some last →
          last.value = .finite false 100 0 →
          m.config_.getOutlierThreshold = .finite false 10 0 →
          (data.value = .finite false 110 0 → m.detectOutlier data = false)
          ∧ (data.value = value11001 → m.detectOutlier data = true))
      ∧ (∀ last, m.lastValues_.lookup data.id = some last →
          last.value = .finite false 7036874417766400 (-46) →
          m.config_.getOutlierThreshold = .finite false 5629499534213120 (-49) →
          (data.value = .finite false 7740561859543040 (-46) → m.detectOutlier data = false)
          ∧ (data.value = value11001 → m.detectOutlier data = true)) := by
  refine ⟨?_, ?_, ?_, ?_⟩
  · unfold DataManager.detectOutlier
    cases h : m.lastValues_.lookup data.id with
    | none => simp
    | some last => simp
  · intro h
    unfold DataManager.detectOutlier
    rw [h]
  · intro last hl hv ht
    unfold DataManager.detectOutlier
    rw [hl]
    simp only [hv, ht]
    constructor
    · intro hd
      rw [hd]
      decide
    · intro hd
      rw [hd]
      decide
  · intro last hl hv ht
    unfold DataManager.detectOutlier
    rw [hl]
    simp only [hv, ht]
    constructor
    · intro hd
      rw [hd]
      decide
    · intro hd
      rw [hd]
      decide

/-! ### The last-value cache -/

/-- Looking a key up after the entries of another key were filtered out. -/
theorem lookup_filter_ne (k a : Str) (l : List (Str × SensorData)) :
    (l.filter (fun p => p.1 != a)).lookup k = if k = a then none else l.lookup k := by
  induction l with
  | nil => simp
  | cons p rest ih =>
    obtain ⟨key, v⟩ := p
    by_cases hka : key = a
    · subst hka
      by_cases hk : k = key
      · subst hk
        simp [List.filter_cons, ih]
      · have hb : (k == key) = false := by simpa using hk
        simp [List.filter_cons, ih, List.lookup_cons, hb, hk]
    · by_cases hk : k = key
      · subst hk
        simp [List.filter_cons, hka, List.lookup_cons]
      · have hb : (k == key) = false := by simpa using hk
        simp [List.filter_cons, hka, List.lookup_cons, hb, ih]

/-- The cache after `lastValues_[data.id] = data`. -/
theorem lookup_updateLastValue (m : DataManager) (d : SensorData) (k : Str) :
    (m.updateLastValue d).lastValues_.lookup k
      = if d.id = k then some d else m.lastValues_.lookup k := by
  unfold DataManager.updateLastValue
  simp only [List.lookup_cons]
  by_cases hk : d.id = k
  · subst hk
    simp
  · have hb : (k == d.id) = false := by
      simp only [beq_eq_false_iff_ne]
      exact fun h => hk h.symm
    rw [hb, lookup_filter_ne, if_neg (fun h => hk h.symm), if_neg hk]

/-- A flush keeps everything but the batch, the flush time and the metrics. -/
theorem flushBatch_frame (m : DataManager) (env : StepEnv) :
    (m.flushBatch env).1.running_ = m.running_
      ∧ (m.flushBatch env).1.dataWriter_ = m.dataWriter_
      ∧ (m.flushBatch env).1.lastValues_ = m.lastValues_ := by
  unfold DataManager.flushBatch
  by_cases h : (m.currentBatch_.isEmpty || !m.dataWriter_) = true
  · simp [h]
  · simp only [h, Bool.false_eq_true, if_false]
    cases env.sink with
    | returned success => cases success <;> simp [DataManager.updateMetrics]
    | threw => simp

/-- Appending to the batch keeps the run flag, the writer and the cache. -/
theorem addToBatch_frame (m : DataManager) (data : SensorData) (env : StepEnv) :
    (m.addToBatch data env).1.running_ = m.running_
      ∧ (m.addToBatch data env).1.dataWriter_ = m.dataWriter_
      ∧ (m.addToBatch data env).1.lastValues_ = m.lastValues_ := by
  unfold DataManager.addToBatch
  simp only []
  split
  · exact flushBatch_frame _ env
  · exact ⟨rfl, rfl, rfl⟩

/-- One operation changes the cache entry of an id exactly by the samples of that
id it pops. -/
theorem step_lastValues (m : DataManager) (op : PipelineOp) (k : Str) :
    (m.step op).1.lastValues_.lookup k
      = lastPoppedFrom (m.lastValues_.lookup k) k (poppedOf (m.step op).2) := by
  have hsame : ∀ r : DataManager × List PipelineEvent,
      r.1.lastValues_ = m.lastValues_ → poppedOf r.2 = [] →
      r.1.lastValues_.lookup k = lastPoppedFrom (m.lastValues_.lookup k) k (poppedOf r.2) := by
    intro r h1 h2
    rw [h1, h2]
    rfl
  cases op with
  | start =>
    apply hsame
    · simp only [DataManager.step, DataManager.initializeManager]
      by_cases hr : m.running_ = true
      · simp [hr]
      · by_cases ht : m.config_.getWorkerThreads < 0 <;> simp [hr, ht]
    · rfl
  | setWriter writer => exact hsame _ rfl rfl
  | enqueue data =>
    simp only [DataManager.step, DataManager.addSensorData]
    by_cases hr : m.running_ = true
    · by_cases hv : m.validateSensorData data = true
      · simp [hr, hv, poppedOf, lastPoppedFrom]
      · simp [hr, hv, poppedOf, lastPoppedFrom]
    · simp [hr, poppedOf, lastPoppedFrom]
  | enqueueMany dataList =>
    simp only [DataManager.step, DataManager.addSensorDataList]
    by_cases hc : (!m.running_ || dataList.isEmpty) = true
    · simp [hc, poppedOf, lastPoppedFrom]
    · simp only [hc, Bool.false_eq_true, if_false]
      rw [addSensorDataLoop_eq]
      simp [poppedOf_map_pushed, lastPoppedFrom]
  | worker env =>
    obtain ⟨cfg, running, queue, wt, dw, met, lv, cb, lf⟩ := m
    cases running with
    | false => simp [DataManager.step, DataManager.workerIteration, poppedOf, lastPoppedFrom]
    | true =>
      cases queue with
      | nil =>
        have h := flushBatch_queue ⟨cfg, true, [], wt, dw, met, lv, cb, lf⟩ env
        have h2 := flushBatch_frame ⟨cfg, true, [], wt, dw, met, lv, cb, lf⟩ env
        simp only [DataManager.step, DataManager.workerIteration, Bool.not_true,
          Bool.false_eq_true, if_false]
        split
        · rw [h.2.2.2, h2.2.2]
          rfl
        · rfl
      | cons d rest =>
        have h := addToBatch_queue
          (DataManager.updateLastValue ⟨cfg, true, rest, wt, dw, met, lv, cb, lf⟩ d) d env
        have h2 := addToBatch_frame
          (DataManager.updateLastValue ⟨cfg, true, rest, wt, dw, met, lv, cb, lf⟩ d) d env
        simp only [DataManager.step, DataManager.workerIteration, Bool.not_true,
          Bool.false_eq_true, if_false]
        simp only [poppedOf, List.filterMap_cons] at h ⊢
        rw [h.2.2.2, h2.2.2, lookup_updateLastValue]
        simp [lastPoppedFrom]
  | stop env =>
    obtain ⟨cfg, running, queue, wt, dw, met, lv, cb, lf⟩ := m
    cases running with
    | false => simp [DataManager.step, DataManager.shutdown, poppedOf, lastPoppedFrom]
    | true =>
      have h := flushBatch_queue ⟨cfg, false, queue, 0, dw, met, lv, cb, lf⟩ env
      have h2 := flushBatch_frame ⟨cfg, false, queue, 0, dw, met, lv, cb, lf⟩ env
      simp only [DataManager.step, DataManager.shutdown, Bool.not_true, Bool.false_eq_true,
        if_false]
      split
      · rw [h.2.2.2, h2.2.2]
        rfl
      · rfl

theorem lastPoppedFrom_append (init : Option SensorData) (k : Str) (a b : List SensorData) :
    lastPoppedFrom init k (a ++ b) = lastPoppedFrom (lastPoppedFrom init k a) k b := by
  simp [lastPoppedFrom, List.foldl_append]

/-- After a run the cache entry of an id is the latest sample of that id the
workers popped during the run, or the entry before the run. -/
theorem run_lastValues (ops : List PipelineOp) (k : Str) :
    ∀ m : DataManager,
      (m.run ops).1.lastValues_.lookup k
        = lastPoppedFrom (m.lastValues_.lookup k) k (poppedOf (m.run ops).2) := by
  induction ops with
  | nil => intro m; rfl
  | cons op ops ih =>
    intro m
    simp only [DataManager.run, poppedOf_append]
    rw [ih, step_lastValues, lastPoppedFrom_append]

/-- A sample with non-empty id and name and a quality of `good` or `uncertain`
passes validation when the cache has no entry for its id. -/
theorem validateSensorData_fresh (m : DataManager) (d : SensorData) (hd : ¬ invalidSample d)
    (hl : m.lastValues_.lookup d.id = none) : m.validateSensorData d = true := by
  have hid : d.id ≠ [] := fun h => hd (Or.inl h)
  have hname : d.name ≠ [] := fun h => hd (Or.inr (Or.inl h))
  have hq : ¬ (d.quality ≠ "good".toList ∧ d.quality ≠ "uncertain".toList) :=
    fun h => hd (Or.inr (Or.inr h))
  have hout : m.detectOutlier d = false := by
    unfold DataManager.detectOutlier
    rw [hl]
  unfold DataManager.validateSensorData
  by_cases hv : m.config_.getEnableValidation = true
  · have he : (d.id.isEmpty || d.name.isEmpty) = false := by
      cases hi : d.id with
      | nil => exact absurd hi hid
      | cons c cs =>
        cases hn : d.name with
        | nil => exact absurd hn hname
        | cons c2 cs2 => rfl
    have hq2 : (d.quality != "good".toList && d.quality != "uncertain".toList) = false := by
      rw [Bool.eq_false_iff]
      intro h
      rw [Bool.and_eq_true, bne_iff_ne, bne_iff_ne] at h
      exact hq h
    rw [if_neg (by rw [hv]; decide), if_neg (by rw [he]; exact Bool.false_ne_true),
      if_neg (by rw [hq2]; exact Bool.false_ne_true),
      if_neg (by rw [hout, Bool.and_false]; exact Bool.false_ne_true)]
  · rw [if_pos (by simpa using hv)]

/-- C12, the claim as stated, fails: two samples of one id with values 100 and 200
and threshold 10 are both enqueued before a worker runs; the second is checked
against an empty cache, is accepted, and both reach the batch. When a worker
pops the first before the second is enqueued, only the first reaches the batch. -/
theorem outlier_check_misses_queued_sample :
    hundredSample.id = twoHundredSample.id
    ∧ (((twoHundredSample.value.sub hundredSample.value).abs).div hundredSample.value.abs).gt
        (outlierConfig.getOutlierThreshold.div (.finite false 100 0)) = true
    ∧ ((DataManager.new outlierConfig ⟨0⟩).run
        [.start, .setWriter true, .enqueue hundredSample, .enqueue twoHundredSample,
          .worker idleEnv, .worker idleEnv]).1.currentBatch_
      = [hundredSample, twoHundredSample]
    ∧ ((DataManager.new outlierConfig ⟨0⟩).run
        [.start, .setWriter true, .enqueue hundredSample, .worker idleEnv,
          .enqueue twoHundredSample, .worker idleEnv]).1.currentBatch_
      = [hundredSample] := by
  decide

/-- When every worker iteration runs without another thread in between
(`DataManager.run`), the cache entry for an id
is the latest sample of that id that a worker has popped; so `detectOutlier`,
which runs when a sample is enqueued, compares the sample with the latest
popped sample of its id, and a sample whose change against that latest popped
sample exceeds the threshold is rejected by `addSensorData`, which pushes
nothing and leaves queue and batch as they were (validation and outlier
detection enabled); a valid sample whose id has not been popped yet is pushed
whatever the queue holds. -/
theorem outlier_check_against_popped (config : Config) (now : TimePoint)
    (ops : List PipelineOp) (s2 : SensorData) :
    (∀ id, ((DataManager.new config now).run ops).1.lastValues_.lookup id
        = lastPopped id (poppedOf ((DataManager.new config now).run ops).2))
    ∧ (((DataManager.new config now).run ops).1.detectOutlier s2 = true ↔
        ∃ s1, lastPopped s2.id (poppedOf ((DataManager.new config now).run ops).2) = some s1
          ∧ (((s2.value.sub s1.value).abs).div s1.value.abs).gt
              (config.getOutlierThreshold.div (.finite false 100 0)) = true)
    ∧ (∀ s1, lastPopped s2.id (poppedOf ((DataManager.new config now).run ops).2) = some s1 →
        (((s2.value.sub s1.value).abs).div s1.value.abs).gt
            (config.getOutlierThreshold.div (.finite false 100 0)) = true →
        ((DataManager.new config now).run ops).1.running_ = true →
        config.getEnableValidation = true → config.getOutlierDetection = true →
        (((DataManager.new config now).run ops).1.addSensorData s2).2 = []
        ∧ (((DataManager.new config now).run ops).1.addSensorData s2).1.dataQueue_
            = ((DataManager.new config now).run ops).1.dataQueue_
        ∧ (((DataManager.new config now).run ops).1.addSensorData s2).1.currentBatch_
            = ((DataManager.new config now).run ops).1.currentBatch_)
    ∧ (lastPopped s2.id (poppedOf ((DataManager.new config now).run ops).2) = none →
        ¬ invalidSample s2 → ((DataManager.new config now).run ops).1.running_ = true →
        (((DataManager.new config now).run ops).1.addSensorData s2).2
          = [PipelineEvent.pushed s2]) := by
  have hcache : ∀ id, ((DataManager.new config now).run ops).1.lastValues_.lookup id
      = lastPopped id (poppedOf ((DataManager.new config now).run ops).2) := by
    intro id
    rw [run_lastValues]
    rfl
  have hcfg : ((DataManager.new config now).run ops).1.config_ = config :=
    (run_queue ops (DataManager.new config now)).2
  have hdet : ((DataManager.new config now).run ops).1.detectOutlier s2 = true ↔
      ∃ s1, lastPopped s2.id (poppedOf ((DataManager.new config now).run ops).2) = some s1
        ∧ (((s2.value.sub s1.value).abs).div s1.value.abs).gt
            (config.getOutlierThreshold.div (.finite false 100 0)) = true := by
    unfold DataManager.detectOutlier
    rw [hcache, hcfg]
    cases h : lastPopped s2.id (poppedOf ((DataManager.new config now).run ops).2) with
    | none => simp
    | some last => simp
  refine ⟨hcache, hdet, ?_, ?_⟩
  · intro s1 hl hgt hrun hval hout
    have hd : ((DataManager.new config now).run ops).1.detectOutlier s2 = true :=
      hdet.2 ⟨s1, hl, hgt⟩
    have hv : ((DataManager.new config now).run ops).1.validateSensorData s2 = false := by
      unfold DataManager.validateSensorData
      rw [hcfg, hval, hout, hd]
      by_cases he : (s2.id.isEmpty || s2.name.isEmpty) = true
      · simp [he]
      · by_cases hq : (s2.quality != "good".toList && s2.quality != "uncertain".toList) = true
        · simp [he, hq]
        · simp [he, hq]
    unfold DataManager.addSensorData
    rw [if_neg (by rw [hrun]; decide), if_pos (by rw [hv]; rfl)]
    exact ⟨rfl, rfl, rfl⟩
  · intro hl hvalid hrun
    have hv := validateSensorData_fresh ((DataManager.new config now).run ops).1 s2 hvalid
      (by rw [hcache]; exact hl)
    unfold DataManager.addSensorData
    rw [if_neg (by rw [hrun]; decide), if_neg (by rw [hv]; decide)]


theorem cacheUpdatesOf_append (a b : List PoolEvent) :
    cacheUpdatesOf (a ++ b) = cacheUpdatesOf a ++ cacheUpdatesOf b := by
  simp [cacheUpdatesOf, List.filterMap_append]

theorem pipelineOf_append (a b : List PoolEvent) :
    pipelineOf (a ++ b) = pipelineOf a ++ pipelineOf b := by
  simp [pipelineOf, List.filterMap_append]

theorem cacheUpdatesOf_pipeline (l : List PipelineEvent) :
    cacheUpdatesOf (l.map PoolEvent.pipeline) = [] := by
  induction l with
  | nil => rfl
  | cons e rest ih => simp [cacheUpdatesOf]

theorem pipelineOf_pipeline (l : List PipelineEvent) :
    pipelineOf (l.map PoolEvent.pipeline) = l := by
  induction l with
  | nil => rfl
  | cons e rest ih =>
    simp only [List.map_cons, pipelineOf, List.filterMap_cons]
    exact congrArg (List.cons e) ih

/-- A call of `addSensorData(data)` is its validation followed by its push. -/
theorem addSensorData_check_push (m : DataManager) (data : SensorData) :
    m.addSensorData data
      = if (m.addSensorDataCheck data).1 then (m.addSensorDataCheck data).2.addSensorDataPush data
        else ((m.addSensorDataCheck data).2, []) := by
  unfold DataManager.addSensorData DataManager.addSensorDataCheck DataManager.addSensorDataPush
  by_cases hr : m.running_ = true
  · by_cases hv : m.validateSensorData data = true
    · simp [hr, hv]
    · simp [hr, hv]
  · simp [hr]

theorem addSensorDataCheck_frame (m : DataManager) (data : SensorData) :
    (m.addSensorDataCheck data).2.lastValues_ = m.lastValues_
      ∧ (m.addSensorDataCheck data).2.config_ = m.config_
      ∧ (m.addSensorDataCheck data).2.dataQueue_ = m.dataQueue_
      ∧ (m.addSensorDataCheck data).2.currentBatch_ = m.currentBatch_
      ∧ (m.addSensorDataCheck data).2.running_ = m.running_ := by
  unfold DataManager.addSensorDataCheck
  split_ifs <;> exact ⟨rfl, rfl, rfl, rfl, rfl⟩

theorem addSensorDataLoop_single_frame (m : DataManager) (data : SensorData) :
    (m.addSensorDataLoop [] [data]).1.lastValues_ = m.lastValues_
      ∧ (m.addSensorDataLoop [] [data]).1.config_ = m.config_
      ∧ poppedOf (m.addSensorDataLoop [] [data]).2 = [] := by
  simp only [DataManager.addSensorDataLoop]
  split_ifs <;> exact ⟨rfl, rfl, rfl⟩

theorem initializeManager_frame (m : DataManager) :
    m.initializeManager.2.lastValues_ = m.lastValues_
      ∧ m.initializeManager.2.config_ = m.config_ := by
  unfold DataManager.initializeManager
  by_cases hr : m.running_ = true
  · simp [hr]
  · by_cases ht : m.config_.getWorkerThreads < 0 <;> simp [hr, ht]

theorem flushBatch_config (m : DataManager) (env : StepEnv) :
    (m.flushBatch env).1.config_ = m.config_ ∧ poppedOf (m.flushBatch env).2 = [] := by
  unfold DataManager.flushBatch
  by_cases h : (m.currentBatch_.isEmpty || !m.dataWriter_) = true
  · simp [h, poppedOf]
  · simp only [h, Bool.false_eq_true, if_false]
    cases env.sink with
    | returned success => cases success <;> simp [DataManager.updateMetrics, poppedOf]
    | threw => simp [poppedOf]

theorem addToBatch_config (m : DataManager) (data : SensorData) (env : StepEnv) :
    (m.addToBatch data env).1.config_ = m.config_
      ∧ poppedOf (m.addToBatch data env).2 = [] := by
  unfold DataManager.addToBatch
  simp only []
  split
  · exact flushBatch_config _ env
  · exact ⟨rfl, rfl⟩

/-- One action changes the cache entry of an id exactly by the samples of that
id it passes to `updateLastValue`, and keeps the configuration. -/
theorem pool_step_lastValues (p : WorkerPool) (op : WorkerOp) (k : Str) :
    (p.step op).1.manager.lastValues_.lookup k
        = lastPoppedFrom (p.manager.lastValues_.lookup k) k (cacheUpdatesOf (p.step op).2)
      ∧ (p.step op).1.manager.config_ = p.manager.config_ := by
  have hsame : ∀ r : WorkerPool × List PoolEvent,
      r.1.manager.lastValues_ = p.manager.lastValues_ → cacheUpdatesOf r.2 = [] →
      r.1.manager.lastValues_.lookup k
        = lastPoppedFrom (p.manager.lastValues_.lookup k) k (cacheUpdatesOf r.2) := by
    intro r h1 h2
    rw [h1, h2]
    rfl
  cases op with
  | start =>
    exact ⟨hsame _ (initializeManager_frame p.manager).1 rfl, (initializeManager_frame p.manager).2⟩
  | setWriter writer => exact ⟨rfl, rfl⟩
  | validate data =>
    simp only [WorkerPool.step]
    split_ifs
    · exact ⟨hsame _ (addSensorDataCheck_frame p.manager data).1 rfl,
        (addSensorDataCheck_frame p.manager data).2.1⟩
    · exact ⟨hsame _ (addSensorDataCheck_frame p.manager data).1 rfl,
        (addSensorDataCheck_frame p.manager data).2.1⟩
  | push i =>
    simp only [WorkerPool.step]
    split
    · exact ⟨hsame _ rfl (cacheUpdatesOf_pipeline _), rfl⟩
    · exact ⟨rfl, rfl⟩
  | beginMany dataList =>
    simp only [WorkerPool.step]
    split_ifs
    · exact ⟨rfl, rfl⟩
    · split <;> exact ⟨rfl, rfl⟩
  | stepMany =>
    simp only [WorkerPool.step]
    split
    · rename_i data rest _
      exact ⟨hsame _ (addSensorDataLoop_single_frame p.manager data).1 (cacheUpdatesOf_pipeline _),
        (addSensorDataLoop_single_frame p.manager data).2.1⟩
    · exact ⟨rfl, rfl⟩
  | pop =>
    simp only [WorkerPool.step]
    split_ifs
    · exact ⟨rfl, rfl⟩
    · split <;> exact ⟨rfl, rfl⟩
  | update i =>
    simp only [WorkerPool.step]
    split
    · rename_i data _
      refine ⟨?_, rfl⟩
      simp only [cacheUpdatesOf, List.filterMap_cons, List.filterMap_nil, lastPoppedFrom,
        List.foldl_cons, List.foldl_nil]
      exact lookup_updateLastValue p.manager data k
    · exact ⟨rfl, rfl⟩
  | append i env =>
    simp only [WorkerPool.step]
    split
    · rename_i data _
      exact ⟨hsame _ (addToBatch_frame p.manager data env).2.2 (cacheUpdatesOf_pipeline _),
        (addToBatch_config p.manager data env).1⟩
    · exact ⟨rfl, rfl⟩
  | timeout env =>
    simp only [WorkerPool.step]
    split_ifs
    · exact ⟨rfl, rfl⟩
    · exact ⟨hsame _ (flushBatch_frame p.manager env).2.2 (cacheUpdatesOf_pipeline _),
        (flushBatch_config p.manager env).1⟩
    · exact ⟨rfl, rfl⟩

/-- After a run the cache entry of an id is the latest sample of that id passed
to `updateLastValue` during the run, or the entry before the run. -/
theorem pool_run_lastValues (ops : List WorkerOp) (k : Str) :
    ∀ p : WorkerPool,
      (p.run ops).1.manager.lastValues_.lookup k
          = lastPoppedFrom (p.manager.lastValues_.lookup k) k (cacheUpdatesOf (p.run ops).2)
        ∧ (p.run ops).1.manager.config_ = p.manager.config_ := by
  induction ops with
  | nil => intro p; exact ⟨rfl, rfl⟩
  | cons op ops ih =>
    intro p
    simp only [WorkerPool.run, cacheUpdatesOf_append]
    rw [(ih _).1, (pool_step_lastValues p op k).1, lastPoppedFrom_append, (ih _).2,
      (pool_step_lastValues p op k).2]
    exact ⟨rfl, rfl⟩

theorem mem_of_getElem?_eq_some {α : Type} (l : List α) (i : Nat) (a : α)
    (h : l[i]? = some a) : a ∈ l := by
  obtain ⟨hi, rfl⟩ := List.getElem?_eq_some.1 h
  exact List.getElem_mem _

theorem mem_eraseIdx {α : Type} (l : List α) (i : Nat) (a : α) (h : a ∈ l.eraseIdx i) :
    a ∈ l := by
  induction l generalizing i with
  | nil => simp at h
  | cons b t ih =>
    cases i with
    | zero =>
      simp only [List.eraseIdx_cons_zero] at h
      exact List.mem_cons_of_mem _ h
    | succ n =>
      simp only [List.eraseIdx_cons_succ, List.mem_cons] at h
      rcases h with h | h
      · exact h ▸ List.mem_cons_self _ _
      · exact List.mem_cons_of_mem _ (ih n h)

/-- One action passes to `updateLastValue` only a sample that a worker holds
after a pop, and a worker holds after the action only a sample held before or
popped by the action. -/
theorem pool_step_held (p : WorkerPool) (op : WorkerOp) :
    (∀ d ∈ cacheUpdatesOf (p.step op).2, d ∈ p.popped)
      ∧ (∀ d ∈ (p.step op).1.popped,
          d ∈ p.popped ∨ d ∈ poppedOf (pipelineOf (p.step op).2)) := by
  have hsame : ∀ r : WorkerPool × List PoolEvent,
      r.1.popped = p.popped → cacheUpdatesOf r.2 = [] →
      (∀ d ∈ cacheUpdatesOf r.2, d ∈ p.popped)
        ∧ (∀ d ∈ r.1.popped, d ∈ p.popped ∨ d ∈ poppedOf (pipelineOf r.2)) := by
    intro r h1 h2
    rw [h1, h2]
    exact ⟨fun d hd => absurd hd (List.not_mem_nil d), fun d hd => Or.inl hd⟩
  cases op with
  | start => exact hsame _ rfl rfl
  | setWriter writer => exact hsame _ rfl rfl
  | validate data =>
    simp only [WorkerPool.step]
    split_ifs <;> exact hsame _ rfl rfl
  | push i =>
    simp only [WorkerPool.step]
    split
    · exact hsame _ rfl (cacheUpdatesOf_pipeline _)
    · exact hsame _ rfl rfl
  | beginMany dataList =>
    simp only [WorkerPool.step]
    split_ifs
    · exact hsame _ rfl rfl
    · split <;> exact hsame _ rfl rfl
  | stepMany =>
    simp only [WorkerPool.step]
    split
    · exact hsame _ rfl (cacheUpdatesOf_pipeline _)
    · exact hsame _ rfl rfl
  | pop =>
    simp only [WorkerPool.step]
    split_ifs
    · exact hsame _ rfl rfl
    · split
      · rename_i data rest _
        refine ⟨fun d hd => absurd hd (List.not_mem_nil d), ?_⟩
        intro d hd
        simp only [List.mem_append, List.mem_singleton] at hd
        rcases hd with hd | hd
        · exact Or.inl hd
        · refine Or.inr ?_
          rw [hd]
          simp [pipelineOf, poppedOf]
      · exact hsame _ rfl rfl
  | update i =>
    simp only [WorkerPool.step]
    split
    · rename_i data hdata
      refine ⟨?_, fun d hd => Or.inl (mem_eraseIdx _ _ _ hd)⟩
      intro d hd
      simp only [cacheUpdatesOf, List.filterMap_cons, List.filterMap_nil,
        List.mem_singleton] at hd
      rw [hd]
      exact mem_of_getElem?_eq_some _ _ _ hdata
    · exact hsame _ rfl rfl
  | append i env =>
    simp only [WorkerPool.step]
    split
    · exact hsame _ rfl (cacheUpdatesOf_pipeline _)
    · exact hsame _ rfl rfl
  | timeout env =>
    simp only [WorkerPool.step]
    split_ifs
    · exact hsame _ rfl rfl
    · exact hsame _ rfl (cacheUpdatesOf_pipeline _)
    · exact hsame _ rfl rfl

/-- In a run every sample passed to `updateLastValue`, and every sample a worker
holds at the end, was held by a worker at the start or popped from the queue
during the run. -/
theorem pool_run_held (ops : List WorkerOp) :
    ∀ p : WorkerPool,
      (∀ d ∈ cacheUpdatesOf (p.run ops).2,
          d ∈ p.popped ∨ d ∈ poppedOf (pipelineOf (p.run ops).2))
        ∧ (∀ d ∈ (p.run ops).1.popped,
          d ∈ p.popped ∨ d ∈ poppedOf (pipelineOf (p.run ops).2)) := by
  induction ops with
  | nil =>
    intro p
    exact ⟨fun d hd => absurd hd (List.not_mem_nil d), fun d hd => Or.inl hd⟩
  | cons op ops ih =>
    intro p
    have h1 := pool_step_held p op
    have h2 := ih (p.step op).1
    have hlift : ∀ d, (d ∈ (p.step op).1.popped
          ∨ d ∈ poppedOf (pipelineOf (WorkerPool.run (p.step op).1 ops).2)) →
        d ∈ p.popped ∨ d ∈ poppedOf (pipelineOf (p.step op).2)
          ++ poppedOf (pipelineOf (WorkerPool.run (p.step op).1 ops).2) := by
      intro d hd
      rcases hd with hd | hd
      · rcases h1.2 d hd with h | h
        · exact Or.inl h
        · exact Or.inr (List.mem_append_left _ h)
      · exact Or.inr (List.mem_append_right _ hd)
    simp only [WorkerPool.run, cacheUpdatesOf_append, pipelineOf_append, poppedOf_append]
    refine ⟨?_, fun d hd => hlift d (h2.2 d hd)⟩
    intro d hd
    rcases List.mem_append.1 hd with hd | hd
    · exact Or.inl (h1.1 d hd)
    · exact hlift d (h2.1 d hd)

/-- A call of `addSensorData(data)` that no other thread interrupts is the
validation followed by the push of the sample, if it was validated. -/
theorem addSensorData_as_pool_steps (p : WorkerPool) (data : SensorData)
    (hv : p.validated = []) (hl : p.listCall = none) :
    (p.run [.validate data, .push 0]).1 = { p with manager := (p.manager.addSensorData data).1 }
      ∧ pipelineOf (p.run [.validate data, .push 0]).2 = (p.manager.addSensorData data).2 := by
  obtain ⟨m, validated, listCall, popped, cached⟩ := p
  simp only at hv hl
  subst hv hl
  rw [addSensorData_check_push]
  simp only [WorkerPool.run, WorkerPool.step]
  cases hc : (m.addSensorDataCheck data).1
  · simp [pipelineOf]
  · simp [pipelineOf, DataManager.addSensorDataPush]

/-- A worker iteration that no other thread interrupts is the pop followed by
the cache update and the append of the popped sample. -/
theorem workerIteration_as_pool_steps (p : WorkerPool) (env : StepEnv)
    (data : SensorData) (rest : List SensorData)
    (hr : p.manager.running_ = true) (hq : p.manager.dataQueue_ = data :: rest)
    (hl : p.listCall = none) (hw : 0 < p.manager.workerThreads_)
    (hp : p.popped = []) (hc : p.cached = []) :
    (p.run [.pop, .update 0, .append 0 env]).1
        = { p with manager := (p.manager.workerIteration env).1 }
      ∧ pipelineOf (p.run [.pop, .update 0, .append 0 env]).2
        = (p.manager.workerIteration env).2 := by
  obtain ⟨m, validated, listCall, popped, cached⟩ := p
  simp only at hr hq hl hw hp hc
  subst hl hp hc
  have hww : ¬ (m.workerThreads_ = 0) := by omega
  simp only [WorkerPool.run, WorkerPool.step, WorkerPool.waitingWorkers, hr, hq,
    DataManager.workerIteration]
  have hcons : ∀ (e : PipelineEvent) (l : List PoolEvent),
      pipelineOf (PoolEvent.pipeline e :: l) = e :: pipelineOf l := fun _ _ => rfl
  have hcache : ∀ (d : SensorData) (l : List PoolEvent),
      pipelineOf (PoolEvent.cacheUpdate d :: l) = pipelineOf l := fun _ _ => rfl
  simp [hww, hcons, hcache, pipelineOf_pipeline, pipelineOf_append]

theorem pool_validate_rejected (p : WorkerPool) (d : SensorData)
    (hr : p.manager.running_ = true) (hv : p.manager.validateSensorData d = false) :
    p.step (.validate d)
      = ({ p with
            manager :=
              { p.manager with
                metrics_ :=
                  { p.manager.metrics_ with
                    failedWrites := p.manager.metrics_.failedWrites + 1 } } }, []) := by
  simp only [WorkerPool.step, DataManager.addSensorDataCheck, hr, hv]
  rfl

theorem pool_validate_accepted (p : WorkerPool) (d : SensorData)
    (hr : p.manager.running_ = true) (hv : p.manager.validateSensorData d = true) :
    (p.step (.validate d)).1.validated = p.validated ++ [d] := by
  simp only [WorkerPool.step, DataManager.addSensorDataCheck, hr, hv]
  rfl

/-- C12, amended: the outlier check runs when a sample is offered to
`addSensorData`, against the last-value cache, and the cache is written by the
workers after the pop. For every sequence of actions of producers and of any
number of workers on a new data manager, each action being what one thread does
under one mutex: the cache entry of an id is the sample of that id passed to
`updateLastValue` last, and every sample passed to `updateLastValue` was popped
from the queue before; `detectOutlier` is true of a sample exactly when the
cache has an entry for its id and the change against that entry exceeds the
threshold; with validation and outlier detection enabled such a sample fails the
validation of `addSensorData`, which then counts a failure and does nothing
else, so the sample reaches neither the queue nor the batch; and a valid sample
whose id has no cache entry passes the validation whatever the queue holds or
the workers have popped. With two workers the cache entry need not be the
sample popped last: the values 100 and 200 of one id are popped in this order
and cached in the other, and the entry is the sample with 100. -/
theorem outlier_check_against_cache :
    (∀ (config : Config) (now : TimePoint) (ops : List WorkerOp) (s2 : SensorData),
      (∀ id, ((WorkerPool.new config now).run ops).1.manager.lastValues_.lookup id
          = lastPopped id (cacheUpdatesOf ((WorkerPool.new config now).run ops).2))
      ∧ (∀ d ∈ cacheUpdatesOf ((WorkerPool.new config now).run ops).2,
          d ∈ poppedOf (pipelineOf ((WorkerPool.new config now).run ops).2))
      ∧ (((WorkerPool.new config now).run ops).1.manager.detectOutlier s2 = true ↔
          ∃ s1, lastPopped s2.id (cacheUpdatesOf ((WorkerPool.new config now).run ops).2) = some s1
            ∧ (((s2.value.sub s1.value).abs).div s1.value.abs).gt
                (config.getOutlierThreshold.div (.finite false 100 0)) = true)
      ∧ (∀ s1, lastPopped s2.id (cacheUpdatesOf ((WorkerPool.new config now).run ops).2) = some s1 →
          (((s2.value.sub s1.value).abs).div s1.value.abs).gt
              (config.getOutlierThreshold.div (.finite false 100 0)) = true →
          ((WorkerPool.new config now).run ops).1.manager.running_ = true →
          config.getEnableValidation = true → config.getOutlierDetection = true →
          ((WorkerPool.new config now).run ops).1.step (.validate s2)
              = ({ ((WorkerPool.new config now).run ops).1 with
                    manager :=
                      { ((WorkerPool.new config now).run ops).1.manager with
                        metrics_ :=
                          { ((WorkerPool.new config now).run ops).1.manager.metrics_ with
                            failedWrites :=
                              ((WorkerPool.new config now).run ops).1.manager.metrics_.failedWrites
                                + 1 } } }, [])
            ∧ (((WorkerPool.new config now).run ops).1.manager.addSensorData s2).2 = [])
      ∧ (lastPopped s2.id (cacheUpdatesOf ((WorkerPool.new config now).run ops).2) = none →
          ¬ invalidSample s2 → ((WorkerPool.new config now).run ops).1.manager.running_ = true →
          (((WorkerPool.new config now).run ops).1.step (.validate s2)).1.validated
              = ((WorkerPool.new config now).run ops).1.validated ++ [s2]
            ∧ (((WorkerPool.new config now).run ops).1.manager.addSensorData s2).2
              = [PipelineEvent.pushed s2]))
    ∧ (WorkerPool.new outlierConfig ⟨0⟩).manager.config_.getWorkerThreads = 4
    ∧ hundredSample.id = twoHundredSample.id
    ∧ poppedOf (pipelineOf ((WorkerPool.new outlierConfig ⟨0⟩).run
        [.start, .validate hundredSample, .push 0, .validate twoHundredSample, .push 0,
          .pop, .pop, .update 1, .update 0]).2) = [hundredSample, twoHundredSample]
    ∧ cacheUpdatesOf ((WorkerPool.new outlierConfig ⟨0⟩).run
        [.start, .validate hundredSample, .push 0, .validate twoHundredSample, .push 0,
          .pop, .pop, .update 1, .update 0]).2 = [twoHundredSample, hundredSample]
    ∧ ((WorkerPool.new outlierConfig ⟨0⟩).run
        [.start, .validate hundredSample, .push 0, .validate twoHundredSample, .push 0,
          .pop, .pop, .update 1, .update 0]).1.manager.lastValues_.lookup hundredSample.id
        = some hundredSample := by
  refine ⟨?_, by decide, by decide, by decide, by decide, by decide⟩
  intro config now ops s2
  have hcache : ∀ id, ((WorkerPool.new config now).run ops).1.manager.lastValues_.lookup id
      = lastPopped id (cacheUpdatesOf ((WorkerPool.new config now).run ops).2) := by
    intro id
    rw [(pool_run_lastValues ops id (WorkerPool.new config now)).1]
    rfl
  have hcfg : ((WorkerPool.new config now).run ops).1.manager.config_ = config :=
    (pool_run_lastValues ops [] (WorkerPool.new config now)).2
  have hdet : ((WorkerPool.new config now).run ops).1.manager.detectOutlier s2 = true ↔
      ∃ s1, lastPopped s2.id (cacheUpdatesOf ((WorkerPool.new config now).run ops).2) = some s1
        ∧ (((s2.value.sub s1.value).abs).div s1.value.abs).gt
            (config.getOutlierThreshold.div (.finite false 100 0)) = true := by
    unfold DataManager.detectOutlier
    rw [hcache, hcfg]
    cases h : lastPopped s2.id (cacheUpdatesOf ((WorkerPool.new config now).run ops).2) with
    | none => simp
    | some last => simp
  refine ⟨hcache, ?_, hdet, ?_, ?_⟩
  · intro d hd
    rcases (pool_run_held ops (WorkerPool.new config now)).1 d hd with h | h
    · exact absurd h (List.not_mem_nil d)
    · exact h
  · intro s1 hl hgt hrun hval hout
    have hd : ((WorkerPool.new config now).run ops).1.manager.detectOutlier s2 = true :=
      hdet.2 ⟨s1, hl, hgt⟩
    have hv : ((WorkerPool.new config now).run ops).1.manager.validateSensorData s2 = false := by
      unfold DataManager.validateSensorData
      rw [hcfg, hval, hout, hd]
      by_cases he : (s2.id.isEmpty || s2.name.isEmpty) = true
      · simp [he]
      · by_cases hq : (s2.quality != "good".toList && s2.quality != "uncertain".toList) = true
        · simp [he, hq]
        · simp [he, hq]
    refine ⟨pool_validate_rejected _ s2 hrun hv, ?_⟩
    unfold DataManager.addSensorData
    rw [if_neg (by rw [hrun]; decide), if_pos (by rw [hv]; rfl)]
  · intro hl hvalid hrun
    have hv := validateSensorData_fresh ((WorkerPool.new config now).run ops).1.manager s2 hvalid
      (by rw [hcache]; exact hl)
    refine ⟨pool_validate_accepted _ s2 hrun hv, ?_⟩
    unfold DataManager.addSensorData
    rw [if_neg (by rw [hrun]; decide), if_neg (by rw [hv]; decide)]


/-! ### Flushing -/

/-- A flush of a non-empty batch with a writer set reaches the writer once with
the whole batch, empties the batch and stamps the flush time. -/
theorem flushBatch_nonempty (m : DataManager) (env : StepEnv)
    (hb : m.currentBatch_ ≠ []) (hw : m.dataWriter_ = true) :
    (m.flushBatch env).2 = [PipelineEvent.sinkCall m.currentBatch_]
      ∧ (m.flushBatch env).1.currentBatch_ = []
      ∧ (m.flushBatch env).1.lastFlush_ = env.nowFlush := by
  have hc : (m.currentBatch_.isEmpty || !m.dataWriter_) = false := by
    cases hq : m.currentBatch_ with
    | nil => exact absurd hq hb
    | cons d rest => simp [hw]
  unfold DataManager.flushBatch
  rw [if_neg (by simp [hc])]
  exact ⟨rfl, rfl, rfl⟩

/-- Whole milliseconds of a nanosecond difference reach a positive bound exactly
when the difference reaches that many millions of nanoseconds. -/
theorem tdiv_million_ge_iff (x k : Int) (hk : 0 < k) :
    k ≤ Int.tdiv x 1000000 ↔ k * 1000000 ≤ x := by
  by_cases hx : 0 ≤ x
  · rw [Int.tdiv_eq_ediv hx (by omega)]
    omega
  · have hneg : Int.tdiv x 1000000 = - Int.tdiv (-x) 1000000 := by
      rw [Int.neg_tdiv]
      simp
    rw [hneg, Int.tdiv_eq_ediv (by omega) (by omega)]
    omega

/-- The cast of a positive `int` to `size_t` keeps its value. -/
theorem toSizeT_of_int (x : Int) (h0 : 0 < x) (h1 : x < 2 ^ 31) (n : Nat) :
    toSizeT x ≤ n ↔ x ≤ (n : Int) := by
  unfold toSizeT
  have h : x % 2 ^ 64 = x := Int.emod_eq_of_lt (by omega) (by omega)
  rw [h]
  omega

/-- The flush check in terms of the configured batch size and flush interval. -/
theorem shouldFlush_eq (m : DataManager) (now : TimePoint)
    (hb : 0 < m.config_.getBatchSize) (hb2 : m.config_.getBatchSize < 2 ^ 31) :
    (m.shouldFlush now = true ↔
        m.config_.getBatchSize ≤ (m.currentBatch_.length : Int)
          ∨ m.config_.getFlushInterval
              ≤ Int.tdiv (now.sinceEpochNs - m.lastFlush_.sinceEpochNs) 1000000) := by
  unfold DataManager.shouldFlush
  by_cases h : toSizeT m.config_.getBatchSize ≤ m.currentBatch_.length
  · simp only [h, if_true, true_iff]
    exact Or.inl ((toSizeT_of_int _ hb hb2 _).1 h)
  · simp only [h, if_false, decide_eq_true_eq]
    constructor
    · exact fun h2 => Or.inr h2
    · rintro (h2 | h2)
      · exact absurd ((toSizeT_of_int _ hb hb2 _).2 h2) h
      · exact h2

/-- C13: with a batch size in the range the configuration loader accepts,
`shouldFlush` holds exactly when the batch has reached the batch size or the
whole milliseconds since the last flush have reached the flush interval; it is
evaluated after every append to the batch and on every worker wake-up that
finds the queue empty; with batch size 100 the append of the 100th sample calls
`flushBatch` whatever the clock reads, which with a writer set hands the 100
samples to the writer and empties the batch; with flush interval 500 and one
buffered sample the wake-up calls `flushBatch` when 500 ms have passed since
the last flush and does nothing before. -/
theorem shouldFlush_iff (m : DataManager) (now : TimePoint)
    (hb : 0 < m.config_.getBatchSize) (hb2 : m.config_.getBatchSize < 2 ^ 31) :
    (m.shouldFlush now = true ↔
        m.config_.getBatchSize ≤ (m.currentBatch_.length : Int)
          ∨ m.config_.getFlushInterval
              ≤ Int.tdiv (now.sinceEpochNs - m.lastFlush_.sinceEpochNs) 1000000)
    ∧ (∀ (data : SensorData) (env : StepEnv),
        m.addToBatch data env
          = if DataManager.shouldFlush { m with currentBatch_ := m.currentBatch_ ++ [data] }
                env.nowCheck = true
            then DataManager.flushBatch { m with currentBatch_ := m.currentBatch_ ++ [data] } env
            else ({ m with currentBatch_ := m.currentBatch_ ++ [data] }, []))
    ∧ (∀ env : StepEnv, m.running_ = true → m.dataQueue_ = [] →
        m.workerIteration env
          = if m.shouldFlush env.nowCheck = true then m.flushBatch env else (m, []))
    ∧ (m.config_.getBatchSize = 100 → m.currentBatch_.length = 99 →
        ∀ (data : SensorData) (env : StepEnv),
          m.addToBatch data env
            = DataManager.flushBatch { m with currentBatch_ := m.currentBatch_ ++ [data] } env
          ∧ (m.dataWriter_ = true →
              (m.addToBatch data env).2 = [PipelineEvent.sinkCall (m.currentBatch_ ++ [data])]
              ∧ (m.addToBatch data env).1.currentBatch_ = []
              ∧ (m.addToBatch data env).1.lastFlush_ = env.nowFlush))
    ∧ (m.config_.getFlushInterval = 500 → 1 < m.config_.getBatchSize →
        m.currentBatch_.length = 1 → m.running_ = true → m.dataQueue_ = [] →
        ∀ env : StepEnv,
          (500000000 ≤ env.nowCheck.sinceEpochNs - m.lastFlush_.sinceEpochNs →
              m.workerIteration env = m.flushBatch env
              ∧ (m.dataWriter_ = true →
                  (m.workerIteration env).2 = [PipelineEvent.sinkCall m.currentBatch_]
                  ∧ (m.workerIteration env).1.currentBatch_ = []))
          ∧ (env.nowCheck.sinceEpochNs - m.lastFlush_.sinceEpochNs < 500000000 →
              m.workerIteration env = (m, []))) := by
  have hworker : ∀ env : StepEnv, m.running_ = true → m.dataQueue_ = [] →
      m.workerIteration env
        = if m.shouldFlush env.nowCheck = true then m.flushBatch env else (m, []) := by
    intro env hr hq
    unfold DataManager.workerIteration
    rw [if_neg (by simp [hr])]
    rw [hq]
  refine ⟨shouldFlush_eq m now hb hb2, fun data env => rfl, hworker, ?_, ?_⟩
  · intro h100 h99 data env
    have hflush : DataManager.shouldFlush { m with currentBatch_ := m.currentBatch_ ++ [data] }
        env.nowCheck = true := by
      apply (shouldFlush_eq { m with currentBatch_ := m.currentBatch_ ++ [data] }
        env.nowCheck hb hb2).2
      left
      show m.config_.getBatchSize ≤ ((m.currentBatch_ ++ [data]).length : Int)
      rw [h100, List.length_append, h99, List.length_singleton]
      decide
    have hne : m.currentBatch_ ++ [data] ≠ [] := by simp
    have hadd : m.addToBatch data env
        = DataManager.flushBatch { m with currentBatch_ := m.currentBatch_ ++ [data] } env := by
      show (if DataManager.shouldFlush { m with currentBatch_ := m.currentBatch_ ++ [data] }
                env.nowCheck = true
            then DataManager.flushBatch { m with currentBatch_ := m.currentBatch_ ++ [data] } env
            else ({ m with currentBatch_ := m.currentBatch_ ++ [data] }, [])) = _
      rw [if_pos hflush]
    refine ⟨hadd, fun hw => ?_⟩
    rw [hadd]
    exact flushBatch_nonempty { m with currentBatch_ := m.currentBatch_ ++ [data] } env hne hw
  · intro h500 hbs hlen hr hq env
    have hsf : m.shouldFlush env.nowCheck = true
        ↔ 500000000 ≤ env.nowCheck.sinceEpochNs - m.lastFlush_.sinceEpochNs := by
      rw [shouldFlush_eq m _ hb hb2, h500, hlen, tdiv_million_ge_iff _ _ (by decide)]
      constructor
      · rintro (h | h)
        · exact absurd h (by push_cast; omega)
        · omega
      · intro h
        right
        omega
    have hne : m.currentBatch_ ≠ [] := by
      intro h
      rw [h] at hlen
      exact absurd hlen (by decide)
    constructor
    · intro hel
      rw [hworker env hr hq, if_pos (hsf.2 hel)]
      refine ⟨rfl, fun hw => ?_⟩
      have heff := flushBatch_nonempty m env hne hw
      exact ⟨heff.1, heff.2.1⟩
    · intro hel
      rw [hworker env hr hq, if_neg (fun h => absurd (hsf.1 h) (by omega))]

/-- C13 at a running data manager with the example configuration, a writer and
one buffered sample. -/
theorem shouldFlush_iff_witness :
    (0 < flushExampleManager.config_.getBatchSize
      ∧ flushExampleManager.config_.getBatchSize < 2 ^ 31)
    ∧ ((flushExampleManager.shouldFlush ⟨6000000000⟩ = true ↔
        flushExampleManager.config_.getBatchSize
            ≤ (flushExampleManager.currentBatch_.length : Int)
          ∨ flushExampleManager.config_.getFlushInterval
              ≤ Int.tdiv ((⟨6000000000⟩ : TimePoint).sinceEpochNs
                  - flushExampleManager.lastFlush_.sinceEpochNs) 1000000)
      ∧ flushExampleManager.shouldFlush ⟨6000000000⟩ = true
      ∧ flushExampleManager.shouldFlush ⟨600000000⟩ = false) :=
  ⟨⟨by decide, by decide⟩,
    (shouldFlush_iff flushExampleManager ⟨6000000000⟩ (by decide) (by decide)).1,
    by decide, by decide⟩

/-- C14, the claim as stated, fails: invoked on a data manager that buffers one
sample and has no writer set, `flushBatch` calls no sink and leaves the batch
and the last-flush time as they were; invoked with an empty batch and a writer
set it does not reset the last-flush time either. -/
theorem flushBatch_guard_keeps_batch :
    ({ runningManager with currentBatch_ := [pressureSample] }.flushBatch
        ⟨⟨7000000000⟩, ⟨7000000000⟩, ⟨7000000000⟩, .returned true⟩)
      = ({ runningManager with currentBatch_ := [pressureSample] }, [])
    ∧ runningManager.lastFlush_ = ⟨0⟩
    ∧ ((runningManager.setDataWriter true).flushBatch
        ⟨⟨7000000000⟩, ⟨7000000000⟩, ⟨7000000000⟩, .returned true⟩)
      = (runningManager.setDataWriter true, []) := by
  decide

/-- C14, amended: invoked with a non-empty batch and a writer set, `flushBatch`
hands the whole batch to the writer in one call and returns with an empty batch
and the last-flush time set to the current time, whether the writer returned
`true`, returned `false` or threw; invoked with an empty batch or without a
writer it calls nothing and changes nothing. -/
theorem flushBatch_effect (m : DataManager) (env : StepEnv) :
    ((m.currentBatch_ ≠ [] ∧ m.dataWriter_ = true) →
        (m.flushBatch env).2 = [PipelineEvent.sinkCall m.currentBatch_]
        ∧ (m.flushBatch env).1.currentBatch_ = []
        ∧ (m.flushBatch env).1.lastFlush_ = env.nowFlush)
      ∧ (¬ (m.currentBatch_ ≠ [] ∧ m.dataWriter_ = true) → m.flushBatch env = (m, [])) := by
  unfold DataManager.flushBatch
  constructor
  · rintro ⟨hb, hw⟩
    have hc : (m.currentBatch_.isEmpty || !m.dataWriter_) = false := by
      cases hq : m.currentBatch_ with
      | nil => exact absurd hq hb
      | cons d rest => simp [hw]
    rw [if_neg (by simp [hc])]
    exact ⟨rfl, rfl, rfl⟩
  · intro h
    have hc : (m.currentBatch_.isEmpty || !m.dataWriter_) = true := by
      cases hq : m.currentBatch_ with
      | nil => simp
      | cons d rest =>
        cases hw : m.dataWriter_ with
        | false => simp
        | true => exact absurd ⟨by rw [hq]; exact List.cons_ne_nil d rest, hw⟩ h
    rw [if_pos hc]

/-- The write counters after a flush that reaches the writer: two more
successes when it returned `true`, two more failures when it returned `false`,
one more failure when it threw. -/
theorem flushBatch_counters (m : DataManager) (env : StepEnv)
    (hb : m.currentBatch_ ≠ []) (hw : m.dataWriter_ = true) :
    (env.sink = .returned true →
        (m.flushBatch env).1.metrics_.successfulWrites = m.metrics_.successfulWrites + 2
        ∧ (m.flushBatch env).1.metrics_.failedWrites = m.metrics_.failedWrites)
      ∧ (env.sink = .returned false →
        (m.flushBatch env).1.metrics_.failedWrites = m.metrics_.failedWrites + 2
        ∧ (m.flushBatch env).1.metrics_.successfulWrites = m.metrics_.successfulWrites)
      ∧ (env.sink = .threw →
        (m.flushBatch env).1.metrics_.failedWrites = m.metrics_.failedWrites + 1
        ∧ (m.flushBatch env).1.metrics_.successfulWrites = m.metrics_.successfulWrites) := by
  have hc : (m.currentBatch_.isEmpty || !m.dataWriter_) = false := by
    cases hq : m.currentBatch_ with
    | nil => exact absurd hq hb
    | cons d rest => simp [hw]
  unfold DataManager.flushBatch
  rw [if_neg (by simp [hc])]
  refine ⟨?_, ?_, ?_⟩
  · intro hs
    simp [hs, DataManager.updateMetrics]
  · intro hs
    simp [hs, DataManager.updateMetrics]
  · intro hs
    simp [hs]

/-- C16, the code at the failing input: one flush of a one-sample batch to a
writer that returns `true` raises `successfulWrites` from 0 to 2, and one to a
writer that returns `false` raises `failedWrites` from 0 to 2; only a writer
that throws is counted once. -/
theorem flushBatch_counts_twice :
    ({ runningManager.setDataWriter true with currentBatch_ := [pressureSample] }.flushBatch
        ⟨⟨0⟩, ⟨0⟩, ⟨0⟩, .returned true⟩).2 = [PipelineEvent.sinkCall [pressureSample]]
    ∧ (runningManager.metrics_.successfulWrites, runningManager.metrics_.failedWrites) = (0, 0)
    ∧ (({ runningManager.setDataWriter true with currentBatch_ := [pressureSample] }.flushBatch
          ⟨⟨0⟩, ⟨0⟩, ⟨0⟩, .returned true⟩).1.metrics_.successfulWrites,
        ({ runningManager.setDataWriter true with currentBatch_ := [pressureSample] }.flushBatch
          ⟨⟨0⟩, ⟨0⟩, ⟨0⟩, .returned true⟩).1.metrics_.failedWrites) = (2, 0)
    ∧ (({ runningManager.setDataWriter true with currentBatch_ := [pressureSample] }.flushBatch
          ⟨⟨0⟩, ⟨0⟩, ⟨0⟩, .returned false⟩).1.metrics_.successfulWrites,
        ({ runningManager.setDataWriter true with currentBatch_ := [pressureSample] }.flushBatch
          ⟨⟨0⟩, ⟨0⟩, ⟨0⟩, .returned false⟩).1.metrics_.failedWrites) = (0, 2)
    ∧ (({ runningManager.setDataWriter true with currentBatch_ := [pressureSample] }.flushBatch
          ⟨⟨0⟩, ⟨0⟩, ⟨0⟩, .threw⟩).1.metrics_.successfulWrites,
        ({ runningManager.setDataWriter true with currentBatch_ := [pressureSample] }.flushBatch
          ⟨⟨0⟩, ⟨0⟩, ⟨0⟩, .threw⟩).1.metrics_.failedWrites) = (0, 1) := by
  decide

/-! ### End to end -/

theorem setState_eq (c : OPCUAClient) (s : ConnectionState) :
    c.setState s = { c with state_ := s } := by
  unfold OPCUAClient.setState
  by_cases h : c.state_ = s
  · subst h
    simp
  · simp [h]

theorem mapInsert_ne_nil (key : Str) (value : NodeInfo) (m : List (Str × NodeInfo)) :
    mapInsert key value m ≠ [] := by
  cases m with
  | nil => simp [mapInsert]
  | cons p rest =>
    obtain ⟨k, v⟩ := p
    simp only [mapInsert]
    split
    · simp
    · split <;> simp

/-- One discovery step: it succeeds exactly on an accepted entry, touches only the
node map, changes nothing on a rejected entry and leaves a non-empty map on an
accepted one. -/
theorem addSensorNode_spec (c : OPCUAClient) (server : UAServer) (i : Nat)
    (sensor : SensorDefinition) :
    (c.addSensorNode server i sensor).1 = nodeAccepted server i sensor
      ∧ { (c.addSensorNode server i sensor).2 with sensorNodes_ := [] }
          = { c with sensorNodes_ := [] }
      ∧ (nodeAccepted server i sensor = false → (c.addSensorNode server i sensor).2 = c)
      ∧ (nodeAccepted server i sensor = true →
          (c.addSensorNode server i sensor).2.sensorNodes_ ≠ []) := by
  unfold OPCUAClient.addSensorNode nodeAccepted
  cases hp : parseNodeId sensor.nodeId with
  | error e => simp
  | ok nodeId =>
    by_cases hs : server.readStatus i nodeId = 0
    · simp [hs, mapInsert_ne_nil]
    · simp [hs]

theorem discoverLoop_spec (server : UAServer) (defs : List SensorDefinition) :
    ∀ (i : Nat) (c : OPCUAClient) (count : Int),
      (OPCUAClient.discoverLoop server i defs c count).2
          = count + (acceptedFrom server i defs).length
        ∧ { (OPCUAClient.discoverLoop server i defs c count).1 with sensorNodes_ := [] }
          = { c with sensorNodes_ := [] }
        ∧ ((OPCUAClient.discoverLoop server i defs c count).1.sensorNodes_ = []
            ↔ c.sensorNodes_ = [] ∧ acceptedFrom server i defs = []) := by
  induction defs with
  | nil =>
    intro i c count
    simp [OPCUAClient.discoverLoop, acceptedFrom]
  | cons sensor rest ih =>
    intro i c count
    obtain ⟨h1, h2, h3, h4⟩ := addSensorNode_spec c server i sensor
    by_cases ha : nodeAccepted server i sensor = true
    · have e1 : (c.addSensorNode server i sensor).1 = true := h1.trans ha
      obtain ⟨g1, g2, g3⟩ := ih (i + 1) (c.addSensorNode server i sensor).2 (count + 1)
      simp only [OPCUAClient.discoverLoop, acceptedFrom, e1, ha, if_true]
      refine ⟨?_, g2.trans h2, ?_⟩
      · rw [g1, List.length_cons]
        push_cast
        omega
      · rw [g3]
        constructor
        · intro h
          exact absurd h.1 (h4 ha)
        · intro h
          exact absurd h.2 (List.cons_ne_nil _ _)
    · have ha2 : nodeAccepted server i sensor = false := by simpa using ha
      have e1 : (c.addSensorNode server i sensor).1 = false := h1.trans ha2
      obtain ⟨g1, g2, g3⟩ := ih (i + 1) (c.addSensorNode server i sensor).2 count
      simp only [OPCUAClient.discoverLoop, acceptedFrom, e1, ha2, Bool.false_eq_true, if_false]
      rw [h3 ha2] at g1 g2 g3 ⊢
      exact ⟨g1, g2, g3⟩

/-- Discovery returns `true` exactly when some entry is accepted, touches only the
node map, and leaves it empty exactly when no entry is accepted. -/
theorem discoverNodes_spec (c : OPCUAClient) (server : UAServer) :
    ((c.discoverNodes server).1 = true ↔ acceptedFrom server 0 c.sensorDefinitions_ ≠ [])
      ∧ { (c.discoverNodes server).2 with sensorNodes_ := [] } = { c with sensorNodes_ := [] }
      ∧ ((c.discoverNodes server).2.sensorNodes_ = []
          ↔ acceptedFrom server 0 c.sensorDefinitions_ = []) := by
  obtain ⟨g1, g2, g3⟩ := discoverLoop_spec server c.sensorDefinitions_ 0
    { c with sensorNodes_ := [] } 0
  unfold OPCUAClient.discoverNodes
  simp only []
  refine ⟨?_, g2, ?_⟩
  · rw [decide_eq_true_eq, g1]
    cases h : acceptedFrom server 0 c.sensorDefinitions_ with
    | nil => simp
    | cons a rest =>
      simp only [List.length_cons, ne_eq, reduceCtorEq, not_false_eq_true, iff_true]
      push_cast
      omega
  · rw [g3]
    simp

theorem monitorLoop_append (server : UAServer) (sid : Nat) (nodes : List (Str × NodeInfo)) :
    ∀ (i : Nat) (subs : List SubscriptionData),
      monitorLoop server sid i nodes subs = subs ++ monitorLoop server sid i nodes [] := by
  induction nodes with
  | nil => intro i subs; simp [monitorLoop]
  | cons p rest ih =>
    intro i subs
    obtain ⟨sensorId, nodeInfo⟩ := p
    simp only [monitorLoop]
    split
    · rw [ih (i + 1) (subs ++ _), ih (i + 1) ([] ++ _)]
      simp [List.append_assoc]
    · exact ih (i + 1) subs

/-- Subscribing from an empty record list: it fails when the subscription is
refused, otherwise the records are those of the accepted items and it succeeds
exactly when there is one. -/
theorem createSubscriptions_spec (c : OPCUAClient) (server : UAServer)
    (hsubs : c.subscriptions_ = []) :
    c.createSubscriptions server
      = if server.createSubscription.1 ≠ 0 then (false, c)
        else
          (!(acceptedItems server server.createSubscription.2 c.sensorNodes_).isEmpty,
            { c with
              subscriptionId_ := server.createSubscription.2,
              subscriptions_ :=
                acceptedItems server server.createSubscription.2 c.sensorNodes_ }) := by
  unfold OPCUAClient.createSubscriptions OPCUAClient.createSubscription
    OPCUAClient.addMonitoredItems
  by_cases hsr : server.createSubscription.1 = 0
  · simp only [hsr, ne_eq, not_true_eq_false, if_false, Bool.not_true, Bool.false_eq_true]
    rw [hsubs, monitorLoop_append]
    simp only [List.nil_append]
    unfold acceptedItems
    cases hm : monitorLoop server server.createSubscription.2 0 c.sensorNodes_ [] with
    | nil => simp
    | cons a rest => simp
  · simp [hsr]

/-- The calls `connect()` makes on a session that does not count as connected. -/
theorem connect_eq (c : OPCUAClient) (server : UAServer) (steadyNow : TimePoint)
    (hnot : c.isConnected = false) (hclient : c.client_ = true) :
    c.connect server steadyNow
      = if server.connectStatus c.endpoint_ ≠ 0 then some (false, { c with state_ := .ERROR })
        else if !(OPCUAClient.discoverNodes
            { c with state_ := .CONNECTED, reconnectAttempts_ := 0 } server).1 then
          some (false, (OPCUAClient.discoverNodes
            { c with state_ := .CONNECTED, reconnectAttempts_ := 0 } server).2)
        else if !((OPCUAClient.discoverNodes
            { c with state_ := .CONNECTED, reconnectAttempts_ := 0 } server).2.createSubscriptions
              server).1 then
          some (false, ((OPCUAClient.discoverNodes
            { c with state_ := .CONNECTED, reconnectAttempts_ := 0 } server).2.createSubscriptions
              server).2)
        else some (true, { ((OPCUAClient.discoverNodes
            { c with state_ := .CONNECTED, reconnectAttempts_ := 0 } server).2.createSubscriptions
              server).2 with
              state_ := .SUBSCRIPTION_ACTIVE, lastDataTime_ := steadyNow }) := by
  obtain ⟨cfg, client, state, running, endpoint, subId, subs, nodes, defs, ra, lra, mr, se, ldt⟩
    := c
  simp only at hclient
  subst hclient
  unfold OPCUAClient.connect
  rw [if_neg (by rw [hnot]; decide)]
  simp only [setState_eq, OPCUAClient.resetReconnectAttempts, Bool.not_true,
    Bool.false_eq_true, if_false]

/-- C17, the code at the failing input: for `pressure_supply` (range 0 to 350) a
notification with value 400 and a status that is not good is emitted with
quality `uncertain`, not `bad`; the data manager accepts that sample, whereas it
rejects the `bad` sample emitted for value 100 with the same status. With a good
status the quality is `uncertain` for 400 and `good` for 100. -/
theorem processDataChange_out_of_range_overrides_bad :
    (getSensorById "pressure_supply".toList).minValue = .finite false 0 0
    ∧ (getSensorById "pressure_supply".toList).maxValue = .finite false 350 0
    ∧ (freshClient.processDataChange "pressure_supply".toList
        (some (notification (.finite false 400 0) badStatus)) ⟨0⟩ ⟨77⟩).2
      = some ⟨"pressure_supply".toList, "Ana Besleme Basıncı".toList, .finite false 400 0,
          "bar".toList, "uncertain".toList, ⟨77⟩⟩
    ∧ ((freshClient.processDataChange "pressure_supply".toList
        (some (notification (.finite false 100 0) badStatus)) ⟨0⟩ ⟨77⟩).2.map
          (fun d => d.quality)) = some "bad".toList
    ∧ ((freshClient.processDataChange "pressure_supply".toList
        (some (notification (.finite false 400 0) 0)) ⟨0⟩ ⟨77⟩).2.map
          (fun d => d.quality)) = some "uncertain".toList
    ∧ ((freshClient.processDataChange "pressure_supply".toList
        (some (notification (.finite false 100 0) 0)) ⟨0⟩ ⟨77⟩).2.map
          (fun d => d.quality)) = some "good".toList
    ∧ ((freshClient.processDataChange "pressure_supply".toList
        (some (notification (.finite false 400 0) badStatus)) ⟨0⟩ ⟨77⟩).2.map
          (fun d => runningManager.validateSensorData d)) = some true
    ∧ ((freshClient.processDataChange "pressure_supply".toList
        (some (notification (.finite false 100 0) badStatus)) ⟨0⟩ ⟨77⟩).2.map
          (fun d => runningManager.validateSensorData d)) = some false := by
  refine ⟨by decide, by decide, by decide, by decide, by decide, by decide, by decide, by decide⟩

/-- The timestamp of an emitted sample: the converted server timestamp when the
notification has one, the clock reading otherwise. -/
theorem processDataChange_timestamp (c : OPCUAClient) (sensorId : Str) (value : UADataValue)
    (steadyNow systemNow : TimePoint) (d : SensorData)
    (h : (c.processDataChange sensorId (some value) steadyNow systemNow).2 = some d) :
    d.timestamp
      = if value.hasServerTimestamp then
          fromTimeT (Int.tdiv value.serverTimestamp 10000000 - 11644473600)
        else systemNow := by
  unfold OPCUAClient.processDataChange at h
  simp only [] at h
  split at h
  · exact absurd h (by simp)
  · split at h
    · exact absurd h (by simp)
    · simp only [Option.some.injEq] at h
      rw [← h]
      simp only [apply_ite SensorData.timestamp, ite_self]

/-- A server timestamp between 1970 and 2234 is rendered as its whole seconds since
the Unix epoch, times 1000. -/
theorem formatTimestamp_fromTimeT (t : Int) (h0 : 116444736000000000 ≤ t)
    (h1 : t ≤ 200000000000000000) :
    formatTimestamp (fromTimeT (Int.tdiv t 10000000 - 11644473600))
      = (toString ((t / 10000000 - 11644473600) * 1000)).toList := by
  have ht : Int.tdiv t 10000000 = t / 10000000 := Int.tdiv_eq_ediv (by omega) (by omega)
  have hw : wrapInt64 ((t / 10000000 - 11644473600) * 1000000000)
      = (t / 10000000 - 11644473600) * 1000000000 := by
    unfold wrapInt64
    omega
  unfold formatTimestamp fromTimeT
  simp only [ht, hw]
  have hd : Int.tdiv ((t / 10000000 - 11644473600) * 1000000000) 1000000
      = (t / 10000000 - 11644473600) * 1000 := by
    rw [Int.tdiv_eq_ediv (by omega) (by omega)]
    omega
  rw [hd]

/-- C18, the code at the failing input: the server timestamp 133444736005000000
(2023-11-14 22:13:20.5 UTC) is emitted as 1700000000000 ms, whereas
`floor(t / 10000) - 11644473600000` is 1700000000500; for every server
timestamp between 1970 and 2234 the emitted milliseconds are the whole seconds
times 1000; without a server timestamp the sample keeps the capture time. -/
theorem processDataChange_server_timestamp_seconds :
    ((freshClient.processDataChange "pressure_supply".toList
        (some (stampedNotification 133444736005000000)) ⟨0⟩ ⟨77⟩).2.map
          (fun d => formatTimestamp d.timestamp)) = some "1700000000000".toList
    ∧ (toString ((133444736005000000 : Int) / 10000 - 11644473600000)).toList
        = "1700000000500".toList
    ∧ (∀ (t : Int), 116444736000000000 ≤ t → t ≤ 200000000000000000 →
        ∀ (c : OPCUAClient) (sensorId : Str) (value : UADataValue)
          (steadyNow systemNow : TimePoint) (d : SensorData),
          value.hasServerTimestamp = true → value.serverTimestamp = t →
          (c.processDataChange sensorId (some value) steadyNow systemNow).2 = some d →
          formatTimestamp d.timestamp
            = (toString ((t / 10000000 - 11644473600) * 1000)).toList)
    ∧ ((freshClient.processDataChange "pressure_supply".toList
        (some (notification (.finite false 100 0) 0)) ⟨0⟩ ⟨77⟩).2.map
          (fun d => d.timestamp)) = some ⟨77⟩ := by
  refine ⟨by decide, by decide, ?_, by decide⟩
  intro t h0 h1 c sensorId value steadyNow systemNow d hts hv hd
  rw [processDataChange_timestamp c sensorId value steadyNow systemNow d hd, hts, hv]
  exact formatTimestamp_fromTimeT t h0 h1

/-- C19, the code at the failing input: on an initialised session a first
`connect()` against a server that opens the transport and refuses every read
returns `false` and leaves the state `CONNECTED` with no node and no
subscription; a second `connect()` then returns `true` at once, with no node
discovered, no item accepted, and the state still `CONNECTED`, not
`SUBSCRIPTION_ACTIVE`. -/
theorem connect_returns_true_when_connected :
    freshClient.isConnected = false
    ∧ refusingServer.connectStatus freshClient.endpoint_ = 0
    ∧ acceptedFrom refusingServer 0 freshClient.sensorDefinitions_ = []
    ∧ (freshClient.connect refusingServer ⟨5⟩).map
        (fun r => (r.1, r.2.state_, r.2.sensorNodes_.length, r.2.subscriptions_.length))
      = some (false, .CONNECTED, 0, 0)
    ∧ ((freshClient.connect refusingServer ⟨5⟩).bind
        (fun r => r.2.connect refusingServer ⟨6⟩)).map
          (fun r => (r.1, r.2.state_, r.2.sensorNodes_.length, r.2.subscriptions_.length))
      = some (true, .CONNECTED, 0, 0) := by
  refine ⟨by decide, by decide, by decide, by decide, by decide⟩

/-- The outcome of `connect()` past its first test: on a session that does not
count as connected, has a client handle and holds no subscription record,
`connect()` returns a result; the
result is `false` when the transport opens and discovery accepts no catalog
entry, and when discovery accepts an entry but the server accepts no monitored
item; it is `true` only if the transport opened, an entry was accepted, the node
map is non-empty and the subscription records, those of the accepted items, are
non-empty; and the state afterwards is `SUBSCRIPTION_ACTIVE` exactly when the
result is `true`. -/
theorem connect_outcome (c : OPCUAClient) (server : UAServer) (steadyNow : TimePoint)
    (hnot : c.isConnected = false) (hclient : c.client_ = true) (hsubs : c.subscriptions_ = []) :
    ∃ r, c.connect server steadyNow = some r
      ∧ (server.connectStatus c.endpoint_ = 0 →
          acceptedFrom server 0 c.sensorDefinitions_ = [] → r.1 = false)
      ∧ (server.connectStatus c.endpoint_ = 0 →
          acceptedFrom server 0 c.sensorDefinitions_ ≠ [] →
          acceptedItems server server.createSubscription.2 r.2.sensorNodes_ = [] → r.1 = false)
      ∧ (r.1 = true →
          server.connectStatus c.endpoint_ = 0
          ∧ acceptedFrom server 0 c.sensorDefinitions_ ≠ []
          ∧ r.2.sensorNodes_ ≠ []
          ∧ r.2.subscriptions_ = acceptedItems server r.2.subscriptionId_ r.2.sensorNodes_
          ∧ r.2.subscriptions_ ≠ [])
      ∧ (r.2.state_ = .SUBSCRIPTION_ACTIVE ↔ r.1 = true) := by
  rw [connect_eq c server steadyNow hnot hclient]
  obtain ⟨d1, d2, d3⟩ := discoverNodes_spec
    { c with state_ := .CONNECTED, reconnectAttempts_ := 0 } server
  generalize OPCUAClient.discoverNodes
    { c with state_ := .CONNECTED, reconnectAttempts_ := 0 } server = d at d1 d2 d3
  have hdstate : d.2.state_ = .CONNECTED := congrArg OPCUAClient.state_ d2
  have hdsubs : d.2.subscriptions_ = [] := (congrArg OPCUAClient.subscriptions_ d2).trans hsubs
  simp only [] at d1 d3
  have hcs := createSubscriptions_spec d.2 server hdsubs
  by_cases hst : server.connectStatus c.endpoint_ = 0
  · rw [if_neg (by simp [hst])]
    by_cases hacc : acceptedFrom server 0 c.sensorDefinitions_ = []
    · have hd1 : d.1 = false := by
        rw [Bool.eq_false_iff]
        exact fun h => (d1.1 h) hacc
      rw [if_pos (by simp [hd1])]
      refine ⟨_, rfl, fun _ _ => rfl, fun _ _ _ => rfl, fun h => absurd h (by simp), ?_⟩
      simp [hdstate]
    · have hd1 : d.1 = true := d1.2 hacc
      rw [if_neg (by simp [hd1])]
      by_cases hsr : server.createSubscription.1 = 0
      · rw [if_neg (by simp [hsr])] at hcs
        by_cases hit : acceptedItems server server.createSubscription.2 d.2.sensorNodes_ = []
        · rw [hit] at hcs
          rw [hcs]
          simp only [List.isEmpty_nil, Bool.not_true, Bool.not_false, if_true]
          refine ⟨_, rfl, fun _ _ => rfl, fun _ _ _ => rfl, fun h => absurd h (by simp), ?_⟩
          simp [hdstate]
        · have hne : (acceptedItems server server.createSubscription.2
              d.2.sensorNodes_).isEmpty = false := by
            cases hm : acceptedItems server server.createSubscription.2 d.2.sensorNodes_ with
            | nil => exact absurd hm hit
            | cons a rest => rfl
          rw [hne] at hcs
          rw [hcs]
          simp only [Bool.not_false, Bool.not_true, Bool.false_eq_true, if_false]
          refine ⟨_, rfl, fun _ h => absurd h hacc, fun _ _ h => absurd h hit,
            fun _ => ⟨hst, hacc, fun h => hacc (d3.1 h), rfl, hit⟩, ?_⟩
          simp
      · rw [if_pos hsr] at hcs
        rw [hcs]
        simp only [Bool.not_false, if_true]
        refine ⟨_, rfl, fun _ _ => rfl, fun _ _ _ => rfl, fun h => absurd h (by simp), ?_⟩
        simp [hdstate]
  · rw [if_pos hst]
    refine ⟨_, rfl, fun h => absurd h hst, fun h => absurd h hst, fun h => absurd h (by simp), ?_⟩
    simp

/-- The outcome of `connect()` at an initialised client and a server that
accepts everything. -/
theorem connect_outcome_witness :
    ∃ r, freshClient.connect acceptingServer ⟨5⟩ = some r
      ∧ (r.2.state_ = .SUBSCRIPTION_ACTIVE ↔ r.1 = true) :=
  (connect_outcome freshClient acceptingServer ⟨5⟩ (by decide) (by decide) (by decide)).imp
    (fun _ h => ⟨h.1, h.2.2.2.2⟩)

/-- C20, the code at the failing input: on an initialised session in state
`DISCONNECTED`, `connect()` returns `false` and leaves the state `CONNECTED` when
the transport opens and every read is refused, when the subscription is refused,
and when every monitored item is refused; only a failure to open the transport
leaves the state `ERROR`. -/
theorem connect_failure_leaves_connected :
    freshClient.isConnected = false
    ∧ (freshClient.connect refusingServer ⟨5⟩).map (fun r => (r.1, r.2.state_))
      = some (false, .CONNECTED)
    ∧ (freshClient.connect noSubscriptionServer ⟨5⟩).map (fun r => (r.1, r.2.state_))
      = some (false, .CONNECTED)
    ∧ (freshClient.connect noItemsServer ⟨5⟩).map (fun r => (r.1, r.2.state_))
      = some (false, .CONNECTED)
    ∧ (freshClient.connect unreachableServer ⟨5⟩).map (fun r => (r.1, r.2.state_))
      = some (false, .ERROR) := by
  refine ⟨by decide, by decide, by decide, by decide, by decide⟩


/-! ### The session -/

theorem connectTraced_eq (c : OPCUAClient) (server : UAServer) (steadyNow : TimePoint) :
    (c.connectTraced server steadyNow).map (fun r => (r.1, r.2.1))
      = c.connect server steadyNow := by
  unfold OPCUAClient.connectTraced OPCUAClient.connect
  simp only []
  split_ifs <;> rfl

theorem createSubscriptions_state (c : OPCUAClient) (server : UAServer) :
    (c.createSubscriptions server).2.state_ = c.state_ := by
  unfold OPCUAClient.createSubscriptions OPCUAClient.createSubscription
    OPCUAClient.addMonitoredItems
  simp only []
  split_ifs <;> rfl

theorem discoverNodes_state (c : OPCUAClient) (server : UAServer) :
    (c.discoverNodes server).2.state_ = c.state_ := by
  have h := congrArg OPCUAClient.state_ (discoverNodes_spec c server).2.1
  exact h

theorem validTrace_nil (a : ConnectionState) : validTrace a [] a := by
  simp [validTrace]

theorem stateSucceeds_disconnected (a : ConnectionState) : stateSucceeds a .DISCONNECTED := by
  constructor
  · intro h
    exact absurd h (by decide)
  · intro _
    rfl

theorem validTrace_disconnected (a : ConnectionState) :
    validTrace a [.DISCONNECTED] .DISCONNECTED := by
  refine ⟨?_, by simp⟩
  simp only [List.chain'_cons, List.chain'_singleton, and_true]
  exact stateSucceeds_disconnected a

theorem validTrace_append (a b c : ConnectionState) (l1 l2 : List ConnectionState)
    (h1 : validTrace a l1 b) (h2 : validTrace b l2 c) : validTrace a (l1 ++ l2) c := by
  obtain ⟨c1, e1⟩ := h1
  obtain ⟨c2, e2⟩ := h2
  cases l2 with
  | nil =>
    simp only [List.getLast?_singleton, Option.some.injEq] at e2
    subst e2
    rw [List.append_nil]
    exact ⟨c1, e1⟩
  | cons x rest =>
    constructor
    · have happ : a :: (l1 ++ x :: rest) = (a :: l1) ++ (x :: rest) := rfl
      rw [happ]
      apply List.Chain'.append c1 (List.Chain'.tail c2)
      intro y hy z hz
      rw [e1] at hy
      simp only [Option.mem_def, Option.some.injEq] at hy
      simp only [List.tail_cons, List.head?_cons, Option.mem_def, Option.some.injEq] at hz
      subst hy hz
      exact (List.chain'_cons.1 c2).1
    · have happ : a :: (l1 ++ x :: rest) = (a :: l1) ++ (x :: rest) := rfl
      rw [happ, List.getLast?_append_of_ne_nil _ (List.cons_ne_nil x rest)]
      rw [List.getLast?_cons_cons] at e2
      exact e2

/-- The values `connect()` passes to `setState` form a valid trace. -/
theorem connectTraced_trace (c : OPCUAClient) (server : UAServer) (steadyNow : TimePoint)
    (r : Bool × OPCUAClient × List ConnectionState)
    (h : c.connectTraced server steadyNow = some r) :
    validTrace c.state_ r.2.2 r.2.1.state_ := by
  unfold OPCUAClient.connectTraced at h
  by_cases hc : c.isConnected = true
  · rw [if_pos hc] at h
    simp only [Option.some.injEq] at h
    subst h
    exact validTrace_nil _
  · rw [if_neg hc] at h
    have hs : c.state_ = .DISCONNECTED ∨ c.state_ = .CONNECTING := by
      unfold OPCUAClient.isConnected at hc
      cases hst : c.state_ <;> simp [hst, ConnectionState.toNat] at hc ⊢
    have hna : c.state_ ≠ .SUBSCRIPTION_ACTIVE := by
      rcases hs with h1 | h1 <;> rw [h1] <;> decide
    simp only [setState_eq, OPCUAClient.resetReconnectAttempts] at h
    split_ifs at h with h1 h2 h3 h4
    · simp only [Option.some.injEq] at h
      subst h
      refine ⟨?_, by simp⟩
      simp only [List.chain'_cons, List.chain'_singleton, and_true]
      exact ⟨⟨fun hx => absurd hx (by decide), fun hx => absurd hx hna⟩,
        by unfold stateSucceeds; decide⟩
    · simp only [Option.some.injEq] at h
      subst h
      refine ⟨?_, ?_⟩
      · simp only [List.chain'_cons, List.chain'_singleton, and_true]
        exact ⟨⟨fun hx => absurd hx (by decide), fun hx => absurd hx hna⟩,
        by unfold stateSucceeds; decide⟩
      · simp only [List.getLast?_cons_cons, List.getLast?_singleton]
        rw [discoverNodes_state]
    · simp only [Option.some.injEq] at h
      subst h
      refine ⟨?_, ?_⟩
      · simp only [List.chain'_cons, List.chain'_singleton, and_true]
        exact ⟨⟨fun hx => absurd hx (by decide), fun hx => absurd hx hna⟩,
        by unfold stateSucceeds; decide⟩
      · simp only [List.getLast?_cons_cons, List.getLast?_singleton]
        rw [createSubscriptions_state, discoverNodes_state]
    · simp only [Option.some.injEq] at h
      subst h
      refine ⟨?_, by simp⟩
      simp only [List.chain'_cons, List.chain'_singleton, and_true]
      exact ⟨⟨fun hx => absurd hx (by decide), fun hx => absurd hx hna⟩,
        by unfold stateSucceeds; decide, by unfold stateSucceeds; decide⟩

theorem disconnect_state (c : OPCUAClient) : c.disconnect.state_ = .DISCONNECTED := by
  unfold OPCUAClient.disconnect
  simp only [setState_eq]

theorem handleDisconnection_state (c : OPCUAClient) :
    c.handleDisconnection.state_ = .DISCONNECTED := by
  unfold OPCUAClient.handleDisconnection
  simp only [setState_eq]

theorem initializeClient_state (c : OPCUAClient) (clientNew : Bool) :
    (c.initializeClient clientNew).1 = clientNew
      ∧ (c.initializeClient clientNew).2.state_
          = if clientNew then .DISCONNECTED else c.state_ := by
  unfold OPCUAClient.initializeClient
  cases clientNew <;> simp [setState_eq]

theorem performConnection_trace (c : OPCUAClient) (clientNew : Bool) (server : UAServer)
    (steadyNow : TimePoint) (r : Bool × OPCUAClient × List ConnectionState)
    (h : c.performConnection clientNew server steadyNow = some r) :
    validTrace c.state_ r.2.2 r.2.1.state_ := by
  unfold OPCUAClient.performConnection at h
  simp only [] at h
  have h0 : validTrace c.state_
      (if c.client_ = true then (c.disconnect, [ConnectionState.DISCONNECTED]) else (c, [])).2
      (if c.client_ = true then (c.disconnect, [ConnectionState.DISCONNECTED]) else (c, [])).1.state_
      := by
    by_cases hc : c.client_ = true
    · rw [if_pos hc]
      simp only [disconnect_state]
      exact validTrace_disconnected _
    · rw [if_neg hc]
      exact validTrace_nil _
  generalize (if c.client_ = true then (c.disconnect, [ConnectionState.DISCONNECTED])
    else (c, [])) = r0 at h h0
  obtain ⟨i1, i2⟩ := initializeClient_state r0.1 clientNew
  cases clientNew with
  | false =>
    rw [i1] at h
    simp only [Bool.not_false, if_true, Option.some.injEq] at h
    subst h
    simp only [Bool.false_eq_true, if_false] at i2
    simp only []
    rw [i2]
    exact h0
  | true =>
    rw [i1] at h
    simp only [Bool.not_true, Bool.false_eq_true, if_false] at h
    simp only [if_true] at i2
    cases hct : (r0.1.initializeClient true).2.connectTraced server steadyNow with
    | none =>
      rw [hct] at h
      exact absurd h (by simp)
    | some r2 =>
      rw [hct] at h
      simp only [Option.some.injEq] at h
      subst h
      have ht := connectTraced_trace _ server steadyNow r2 hct
      rw [i2] at ht
      simp only []
      rw [List.append_assoc]
      exact validTrace_append _ _ _ _ _ h0
        (validTrace_append _ _ _ _ _ (validTrace_disconnected _) ht)

theorem healthCheck_trace (c : OPCUAClient) (env : SupervisorEnv)
    (r : OPCUAClient × List ConnectionState) (h : c.healthCheck env = some r) :
    validTrace c.state_ r.2 r.1.state_ := by
  unfold OPCUAClient.healthCheck at h
  simp only [] at h
  split_ifs at h <;> simp only [Option.some.injEq] at h <;> subst h
  · simp only [handleDisconnection_state]
    exact validTrace_disconnected _
  · exact validTrace_nil _
  · exact validTrace_nil _
  · exact validTrace_nil _
  · exact validTrace_nil _

theorem connectionIteration_trace (c : OPCUAClient) (env : SupervisorEnv)
    (r : OPCUAClient × List ConnectionState × Bool) (h : c.connectionIteration env = some r) :
    validTrace c.state_ r.2.1 r.1.state_ := by
  unfold OPCUAClient.connectionIteration at h
  by_cases hr : c.running_ = true
  · rw [if_neg (by rw [hr]; decide)] at h
    by_cases ha : (!c.isConnected && c.shouldReconnect env.nowReconnect) = true
    · rw [if_pos ha] at h
      cases hp : c.performConnection env.clientNew env.server env.nowConnected with
      | none =>
        rw [hp] at h
        exact absurd h (by simp)
      | some p =>
        rw [hp] at h
        simp only [] at h
        have hpt := performConnection_trace c _ _ _ p hp
        by_cases hok : p.1 = true
        · rw [if_pos hok] at h
          cases hh : p.2.1.healthCheck env with
          | none =>
            rw [hh] at h
            exact absurd h (by simp)
          | some hc =>
            rw [hh] at h
            simp only [Option.some.injEq] at h
            subst h
            exact validTrace_append _ _ _ _ _ hpt (healthCheck_trace _ env hc hh)
        · rw [if_neg hok] at h
          by_cases hcap : (p.2.1.incrementReconnectAttempts env.nowAttempt).config_.getMaxReconnectAttempts
              ≤ (p.2.1.incrementReconnectAttempts env.nowAttempt).reconnectAttempts_
          · rw [if_pos hcap] at h
            simp only [Option.some.injEq] at h
            subst h
            exact hpt
          · rw [if_neg hcap] at h
            cases hh : (p.2.1.incrementReconnectAttempts env.nowAttempt).healthCheck env with
            | none =>
              rw [hh] at h
              exact absurd h (by simp)
            | some hc =>
              rw [hh] at h
              simp only [Option.some.injEq] at h
              subst h
              have ht := healthCheck_trace _ env hc hh
              have hs : (p.2.1.incrementReconnectAttempts env.nowAttempt).state_
                  = p.2.1.state_ := rfl
              rw [hs] at ht
              exact validTrace_append _ _ _ _ _ hpt ht
    · rw [if_neg ha] at h
      cases hh : c.healthCheck env with
      | none =>
        rw [hh] at h
        exact absurd h (by simp)
      | some hc =>
        rw [hh] at h
        simp only [Option.some.injEq] at h
        subst h
        exact healthCheck_trace _ env hc hh
  · rw [if_pos (by simpa using hr)] at h
    simp only [Option.some.injEq] at h
    subst h
    exact validTrace_nil _

theorem subscriptionIteration_trace (c : OPCUAClient) (status timeoutCode : Nat) :
    validTrace c.state_ (c.subscriptionIteration status timeoutCode).2
      (c.subscriptionIteration status timeoutCode).1.state_ := by
  unfold OPCUAClient.subscriptionIteration
  split_ifs
  · exact validTrace_nil _
  · simp only [handleDisconnection_state]
    exact validTrace_disconnected _
  · exact validTrace_nil _
  · exact validTrace_nil _
  · exact validTrace_nil _

theorem processDataChange_state (c : OPCUAClient) (sensorId : Str) (value : Option UADataValue)
    (steadyNow systemNow : TimePoint) :
    (c.processDataChange sensorId value steadyNow systemNow).1.state_ = c.state_ := by
  unfold OPCUAClient.processDataChange
  simp only []
  split
  · rfl
  · split_ifs <;> rfl

/-- The values one operation passes to `setState` form a valid trace. -/
theorem sessionStep_trace (c : OPCUAClient) (op : SessionOp)
    (r : OPCUAClient × List ConnectionState) (h : c.sessionStep op = some r) :
    validTrace c.state_ r.2 r.1.state_ := by
  cases op with
  | initializeClient clientNew =>
    simp only [OPCUAClient.sessionStep, Option.some.injEq] at h
    subst h
    obtain ⟨i1, i2⟩ := initializeClient_state c clientNew
    simp only []
    rw [i1, i2]
    cases clientNew
    · exact validTrace_nil _
    · exact validTrace_disconnected _
  | connect server steadyNow =>
    simp only [OPCUAClient.sessionStep] at h
    cases hct : c.connectTraced server steadyNow with
    | none =>
      rw [hct] at h
      exact absurd h (by simp)
    | some r2 =>
      rw [hct] at h
      simp only [Option.map_some', Option.some.injEq] at h
      subst h
      exact connectTraced_trace c server steadyNow r2 hct
  | disconnect =>
    simp only [OPCUAClient.sessionStep, Option.some.injEq] at h
    subst h
    simp only [disconnect_state]
    exact validTrace_disconnected _
  | start =>
    simp only [OPCUAClient.sessionStep, Option.some.injEq] at h
    subst h
    have hs : c.start.state_ = c.state_ := by
      unfold OPCUAClient.start
      split_ifs <;> rfl
    simp only []
    rw [hs]
    exact validTrace_nil _
  | stop =>
    simp only [OPCUAClient.sessionStep, Option.some.injEq] at h
    subst h
    have hs : c.stop.state_ = c.state_ := by
      unfold OPCUAClient.stop
      split_ifs <;> rfl
    simp only []
    rw [hs]
    exact validTrace_nil _
  | handleDisconnection =>
    simp only [OPCUAClient.sessionStep, Option.some.injEq] at h
    subst h
    simp only [handleDisconnection_state]
    exact validTrace_disconnected _
  | supervisor env =>
    simp only [OPCUAClient.sessionStep] at h
    cases hci : c.connectionIteration env with
    | none =>
      rw [hci] at h
      exact absurd h (by simp)
    | some r2 =>
      rw [hci] at h
      simp only [Option.map_some', Option.some.injEq] at h
      subst h
      exact connectionIteration_trace c env r2 hci
  | eventLoop status timeoutCode =>
    simp only [OPCUAClient.sessionStep, Option.some.injEq] at h
    subst h
    exact subscriptionIteration_trace c status timeoutCode
  | dataChange sensorId value steadyNow systemNow =>
    simp only [OPCUAClient.sessionStep, Option.some.injEq] at h
    subst h
    simp only []
    rw [processDataChange_state]
    exact validTrace_nil _

/-- The values a sequence of operations passes to `setState` form a valid trace. -/
theorem sessionRun_trace (ops : List SessionOp) :
    ∀ (c : OPCUAClient) (r : OPCUAClient × List ConnectionState),
      c.sessionRun ops = some r → validTrace c.state_ r.2 r.1.state_ := by
  induction ops with
  | nil =>
    intro c r h
    simp only [OPCUAClient.sessionRun, Option.some.injEq] at h
    subst h
    exact validTrace_nil _
  | cons op ops ih =>
    intro c r h
    simp only [OPCUAClient.sessionRun] at h
    cases hs : c.sessionStep op with
    | none =>
      rw [hs] at h
      exact absurd h (by simp)
    | some r1 =>
      rw [hs] at h
      simp only [] at h
      cases hr : OPCUAClient.sessionRun r1.1 ops with
      | none =>
        rw [hr] at h
        exact absurd h (by simp)
      | some r2 =>
        rw [hr] at h
        simp only [Option.some.injEq] at h
        subst h
        exact validTrace_append _ _ _ _ _ (sessionStep_trace c op r1 hs) (ih r1.1 r2 hr)

theorem chain_active_connected (mid post : List ConnectionState)
    (h : List.Chain' stateSucceeds
      (ConnectionState.SUBSCRIPTION_ACTIVE :: (mid ++ ConnectionState.CONNECTED :: post))) :
    ConnectionState.DISCONNECTED ∈ mid := by
  cases mid with
  | nil =>
    have hr := (List.chain'_cons.1 h).1
    exact absurd (hr.2 rfl) (by decide)
  | cons x rest =>
    have hr := (List.chain'_cons.1 h).1
    rw [hr.2 rfl]
    exact List.mem_cons_self _ _

/-- C23: in every sequence of session operations with a defined result, the
successive values of `state_` (the state before, then every value passed to
`setState`, in order) satisfy: the value before `CONNECTED` is always
`CONNECTING`, the value after `SUBSCRIPTION_ACTIVE` is always `DISCONNECTED`, and
between a `SUBSCRIPTION_ACTIVE` and a later `CONNECTED` there is a
`DISCONNECTED`; the last value is the state of the session afterwards. -/
theorem state_transitions (c : OPCUAClient) (ops : List SessionOp)
    (r : OPCUAClient × List ConnectionState) (h : c.sessionRun ops = some r) :
    List.Chain' stateSucceeds (c.state_ :: r.2)
      ∧ (c.state_ :: r.2).getLast? = some r.1.state_
      ∧ (∀ (pre post : List ConnectionState) (a : ConnectionState),
          c.state_ :: r.2 = pre ++ a :: ConnectionState.CONNECTED :: post →
          a = ConnectionState.CONNECTING)
      ∧ (∀ (pre post : List ConnectionState) (b : ConnectionState),
          c.state_ :: r.2 = pre ++ ConnectionState.SUBSCRIPTION_ACTIVE :: b :: post →
          b = ConnectionState.DISCONNECTED)
      ∧ (∀ pre mid post : List ConnectionState,
          c.state_ :: r.2
            = pre ++ ConnectionState.SUBSCRIPTION_ACTIVE
                :: (mid ++ ConnectionState.CONNECTED :: post) →
          ConnectionState.DISCONNECTED ∈ mid) := by
  obtain ⟨hc, hl⟩ := sessionRun_trace ops c r h
  refine ⟨hc, hl, ?_, ?_, ?_⟩
  · intro pre post a he
    rw [he] at hc
    have h2 := List.Chain'.right_of_append hc
    exact (List.chain'_cons.1 h2).1.1 rfl
  · intro pre post b he
    rw [he] at hc
    have h2 := List.Chain'.right_of_append hc
    exact (List.chain'_cons.1 h2).1.2 rfl
  · intro pre mid post he
    rw [he] at hc
    exact chain_active_connected mid post (List.Chain'.right_of_append hc)

theorem exampleSession_defined : (freshClient.sessionRun exampleSession).isSome = true := by
  decide

/-- C23 at the example session. -/
theorem state_transitions_witness :
    List.Chain' stateSucceeds
      (freshClient.state_
        :: ((freshClient.sessionRun exampleSession).get exampleSession_defined).2) :=
  (state_transitions freshClient exampleSession
    ((freshClient.sessionRun exampleSession).get exampleSession_defined)
    (Option.some_get exampleSession_defined).symm).1

/-- A `connect()` that fails on a session that did not count as connected leaves
the state `ERROR` or `CONNECTED`. -/
theorem connect_false_state (c : OPCUAClient) (server : UAServer) (steadyNow : TimePoint)
    (r : Bool × OPCUAClient) (hnot : c.isConnected = false)
    (h : c.connect server steadyNow = some r) (hr : r.1 = false) :
    r.2.state_ = .ERROR ∨ r.2.state_ = .CONNECTED := by
  have hclient : c.client_ = true := by
    cases hcl : c.client_ with
    | true => rfl
    | false =>
      unfold OPCUAClient.connect at h
      rw [if_neg (by rw [hnot]; decide)] at h
      simp only [setState_eq, hcl, Bool.not_false, if_true] at h
      exact absurd h (by simp)
  rw [connect_eq c server steadyNow hnot hclient] at h
  split_ifs at h <;> simp only [Option.some.injEq] at h <;> subst h
  · left
    rfl
  · right
    simp only []
    rw [discoverNodes_state]
  · right
    simp only []
    rw [createSubscriptions_state, discoverNodes_state]
  · exact absurd hr (by simp)

theorem isConnected_of_error_or_connected (c : OPCUAClient)
    (h : c.state_ = .ERROR ∨ c.state_ = .CONNECTED) : c.isConnected = true := by
  unfold OPCUAClient.isConnected
  rcases h with h | h <;> rw [h] <;> decide

theorem shouldReconnect_of_connected (c : OPCUAClient) (h : c.isConnected = true)
    (now : TimePoint) : c.shouldReconnect now = false := by
  unfold OPCUAClient.shouldReconnect
  rw [h]
  simp

/-- A pass of the supervisor on a running session that counts as connected and has
no node changes nothing and makes no connection attempt. -/
theorem connectionIteration_idle (c : OPCUAClient) (env : SupervisorEnv)
    (hr : c.running_ = true) (hc : c.isConnected = true) (hn : c.sensorNodes_ = []) :
    c.connectionIteration env = some (c, [], false) := by
  unfold OPCUAClient.connectionIteration OPCUAClient.healthCheck
  rw [if_neg (by rw [hr]; decide), if_neg (by simp [hc])]
  simp only [hc, hn, if_true, List.isEmpty_nil, Bool.not_true, Bool.false_eq_true, if_false]
  split_ifs <;> rfl

/-- C21, the code at the failing input: on an initialised session a `connect()` to
a server that cannot be reached returns `false` and leaves the state `ERROR`,
for which `isConnected()` is `true`; auto-reconnect is enabled and the attempt
counter is below the maximum, yet `shouldReconnect()` is `false`. The same holds
after every failed `connect()` on a session that did not count as connected.
In the supervisor: the pass that makes the failing attempt leaves the state
`ERROR`, and every later pass makes no attempt and changes nothing. -/
theorem failed_connect_counts_as_connected :
    ((freshClient.connect unreachableServer ⟨5⟩).map
      (fun r => (r.1, r.2.state_, r.2.isConnected, r.2.config_.getAutoReconnect,
        decide (r.2.reconnectAttempts_ < r.2.config_.getMaxReconnectAttempts),
        r.2.shouldReconnect ⟨1000000000000000⟩)))
      = some (false, .ERROR, true, true, true, false)
    ∧ (∀ (c : OPCUAClient) (server : UAServer) (steadyNow : TimePoint) (r : Bool × OPCUAClient),
        c.isConnected = false → c.connect server steadyNow = some r → r.1 = false →
        r.2.isConnected = true ∧ ∀ now : TimePoint, r.2.shouldReconnect now = false)
    ∧ ((freshClient.start.connectionIteration retryEnv).map
        (fun r => (r.1.state_, r.1.isConnected, r.1.running_, r.1.reconnectAttempts_,
          r.1.sensorNodes_.length, r.2.2)))
      = some (.ERROR, true, true, 1, 0, true)
    ∧ (∀ (r : OPCUAClient × List ConnectionState × Bool) (env : SupervisorEnv),
        freshClient.start.connectionIteration retryEnv = some r →
        r.1.connectionIteration env = some (r.1, [], false)) := by
  have h3 : ((freshClient.start.connectionIteration retryEnv).map
        (fun r => (r.1.state_, r.1.isConnected, r.1.running_, r.1.reconnectAttempts_,
          r.1.sensorNodes_.length, r.2.2)))
      = some (.ERROR, true, true, 1, 0, true) := by decide
  refine ⟨by decide, ?_, h3, ?_⟩
  · intro c server steadyNow r hnot h hr
    have hst := connect_false_state c server steadyNow r hnot h hr
    have hic := isConnected_of_error_or_connected r.2 hst
    exact ⟨hic, fun now => shouldReconnect_of_connected r.2 hic now⟩
  · intro r env h
    rw [h] at h3
    simp only [Option.map_some', Option.some.injEq, Prod.mk.injEq] at h3
    obtain ⟨_, hic, hrun, _, hlen, _⟩ := h3
    exact connectionIteration_idle r.1 env hrun hic (List.length_eq_zero.1 hlen)

/-- C22, the claim as stated, fails: with at most one reconnect attempt configured,
the pass of the supervisor whose attempt fails to open the transport brings the
counter to the maximum and clears the running flag, and the state is `ERROR`,
not `DISCONNECTED`; auto-reconnect is still enabled. -/
theorem reconnect_cap_leaves_error_state :
    cappedClient.config_.getMaxReconnectAttempts = 1
    ∧ cappedClient.state_ = .DISCONNECTED
    ∧ ((cappedClient.connectionIteration retryEnv).map
        (fun r => (r.1.reconnectAttempts_, r.1.running_, r.1.state_,
          r.1.config_.getAutoReconnect, r.2.2)))
      = some (1, false, .ERROR, true, true) := by
  refine ⟨by decide, by decide, by decide⟩

theorem disconnect_frame (c : OPCUAClient) :
    c.disconnect.config_ = c.config_ ∧ c.disconnect.running_ = c.running_
      ∧ c.disconnect.reconnectAttempts_ = c.reconnectAttempts_
      ∧ c.disconnect.endpoint_ = c.endpoint_
      ∧ c.disconnect.sensorDefinitions_ = c.sensorDefinitions_ := by
  unfold OPCUAClient.disconnect OPCUAClient.removeSubscriptions
  simp only [setState_eq]
  split_ifs <;> exact ⟨rfl, rfl, rfl, rfl, rfl⟩

/-- A connection attempt that cannot create a handle or cannot open the transport
fails; it keeps the configuration, the running flag and the attempt counter, and
leaves the state `ERROR` (transport) or as `disconnect()` left it (no handle). -/
theorem performConnection_fails (c : OPCUAClient) (clientNew : Bool) (server : UAServer)
    (steadyNow : TimePoint)
    (hfail : clientNew = false ∨ server.connectStatus c.endpoint_ ≠ 0) :
    ∃ p, c.performConnection clientNew server steadyNow = some p
      ∧ p.1 = false
      ∧ p.2.1.config_ = c.config_
      ∧ p.2.1.running_ = c.running_
      ∧ p.2.1.reconnectAttempts_ = c.reconnectAttempts_
      ∧ p.2.1.state_
          = (if clientNew then ConnectionState.ERROR
             else if c.client_ then ConnectionState.DISCONNECTED else c.state_) := by
  have hc0 : ∃ c0 : OPCUAClient × List ConnectionState,
      (if c.client_ = true then (c.disconnect, [ConnectionState.DISCONNECTED]) else (c, [])) = c0
      ∧ c0.1.config_ = c.config_ ∧ c0.1.running_ = c.running_
      ∧ c0.1.reconnectAttempts_ = c.reconnectAttempts_ ∧ c0.1.endpoint_ = c.endpoint_
      ∧ c0.1.state_ = (if c.client_ then ConnectionState.DISCONNECTED else c.state_) := by
    by_cases hcl : c.client_ = true
    · obtain ⟨f1, f2, f3, f4, _⟩ := disconnect_frame c
      refine ⟨_, rfl, ?_⟩
      rw [if_pos hcl]
      simp only [hcl, if_true]
      exact ⟨f1, f2, f3, f4, disconnect_state c⟩
    · refine ⟨_, rfl, ?_⟩
      rw [if_neg hcl]
      have hcl2 : c.client_ = false := by simpa using hcl
      simp only [hcl2, Bool.false_eq_true, if_false]
      exact ⟨trivial, trivial, trivial, trivial, trivial⟩
  obtain ⟨c0, e0, g1, g2, g3, g4, g5⟩ := hc0
  unfold OPCUAClient.performConnection
  simp only []
  rw [e0]
  cases clientNew with
  | false =>
    have hi : c0.1.initializeClient false = (false, { c0.1 with client_ := false }) := by
      unfold OPCUAClient.initializeClient
      simp only [Bool.not_false, if_true]
    rw [hi]
    simp only [Bool.not_false, if_true, Bool.false_eq_true, if_false]
    exact ⟨_, rfl, rfl, g1, g2, g3, g5⟩
  | true =>
    have hst : server.connectStatus c.endpoint_ ≠ 0 := by
      rcases hfail with h | h
      · exact absurd h (by decide)
      · exact h
    have hi : c0.1.initializeClient true
        = (true, { c0.1 with client_ := true, state_ := .DISCONNECTED }) := by
      unfold OPCUAClient.initializeClient
      simp only [setState_eq, Bool.not_true, Bool.false_eq_true, if_false]
    rw [hi]
    simp only [Bool.not_true, Bool.false_eq_true, if_false, if_true]
    have hce := connect_eq { c0.1 with client_ := true, state_ := .DISCONNECTED } server
      steadyNow rfl rfl
    have hst2 : server.connectStatus
        ({ c0.1 with client_ := true, state_ := .DISCONNECTED } : OPCUAClient).endpoint_ ≠ 0 := by
      show server.connectStatus c0.1.endpoint_ ≠ 0
      rw [g4]
      exact hst
    rw [if_pos hst2] at hce
    rw [← connectTraced_eq] at hce
    cases hct : OPCUAClient.connectTraced { c0.1 with client_ := true, state_ := .DISCONNECTED }
        server steadyNow with
    | none =>
      rw [hct] at hce
      exact absurd hce (by simp)
    | some r2 =>
      rw [hct] at hce
      simp only [Option.map_some', Option.some.injEq, Prod.mk.injEq] at hce
      obtain ⟨h1, h2⟩ := hce
      refine ⟨_, rfl, h1, ?_⟩
      simp only []
      rw [h2]
      exact ⟨g1, g2, g3, rfl⟩

/-- C22, amended: when a pass of the supervisor on a running session makes a
connection attempt (the session does not count as connected and
`shouldReconnect()` holds), the attempt fails to create a handle or to open the
transport, and the incremented attempt counter reaches the configured maximum,
then the pass clears the running flag and every later pass makes no attempt and
changes nothing; the configuration (auto-reconnect included) is unchanged, and
the state is the one the failed attempt left: `ERROR` when the transport could
not be opened, `DISCONNECTED` when no handle could be created on a session that
had one. -/
theorem reconnect_cap (c : OPCUAClient) (env : SupervisorEnv)
    (hrun : c.running_ = true) (hnot : c.isConnected = false)
    (hsr : c.shouldReconnect env.nowReconnect = true)
    (hfail : env.clientNew = false ∨ env.server.connectStatus c.endpoint_ ≠ 0)
    (hcap : c.config_.getMaxReconnectAttempts ≤ wrapInt32 (c.reconnectAttempts_ + 1)) :
    ∃ r, c.connectionIteration env = some r
      ∧ r.2.2 = true
      ∧ r.1.running_ = false
      ∧ r.1.reconnectAttempts_ = wrapInt32 (c.reconnectAttempts_ + 1)
      ∧ r.1.config_ = c.config_
      ∧ r.1.state_
          = (if env.clientNew then ConnectionState.ERROR
             else if c.client_ then ConnectionState.DISCONNECTED else c.state_)
      ∧ ∀ env2 : SupervisorEnv, r.1.connectionIteration env2 = some (r.1, [], false) := by
  have hidle : ∀ (x : OPCUAClient) (env2 : SupervisorEnv), x.running_ = false →
      x.connectionIteration env2 = some (x, [], false) := by
    intro x env2 hx
    unfold OPCUAClient.connectionIteration
    rw [if_pos (by rw [hx]; rfl)]
  obtain ⟨p, hp, p1, p2, p3, p4, p5⟩ :=
    performConnection_fails c env.clientNew env.server env.nowConnected hfail
  unfold OPCUAClient.connectionIteration
  rw [if_neg (by rw [hrun]; decide), if_pos (by rw [hnot, hsr]; rfl), hp]
  simp only []
  rw [if_neg (by rw [p1]; decide)]
  have hcap2 : (p.2.1.incrementReconnectAttempts env.nowAttempt).config_.getMaxReconnectAttempts
      ≤ (p.2.1.incrementReconnectAttempts env.nowAttempt).reconnectAttempts_ := by
    show p.2.1.config_.getMaxReconnectAttempts ≤ wrapInt32 (p.2.1.reconnectAttempts_ + 1)
    rw [p2, p4]
    exact hcap
  rw [if_pos hcap2]
  refine ⟨_, rfl, rfl, rfl, ?_, p2, p5, fun env2 => hidle _ env2 rfl⟩
  show wrapInt32 (p.2.1.reconnectAttempts_ + 1) = _
  rw [p4]

/-- C22 at the started client with at most one attempt and a server that cannot
be reached. -/
theorem reconnect_cap_witness :
    ∃ r, cappedClient.connectionIteration retryEnv = some r
      ∧ r.1.running_ = false ∧ r.1.state_ = ConnectionState.ERROR :=
  (reconnect_cap cappedClient retryEnv (by decide) (by decide) (by decide)
    (Or.inr (by decide)) (by decide)).imp
    (fun _ h => ⟨h.1, h.2.2.1, h.2.2.2.2.2.1⟩)

theorem tdiv_billion_ge_iff (x k : Int) (hk : 0 < k) :
    k ≤ Int.tdiv x 1000000000 ↔ k * 1000000000 ≤ x := by
  by_cases hx : 0 ≤ x
  · rw [Int.tdiv_eq_ediv hx (by omega)]
    omega
  · have hneg : Int.tdiv x 1000000000 = - Int.tdiv (-x) 1000000000 := by
      rw [Int.neg_tdiv]
      simp
    rw [hneg, Int.tdiv_eq_ediv (by omega) (by omega)]
    omega

/-- C24: for a session that does not count as connected and has auto-reconnect
enabled, `shouldReconnect()` is `true` exactly when the whole seconds since the
last attempt reach the configured delay divided by 1000 in integer division; for
a delay from 0 to 999 ms that quotient is 0 and `shouldReconnect()` is `true` for
every non-negative elapsed time; for a delay of 1500 ms it is `true` exactly
from one second on. -/
theorem shouldReconnect_iff (c : OPCUAClient) (hnot : c.isConnected = false)
    (hauto : c.config_.getAutoReconnect = true) :
    (∀ now : TimePoint,
      c.shouldReconnect now = true ↔
        Int.tdiv c.config_.getReconnectDelay 1000
          ≤ Int.tdiv (now.sinceEpochNs - c.lastReconnectAttempt_.sinceEpochNs) 1000000000)
    ∧ (0 ≤ c.config_.getReconnectDelay → c.config_.getReconnectDelay < 1000 →
        Int.tdiv c.config_.getReconnectDelay 1000 = 0
        ∧ ∀ now : TimePoint,
            0 ≤ now.sinceEpochNs - c.lastReconnectAttempt_.sinceEpochNs →
            c.shouldReconnect now = true)
    ∧ (c.config_.getReconnectDelay = 1500 →
        ∀ now : TimePoint,
          c.shouldReconnect now = true ↔
            1000000000 ≤ now.sinceEpochNs - c.lastReconnectAttempt_.sinceEpochNs) := by
  have hiff : ∀ now : TimePoint,
      c.shouldReconnect now = true ↔
        Int.tdiv c.config_.getReconnectDelay 1000
          ≤ Int.tdiv (now.sinceEpochNs - c.lastReconnectAttempt_.sinceEpochNs) 1000000000 := by
    intro now
    unfold OPCUAClient.shouldReconnect
    rw [if_neg (by rw [hnot, hauto]; decide)]
    simp only [decide_eq_true_eq]
  refine ⟨hiff, ?_, ?_⟩
  · intro h0 h1
    have hz : Int.tdiv c.config_.getReconnectDelay 1000 = 0 := by
      rw [Int.tdiv_eq_ediv h0 (by omega)]
      omega
    refine ⟨hz, fun now hnow => ?_⟩
    rw [hiff now, hz, Int.tdiv_eq_ediv hnow (by omega)]
    omega
  · intro hd now
    rw [hiff now, hd]
    have h1 : Int.tdiv 1500 1000 = 1 := by decide
    rw [h1, tdiv_billion_ge_iff _ _ (by decide)]
    omega

/-- C24 at the initialised example client, five seconds after the start. -/
theorem shouldReconnect_iff_witness :
    freshClient.shouldReconnect ⟨5000000000⟩ = true ↔
      Int.tdiv freshClient.config_.getReconnectDelay 1000
        ≤ Int.tdiv ((⟨5000000000⟩ : TimePoint).sinceEpochNs
            - freshClient.lastReconnectAttempt_.sinceEpochNs) 1000000000 :=
  (shouldReconnect_iff freshClient (by decide) (by decide)).1 ⟨5000000000⟩

/-- C28, the claim as stated, fails: a session with 29 subscription records loses
its handle (`initialize()` cannot create a new one); `disconnect()` then leaves
the 29 records and the subscription id 7 in place. -/
theorem disconnect_keeps_leftover_records :
    ((freshClient.connect acceptingServer ⟨5⟩).map
      (fun r => ((r.2.initializeClient false).2.client_,
        (r.2.initializeClient false).2.subscriptions_.length,
        (r.2.initializeClient false).2.disconnect.state_,
        (r.2.initializeClient false).2.disconnect.client_,
        (r.2.initializeClient false).2.disconnect.subscriptions_.length,
        (r.2.initializeClient false).2.disconnect.subscriptionId_)))
      = some (false, 29, .DISCONNECTED, false, 29, 7) := by
  decide

/-- C28, amended: for every session state, `disconnect()` leaves no handle and
the state `DISCONNECTED`, and a second call changes nothing; when the session had
a handle, the subscription list is empty and the subscription id is 0
afterwards; when it had none, the list and the id are as before. -/
theorem disconnect_idempotent (c : OPCUAClient) :
    c.disconnect.disconnect = c.disconnect
      ∧ c.disconnect.state_ = .DISCONNECTED
      ∧ c.disconnect.client_ = false
      ∧ (c.client_ = true →
          c.disconnect.subscriptions_ = [] ∧ c.disconnect.subscriptionId_ = 0)
      ∧ (c.client_ = false →
          c.disconnect.subscriptions_ = c.subscriptions_
          ∧ c.disconnect.subscriptionId_ = c.subscriptionId_) := by
  obtain ⟨cfg, client, state, running, endpoint, subId, subs, nodes, defs, ra, lra, mr, se, ldt⟩
    := c
  cases client with
  | false =>
    simp [OPCUAClient.disconnect, setState_eq]
  | true =>
    by_cases h : subId = 0
    · subst h
      simp [OPCUAClient.disconnect, OPCUAClient.removeSubscriptions, setState_eq]
    · simp [OPCUAClient.disconnect, OPCUAClient.removeSubscriptions, setState_eq, h]


/-! ### Discovery and the catalog -/

theorem strLt_irrefl (a : Str) : strLt a a = false := by
  induction a with
  | nil => rfl
  | cons x xs ih => simp [strLt, ih]

theorem strLt_trans : ∀ (a b c : Str), strLt a b = true → strLt b c = true → strLt a c = true := by
  intro a
  induction a with
  | nil =>
    intro b c hab hbc
    cases b with
    | nil => exact absurd hab (by simp [strLt])
    | cons y ys =>
      cases c with
      | nil => exact absurd hbc (by simp [strLt])
      | cons z zs => rfl
  | cons x xs ih =>
    intro b c hab hbc
    cases b with
    | nil => exact absurd hab (by simp [strLt])
    | cons y ys =>
      cases c with
      | nil => exact absurd hbc (by simp [strLt])
      | cons z zs =>
        simp only [strLt] at hab hbc ⊢
        by_cases h1 : x.toNat < y.toNat
        · by_cases h2 : y.toNat < z.toNat
          · rw [if_pos (by omega)]
          · rw [if_neg h2] at hbc
            by_cases h3 : z.toNat < y.toNat
            · rw [if_pos h3] at hbc
              exact absurd hbc (by decide)
            · rw [if_pos (by omega)]
        · rw [if_neg h1] at hab
          by_cases h1b : y.toNat < x.toNat
          · rw [if_pos h1b] at hab
            exact absurd hab (by decide)
          · rw [if_neg h1b] at hab
            by_cases h2 : y.toNat < z.toNat
            · rw [if_pos (by omega)]
            · rw [if_neg h2] at hbc
              by_cases h3 : z.toNat < y.toNat
              · rw [if_pos h3] at hbc
                exact absurd hbc (by decide)
              · rw [if_neg h3] at hbc
                rw [if_neg (by omega), if_neg (by omega)]
                exact ih ys zs hab hbc

theorem strLt_total : ∀ (a b : Str), a ≠ b → strLt a b = false → strLt b a = true := by
  intro a
  induction a with
  | nil =>
    intro b hne h
    cases b with
    | nil => exact absurd rfl hne
    | cons y ys => exact absurd h (by simp [strLt])
  | cons x xs ih =>
    intro b hne h
    cases b with
    | nil => rfl
    | cons y ys =>
      simp only [strLt] at h ⊢
      by_cases h1 : x.toNat < y.toNat
      · rw [if_pos h1] at h
        exact absurd h (by decide)
      · rw [if_neg h1] at h
        by_cases h2 : y.toNat < x.toNat
        · rw [if_pos h2]
        · rw [if_neg h2] at h
          rw [if_neg h2, if_neg h1]
          have hxy : x = y := by
            apply Char.ext
            apply UInt32.ext
            have : x.toNat = y.toNat := by omega
            exact this
          subst hxy
          exact ih ys (fun he => hne (by rw [he])) h

theorem mapInsert_mem (key : Str) (value : NodeInfo) (m : List (Str × NodeInfo))
    (p : Str × NodeInfo) (h : p ∈ mapInsert key value m) : p = (key, value) ∨ p ∈ m := by
  induction m with
  | nil =>
    simp only [mapInsert, List.mem_singleton] at h
    exact Or.inl h
  | cons q rest ih =>
    obtain ⟨k, v⟩ := q
    simp only [mapInsert] at h
    split_ifs at h with h1 h2
    · rcases List.mem_cons.1 h with h | h
      · exact Or.inl h
      · exact Or.inr (List.mem_cons_of_mem _ h)
    · rcases List.mem_cons.1 h with h | h
      · exact Or.inl h
      · exact Or.inr h
    · rcases List.mem_cons.1 h with h | h
      · exact Or.inr (by rw [h]; exact List.mem_cons_self _ _)
      · rcases ih h with h | h
        · exact Or.inl h
        · exact Or.inr (List.mem_cons_of_mem _ h)

/-- The map insertion keeps the keys in strictly increasing order. -/
theorem mapInsert_sorted (key : Str) (value : NodeInfo) (m : List (Str × NodeInfo))
    (h : m.Pairwise (fun a b => strLt a.1 b.1 = true)) :
    (mapInsert key value m).Pairwise (fun a b => strLt a.1 b.1 = true) := by
  induction m with
  | nil => simp [mapInsert]
  | cons q rest ih =>
    obtain ⟨k, v⟩ := q
    obtain ⟨hq, hrest⟩ := List.pairwise_cons.1 h
    simp only [mapInsert]
    split_ifs with h1 h2
    · subst h1
      exact List.pairwise_cons.2 ⟨hq, hrest⟩
    · refine List.pairwise_cons.2 ⟨?_, h⟩
      intro b hb
      rcases List.mem_cons.1 hb with hb | hb
      · rw [hb]
        exact h2
      · exact strLt_trans key k b.1 h2 (hq b hb)
    · refine List.pairwise_cons.2 ⟨?_, ih hrest⟩
      intro b hb
      rcases mapInsert_mem key value rest b hb with hb | hb
      · rw [hb]
        exact strLt_total key k h1 (by simpa using h2)
      · exact hq b hb

/-- Looking up a key after the map insertion. -/
theorem mapInsert_lookup (key : Str) (value : NodeInfo) (m : List (Str × NodeInfo)) (x : Str) :
    (mapInsert key value m).lookup x = if x = key then some value else m.lookup x := by
  induction m with
  | nil =>
    by_cases hx : x = key
    · subst hx
      simp [mapInsert, List.lookup_cons]
    · have hb : (x == key) = false := by simpa using hx
      simp [mapInsert, List.lookup_cons, hb, hx]
  | cons q rest ih =>
    obtain ⟨k, v⟩ := q
    simp only [mapInsert]
    by_cases hx : x = key
    · rw [if_pos hx]
      subst hx
      by_cases h1 : x = k
      · rw [if_pos h1]
        simp [List.lookup_cons]
      · rw [if_neg h1]
        by_cases h2 : strLt x k = true
        · rw [if_pos h2]
          simp [List.lookup_cons]
        · rw [if_neg h2]
          have hb : (x == k) = false := by simpa using h1
          rw [List.lookup_cons, hb, ih]
          simp
    · rw [if_neg hx]
      have hb : (x == key) = false := by simpa using hx
      by_cases h1 : key = k
      · rw [if_pos h1]
        subst h1
        simp [List.lookup_cons, hb]
      · rw [if_neg h1]
        by_cases h2 : strLt key k = true
        · rw [if_pos h2]
          rw [List.lookup_cons, hb]
        · rw [if_neg h2]
          rw [List.lookup_cons, List.lookup_cons, ih, if_neg hx]

theorem lookup_append_or (l1 l2 : List (Str × NodeInfo)) (x : Str) :
    (l1 ++ l2).lookup x = (l1.lookup x).or (l2.lookup x) := by
  induction l1 with
  | nil => simp
  | cons p rest ih =>
    obtain ⟨k, v⟩ := p
    by_cases h : x = k
    · subst h
      simp [List.lookup_cons]
    · have hb : (x == k) = false := by simpa using h
      simp only [List.cons_append, List.lookup_cons, hb]
      exact ih

/-- The node map after the discovery loop: the entries registered by the loop,
the last one first, in front of the earlier ones. -/
theorem discoverLoop_nodes (server : UAServer) (defs : List SensorDefinition) :
    ∀ (i : Nat) (c : OPCUAClient) (count : Int),
      (∀ x, (OPCUAClient.discoverLoop server i defs c count).1.sensorNodes_.lookup x
          = ((registeredFrom server i defs).reverse.lookup x).or (c.sensorNodes_.lookup x))
      ∧ (c.sensorNodes_.Pairwise (fun a b => strLt a.1 b.1 = true) →
          (OPCUAClient.discoverLoop server i defs c count).1.sensorNodes_.Pairwise
            (fun a b => strLt a.1 b.1 = true)) := by
  induction defs with
  | nil =>
    intro i c count
    simp [OPCUAClient.discoverLoop, registeredFrom]
  | cons sensor rest ih =>
    intro i c count
    cases hp : parseNodeId sensor.nodeId with
    | error e =>
      have ha : c.addSensorNode server i sensor = (false, c) := by
        unfold OPCUAClient.addSensorNode
        rw [hp]
      simp only [OPCUAClient.discoverLoop, registeredFrom, hp, ha]
      exact ih (i + 1) c _
    | ok nodeId =>
      by_cases hs : server.readStatus i nodeId = 0
      · have ha : c.addSensorNode server i sensor
            = (true, { c with sensorNodes_ :=
                (mapInsert sensor.id ⟨sensor.id, sensor.name, nodeId, [], false⟩
                  c.sensorNodes_) }) := by
          unfold OPCUAClient.addSensorNode
          rw [hp]
          simp only [hs, if_true]
        simp only [OPCUAClient.discoverLoop, registeredFrom, hp, ha, hs, if_true]
        obtain ⟨g1, g2⟩ := ih (i + 1)
          { c with sensorNodes_ :=
              (mapInsert sensor.id ⟨sensor.id, sensor.name, nodeId, [], false⟩ c.sensorNodes_) }
          (count + 1)
        refine ⟨?_, fun hsorted => g2 (mapInsert_sorted _ _ _ hsorted)⟩
        intro x
        rw [g1 x, List.reverse_cons, lookup_append_or]
        simp only []
        rw [mapInsert_lookup]
        by_cases hx : x = sensor.id
        · subst hx
          simp only [List.lookup_cons, beq_self_eq_true, List.lookup_nil, if_true]
          cases List.lookup sensor.id (registeredFrom server (i + 1) rest).reverse <;> rfl
        · have hb : (x == sensor.id) = false := by simpa using hx
          simp only [List.lookup_cons, hb, List.lookup_nil, if_neg hx]
          cases List.lookup x (registeredFrom server (i + 1) rest).reverse <;> rfl
      · have ha : c.addSensorNode server i sensor = (false, c) := by
          unfold OPCUAClient.addSensorNode
          rw [hp]
          simp only [hs, if_false]
        simp only [OPCUAClient.discoverLoop, registeredFrom, hp, ha, hs, if_false,
          Bool.false_eq_true]
        exact ih (i + 1) c _

theorem registeredFrom_keys (server : UAServer) (defs : List SensorDefinition) :
    ∀ i : Nat, (registeredFrom server i defs).map Prod.fst
      = (acceptedFrom server i defs).map (fun s => s.id) := by
  induction defs with
  | nil => intro i; rfl
  | cons sensor rest ih =>
    intro i
    cases hp : parseNodeId sensor.nodeId with
    | error e =>
      simp only [registeredFrom, acceptedFrom, nodeAccepted, hp, Bool.false_eq_true, if_false]
      exact ih (i + 1)
    | ok nodeId =>
      by_cases hs : server.readStatus i nodeId = 0
      · simp only [registeredFrom, acceptedFrom, nodeAccepted, hp, hs, if_true,
          beq_self_eq_true, List.map_cons]
        rw [ih (i + 1)]
      · have hb : (server.readStatus i nodeId == 0) = false := by simpa using hs
        simp only [registeredFrom, acceptedFrom, nodeAccepted, hp, hs, if_false, hb,
          Bool.false_eq_true]
        exact ih (i + 1)

theorem lookup_isSome_iff (l : List (Str × NodeInfo)) (x : Str) :
    (l.lookup x).isSome = true ↔ x ∈ l.map Prod.fst := by
  induction l with
  | nil => simp
  | cons p rest ih =>
    obtain ⟨k, v⟩ := p
    by_cases h : x = k
    · subst h
      rw [List.lookup_cons, beq_self_eq_true]
      exact ⟨fun _ => List.mem_cons_self _ _, fun _ => rfl⟩
    · have hb : (x == k) = false := by simpa using h
      simp only [List.lookup_cons, hb, List.map_cons, List.mem_cons, h, false_or]
      exact ih

/-- The accepted entries are those at a position where the address parses and
the node can be read. -/
theorem acceptedFrom_mem (server : UAServer) (defs : List SensorDefinition) :
    ∀ (i : Nat) (s : SensorDefinition),
      s ∈ acceptedFrom server i defs
        ↔ ∃ j, defs[j]? = some s ∧ nodeAccepted server (i + j) s = true := by
  induction defs with
  | nil =>
    intro i s
    simp [acceptedFrom]
  | cons sensor rest ih =>
    intro i s
    simp only [acceptedFrom]
    constructor
    · intro h
      by_cases ha : nodeAccepted server i sensor = true
      · rw [if_pos ha] at h
        rcases List.mem_cons.1 h with h | h
        · exact ⟨0, by simp [h], by simpa [h] using ha⟩
        · obtain ⟨j, h1, h2⟩ := (ih (i + 1) s).1 h
          exact ⟨j + 1, by simpa using h1, by rw [← h2]; congr 1; omega⟩
      · rw [if_neg ha] at h
        obtain ⟨j, h1, h2⟩ := (ih (i + 1) s).1 h
        exact ⟨j + 1, by simpa using h1, by rw [← h2]; congr 1; omega⟩
    · rintro ⟨j, h1, h2⟩
      cases j with
      | zero =>
        simp only [List.getElem?_cons_zero, Option.some.injEq] at h1
        subst h1
        rw [if_pos (by simpa using h2)]
        exact List.mem_cons_self _ _
      | succ j =>
        simp only [List.getElem?_cons_succ] at h1
        have hm : s ∈ acceptedFrom server (i + 1) rest :=
          (ih (i + 1) s).2 ⟨j, h1, by rw [← h2]; congr 1; omega⟩
        split_ifs
        · exact List.mem_cons_of_mem _ hm
        · exact hm

theorem discoverNodes_keys (c : OPCUAClient) (server : UAServer) (id : Str) :
    id ∈ (c.discoverNodes server).2.sensorNodes_.map Prod.fst
      ↔ ∃ s ∈ acceptedFrom server 0 c.sensorDefinitions_, s.id = id := by
  have h := (discoverLoop_nodes server c.sensorDefinitions_ 0
    { c with sensorNodes_ := [] } 0).1 id
  rw [← lookup_isSome_iff]
  unfold OPCUAClient.discoverNodes
  simp only [] at h ⊢
  rw [h]
  simp only [List.lookup_nil, Option.or_none]
  rw [lookup_isSome_iff, List.map_reverse, List.mem_reverse, registeredFrom_keys, List.mem_map]

/-- C25: discovery is best-effort per entry. An entry whose address does not
parse, or whose node cannot be read, makes `addSensorNode` return `false` and
leaves the session as it was, and an accepted entry is put into the node map.
The accepted entries are those of the catalog that parse and can be read; the
keys of the node map after `discoverNodes` are exactly their ids, each key holds
the node information of the last accepted entry with that id, the keys are in
strictly increasing order, and the rest of the session is unchanged.
`discoverNodes` returns `true` exactly when some entry of the catalog was
accepted. -/
theorem discoverNodes_best_effort (c : OPCUAClient) (server : UAServer) :
    (∀ (x : OPCUAClient) (i : Nat) (sensor : SensorDefinition),
        ((∃ e, parseNodeId sensor.nodeId = .error e) →
          x.addSensorNode server i sensor = (false, x))
        ∧ (∀ nodeId, parseNodeId sensor.nodeId = .ok nodeId →
            server.readStatus i nodeId ≠ 0 → x.addSensorNode server i sensor = (false, x))
        ∧ (∀ nodeId, parseNodeId sensor.nodeId = .ok nodeId →
            server.readStatus i nodeId = 0 →
            x.addSensorNode server i sensor
              = (true, { x with sensorNodes_ :=
                  (mapInsert sensor.id ⟨sensor.id, sensor.name, nodeId, [], false⟩
                    x.sensorNodes_) })))
    ∧ (∀ s, s ∈ acceptedFrom server 0 c.sensorDefinitions_
        ↔ ∃ j, c.sensorDefinitions_[j]? = some s ∧ nodeAccepted server j s = true)
    ∧ (∀ id, id ∈ (c.discoverNodes server).2.sensorNodes_.map Prod.fst
        ↔ ∃ s ∈ acceptedFrom server 0 c.sensorDefinitions_, s.id = id)
    ∧ (∀ id, (c.discoverNodes server).2.sensorNodes_.lookup id
        = (registeredFrom server 0 c.sensorDefinitions_).reverse.lookup id)
    ∧ (c.discoverNodes server).2.sensorNodes_.Pairwise (fun a b => strLt a.1 b.1 = true)
    ∧ { (c.discoverNodes server).2 with sensorNodes_ := [] } = { c with sensorNodes_ := [] }
    ∧ ((c.discoverNodes server).1 = true
        ↔ ∃ j s, c.sensorDefinitions_[j]? = some s ∧ nodeAccepted server j s = true) := by
  have hmem : ∀ s, s ∈ acceptedFrom server 0 c.sensorDefinitions_
      ↔ ∃ j, c.sensorDefinitions_[j]? = some s ∧ nodeAccepted server j s = true := by
    intro s
    rw [acceptedFrom_mem]
    simp only [Nat.zero_add]
  obtain ⟨d1, d2, _⟩ := discoverNodes_spec c server
  obtain ⟨l1, l2⟩ := discoverLoop_nodes server c.sensorDefinitions_ 0
    { c with sensorNodes_ := [] } 0
  refine ⟨?_, hmem, discoverNodes_keys c server, ?_, ?_, d2, ?_⟩
  · intro x i sensor
    refine ⟨?_, ?_, ?_⟩
    · rintro ⟨e, he⟩
      unfold OPCUAClient.addSensorNode
      rw [he]
    · intro nodeId hp hs
      unfold OPCUAClient.addSensorNode
      rw [hp]
      simp only [hs, if_false]
    · intro nodeId hp hs
      unfold OPCUAClient.addSensorNode
      rw [hp]
      simp only [hs, if_true]
  · intro id
    have h := l1 id
    unfold OPCUAClient.discoverNodes
    simp only [] at h ⊢
    rw [h]
    simp only [List.lookup_nil, Option.or_none]
  · unfold OPCUAClient.discoverNodes
    exact l2 List.Pairwise.nil
  · rw [d1]
    constructor
    · intro hne
      cases ha : acceptedFrom server 0 c.sensorDefinitions_ with
      | nil => exact absurd ha hne
      | cons s rest =>
        obtain ⟨j, hj⟩ := (hmem s).1 (by rw [ha]; exact List.mem_cons_self _ _)
        exact ⟨j, s, hj⟩
    · rintro ⟨j, s, hj⟩ he
      have hs := (hmem s).2 ⟨j, hj⟩
      rw [he] at hs
      exact absurd hs (List.not_mem_nil s)

theorem catalogInvariant_frame (c x : OPCUAClient) (h : catalogInvariant c)
    (h1 : x.sensorDefinitions_ = c.sensorDefinitions_)
    (h2 : x.sensorNodes_ = c.sensorNodes_)
    (h3 : x.subscriptions_ = c.subscriptions_ ∨ x.subscriptions_ = []) :
    catalogInvariant x := by
  obtain ⟨a, b, d⟩ := h
  refine ⟨h1.trans a, ?_, ?_⟩
  · rw [h2]
    exact b
  · rcases h3 with h3 | h3
    · rw [h3]
      exact d
    · rw [h3]
      intro s hs
      exact absurd hs (List.not_mem_nil s)

/-- A record in the list after the monitoring loop was there before or carries a
key of the node map. -/
theorem monitorLoop_ids (server : UAServer) (sid : Nat) (nodes : List (Str × NodeInfo)) :
    ∀ (i : Nat) (subs : List SubscriptionData) (s : SubscriptionData),
      s ∈ monitorLoop server sid i nodes subs →
      s ∈ subs ∨ s.sensorId ∈ nodes.map Prod.fst := by
  induction nodes with
  | nil =>
    intro i subs s h
    exact Or.inl h
  | cons p rest ih =>
    intro i subs s h
    obtain ⟨sensorId, nodeInfo⟩ := p
    simp only [monitorLoop] at h
    split_ifs at h
    · rcases ih _ _ s h with h | h
      · rcases List.mem_append.1 h with h | h
        · exact Or.inl h
        · right
          simp only [List.mem_singleton] at h
          rw [h]
          exact List.mem_cons_self _ _
      · exact Or.inr (List.mem_cons_of_mem _ h)
    · rcases ih _ _ s h with h | h
      · exact Or.inl h
      · exact Or.inr (List.mem_cons_of_mem _ h)

theorem discoverNodes_invariant (c : OPCUAClient) (server : UAServer)
    (h : catalogInvariant c) : catalogInvariant (c.discoverNodes server).2 := by
  obtain ⟨a, b, d⟩ := h
  have hf := (discoverNodes_spec c server).2.1
  have hdefs : (c.discoverNodes server).2.sensorDefinitions_ = c.sensorDefinitions_ := by
    have h := congrArg OPCUAClient.sensorDefinitions_ hf
    exact h
  have hsubs : (c.discoverNodes server).2.subscriptions_ = c.subscriptions_ := by
    have h := congrArg OPCUAClient.subscriptions_ hf
    exact h
  refine ⟨hdefs.trans a, ?_, ?_⟩
  · intro p hp
    obtain ⟨s, hs, hid⟩ := (discoverNodes_keys c server p.1).1 (List.mem_map_of_mem Prod.fst hp)
    obtain ⟨j, hj, _⟩ := (acceptedFrom_mem server c.sensorDefinitions_ 0 s).1 hs
    rw [a] at hj
    exact ⟨s, List.mem_iff_getElem?.2 ⟨j, hj⟩, hid⟩
  · rw [hsubs]
    exact d

theorem createSubscriptions_invariant (c : OPCUAClient) (server : UAServer)
    (h : catalogInvariant c) : catalogInvariant (c.createSubscriptions server).2 := by
  obtain ⟨a, b, d⟩ := h
  unfold OPCUAClient.createSubscriptions OPCUAClient.createSubscription
    OPCUAClient.addMonitoredItems
  simp only []
  have hloop : ∀ sid : Nat, ∀ s ∈ monitorLoop server sid 0 c.sensorNodes_ c.subscriptions_,
      ∃ d ∈ getAllSensors, d.id = s.sensorId := by
    intro sid s hs
    rcases monitorLoop_ids server sid c.sensorNodes_ 0 c.subscriptions_ s hs with h | h
    · exact d s h
    · obtain ⟨p, hp, he⟩ := List.mem_map.1 h
      obtain ⟨x, hx, hid⟩ := b p hp
      exact ⟨x, hx, hid.trans he⟩
  split_ifs <;> first | exact ⟨a, b, d⟩ | exact ⟨a, b, hloop _⟩

theorem setState_invariant (c : OPCUAClient) (s : ConnectionState) (h : catalogInvariant c) :
    catalogInvariant (c.setState s) := by
  rw [setState_eq]
  exact h

theorem disconnect_invariant (c : OPCUAClient) (h : catalogInvariant c) :
    catalogInvariant c.disconnect := by
  unfold OPCUAClient.disconnect OPCUAClient.removeSubscriptions
  simp only []
  rw [setState_eq]
  split_ifs
  · exact catalogInvariant_frame c _ h rfl rfl (Or.inr rfl)
  · exact catalogInvariant_frame c _ h rfl rfl (Or.inr rfl)
  · exact catalogInvariant_frame c _ h rfl rfl (Or.inl rfl)

theorem handleDisconnection_invariant (c : OPCUAClient) (h : catalogInvariant c) :
    catalogInvariant c.handleDisconnection := by
  unfold OPCUAClient.handleDisconnection
  simp only []
  rw [setState_eq]
  exact catalogInvariant_frame c _ h rfl rfl (Or.inr rfl)

theorem initializeClient_invariant (c : OPCUAClient) (clientNew : Bool)
    (h : catalogInvariant c) : catalogInvariant (c.initializeClient clientNew).2 := by
  unfold OPCUAClient.initializeClient
  simp only []
  split_ifs
  · exact catalogInvariant_frame c _ h rfl rfl (Or.inl rfl)
  · rw [setState_eq]
    exact catalogInvariant_frame c _ h rfl rfl (Or.inl rfl)

theorem connectTraced_invariant (c : OPCUAClient) (server : UAServer) (steadyNow : TimePoint)
    (r : Bool × OPCUAClient × List ConnectionState)
    (hr : c.connectTraced server steadyNow = some r) (h : catalogInvariant c) :
    catalogInvariant r.2.1 := by
  unfold OPCUAClient.connectTraced at hr
  simp only [setState_eq] at hr
  have hd : catalogInvariant
      (({ c with state_ := ConnectionState.CONNECTED } : OPCUAClient).resetReconnectAttempts.discoverNodes
        server).2 := by
    apply discoverNodes_invariant
    exact catalogInvariant_frame c _ h rfl rfl (Or.inl rfl)
  have hs := createSubscriptions_invariant _ server hd
  split_ifs at hr
  all_goals first
    | (injection hr with hr; subst hr; first
        | exact h
        | exact hd
        | exact hs)

theorem performConnection_invariant (c : OPCUAClient) (clientNew : Bool) (server : UAServer)
    (steadyNow : TimePoint) (r : Bool × OPCUAClient × List ConnectionState)
    (hr : c.performConnection clientNew server steadyNow = some r) (h : catalogInvariant c) :
    catalogInvariant r.2.1 := by
  unfold OPCUAClient.performConnection at hr
  simp only [] at hr
  generalize hr0 : (if c.client_ = true then (c.disconnect, [ConnectionState.DISCONNECTED])
      else (c, ([] : List ConnectionState))) = r0 at hr
  have h0 : catalogInvariant r0.1 := by
    rw [← hr0]
    split_ifs
    · exact disconnect_invariant c h
    · exact h
  have h1 := initializeClient_invariant _ clientNew h0
  split_ifs at hr
  · injection hr with hr
    subst hr
    exact h1
  · cases hc : OPCUAClient.connectTraced (r0.1.initializeClient clientNew).2 server steadyNow with
    | none =>
      rw [hc] at hr
      exact absurd hr (by simp)
    | some r2 =>
      rw [hc] at hr
      injection hr with hr
      subst hr
      exact connectTraced_invariant _ server steadyNow r2 hc h1

theorem healthCheck_invariant (c : OPCUAClient) (env : SupervisorEnv)
    (r : OPCUAClient × List ConnectionState)
    (hr : c.healthCheck env = some r) (h : catalogInvariant c) :
    catalogInvariant r.1 := by
  unfold OPCUAClient.healthCheck at hr
  simp only [] at hr
  split_ifs at hr
  all_goals first
    | (injection hr with hr; subst hr; first
        | exact h
        | exact handleDisconnection_invariant c h)

theorem connectionIteration_invariant (c : OPCUAClient) (env : SupervisorEnv)
    (r : OPCUAClient × List ConnectionState × Bool)
    (hr : c.connectionIteration env = some r) (h : catalogInvariant c) :
    catalogInvariant r.1 := by
  unfold OPCUAClient.connectionIteration at hr
  split_ifs at hr
  · injection hr with hr
    subst hr
    exact h
  · cases hp : c.performConnection env.clientNew env.server env.nowConnected with
    | none =>
      rw [hp] at hr
      exact absurd hr (by simp)
    | some p =>
      rw [hp] at hr
      simp only [] at hr
      have hpi := performConnection_invariant c _ _ _ p hp h
      have hinc : catalogInvariant (p.2.1.incrementReconnectAttempts env.nowAttempt) :=
        catalogInvariant_frame p.2.1 _ hpi rfl rfl (Or.inl rfl)
      split_ifs at hr
      · cases hh : p.2.1.healthCheck env with
        | none =>
          rw [hh] at hr
          exact absurd hr (by simp)
        | some q =>
          rw [hh] at hr
          injection hr with hr
          subst hr
          exact healthCheck_invariant _ env q hh hpi
      · injection hr with hr
        subst hr
        exact catalogInvariant_frame _ _ hinc rfl rfl (Or.inl rfl)
      · cases hh : (p.2.1.incrementReconnectAttempts env.nowAttempt).healthCheck env with
        | none =>
          rw [hh] at hr
          exact absurd hr (by simp)
        | some q =>
          rw [hh] at hr
          injection hr with hr
          subst hr
          exact healthCheck_invariant _ env q hh hinc
  · cases hh : c.healthCheck env with
    | none =>
      rw [hh] at hr
      exact absurd hr (by simp)
    | some q =>
      rw [hh] at hr
      injection hr with hr
      subst hr
      exact healthCheck_invariant _ env q hh h

theorem subscriptionIteration_invariant (c : OPCUAClient) (status timeoutCode : Nat)
    (h : catalogInvariant c) : catalogInvariant (c.subscriptionIteration status timeoutCode).1 := by
  unfold OPCUAClient.subscriptionIteration
  split_ifs
  all_goals first
    | exact h
    | exact handleDisconnection_invariant c h

theorem processDataChange_invariant (c : OPCUAClient) (sensorId : Str)
    (value : Option UADataValue) (steadyNow systemNow : TimePoint) (h : catalogInvariant c) :
    catalogInvariant (c.processDataChange sensorId value steadyNow systemNow).1 := by
  unfold OPCUAClient.processDataChange
  simp only []
  cases value with
  | none => exact catalogInvariant_frame c _ h rfl rfl (Or.inl rfl)
  | some value =>
    simp only []
    split_ifs
    all_goals exact catalogInvariant_frame c _ h rfl rfl (Or.inl rfl)

theorem sessionStep_invariant (c : OPCUAClient) (op : SessionOp)
    (r : OPCUAClient × List ConnectionState)
    (hr : c.sessionStep op = some r) (h : catalogInvariant c) : catalogInvariant r.1 := by
  cases op with
  | initializeClient clientNew =>
    simp only [OPCUAClient.sessionStep] at hr
    injection hr with hr
    subst hr
    exact initializeClient_invariant c clientNew h
  | connect server steadyNow =>
    simp only [OPCUAClient.sessionStep] at hr
    cases hc : c.connectTraced server steadyNow with
    | none =>
      rw [hc] at hr
      exact absurd hr (by simp)
    | some q =>
      rw [hc] at hr
      injection hr with hr
      subst hr
      exact connectTraced_invariant c server steadyNow q hc h
  | disconnect =>
    simp only [OPCUAClient.sessionStep] at hr
    injection hr with hr
    subst hr
    exact disconnect_invariant c h
  | start =>
    simp only [OPCUAClient.sessionStep] at hr
    injection hr with hr
    subst hr
    unfold OPCUAClient.start
    split_ifs
    · exact h
    · exact catalogInvariant_frame c _ h rfl rfl (Or.inl rfl)
  | stop =>
    simp only [OPCUAClient.sessionStep] at hr
    injection hr with hr
    subst hr
    unfold OPCUAClient.stop
    split_ifs
    · exact h
    · exact catalogInvariant_frame c _ h rfl rfl (Or.inl rfl)
  | handleDisconnection =>
    simp only [OPCUAClient.sessionStep] at hr
    injection hr with hr
    subst hr
    exact handleDisconnection_invariant c h
  | supervisor env =>
    simp only [OPCUAClient.sessionStep] at hr
    cases hc : c.connectionIteration env with
    | none =>
      rw [hc] at hr
      exact absurd hr (by simp)
    | some q =>
      rw [hc] at hr
      injection hr with hr
      subst hr
      exact connectionIteration_invariant c env q hc h
  | eventLoop status timeoutCode =>
    simp only [OPCUAClient.sessionStep] at hr
    injection hr with hr
    subst hr
    exact subscriptionIteration_invariant c status timeoutCode h
  | dataChange sensorId value steadyNow systemNow =>
    simp only [OPCUAClient.sessionStep] at hr
    injection hr with hr
    subst hr
    exact processDataChange_invariant c sensorId value steadyNow systemNow h

/-- Every sequence of session operations keeps the node map and the subscription
records within the catalog. -/
theorem sessionRun_invariant (ops : List SessionOp) :
    ∀ (c : OPCUAClient) (r : OPCUAClient × List ConnectionState),
      c.sessionRun ops = some r → catalogInvariant c → catalogInvariant r.1 := by
  induction ops with
  | nil =>
    intro c r hr h
    simp only [OPCUAClient.sessionRun] at hr
    injection hr with hr
    subst hr
    exact h
  | cons op ops ih =>
    intro c r hr h
    simp only [OPCUAClient.sessionRun] at hr
    cases hs : c.sessionStep op with
    | none =>
      rw [hs] at hr
      exact absurd hr (by simp)
    | some q =>
      rw [hs] at hr
      simp only [] at hr
      cases hq : OPCUAClient.sessionRun q.1 ops with
      | none =>
        rw [hq] at hr
        exact absurd hr (by simp)
      | some q2 =>
        rw [hq] at hr
        injection hr with hr
        subst hr
        exact ih q.1 q2 hq (sessionStep_invariant c op q hs h)

theorem new_invariant (config : Config) : catalogInvariant (OPCUAClient.new config) :=
  ⟨rfl, fun p hp => absurd hp (List.not_mem_nil p), fun s hs => absurd hs (List.not_mem_nil s)⟩

theorem catalog_ids_nodup : (getAllSensors.map SensorDefinition.id).Nodup := by
  decide

theorem catalog_ids_nonempty : ∀ d ∈ getAllSensors, d.id ≠ [] := by
  decide

theorem getSensorById_catalog : ∀ d ∈ getAllSensors, getSensorById d.id = d := by
  decide

theorem getSensorById_unknown (id : Str) (h : id ∉ getAllSensors.map SensorDefinition.id) :
    getSensorById id
      = ⟨[], [], [], [], .SYSTEM, .finite false 0 0, .finite false 1000 0, false⟩ := by
  have hf : getAllSensors.find? (fun sensor => sensor.id == id) = none := by
    rw [List.find?_eq_none]
    intro x hx hb
    exact h (List.mem_map.2 ⟨x, hx, eq_of_beq hb⟩)
  unfold getSensorById
  rw [hf]

theorem startupSession_defined :
    ((OPCUAClient.new exampleConfig).sessionRun startupSession).isSome = true := by
  decide

/-- C27: in every session state reached from the constructor by session
operations, every subscription record carries a sensor id that is the id of
exactly one catalog entry and every key of the node map is a catalog id; the
records after `addMonitoredItems` are the earlier ones or carry a key of the node
map. The ids of the catalog are pairwise distinct and non-empty,
`getSensorById` returns each catalog entry for its id, and for an id that is not
in the catalog it returns the entry with the empty id. -/
theorem subscription_ids_in_catalog (config : Config) (ops : List SessionOp)
    (r : OPCUAClient × List ConnectionState)
    (h : (OPCUAClient.new config).sessionRun ops = some r) :
    (∀ s ∈ r.1.subscriptions_, ∃! d, d ∈ getAllSensors ∧ d.id = s.sensorId)
    ∧ (∀ p ∈ r.1.sensorNodes_, p.1 ∈ getAllSensors.map SensorDefinition.id)
    ∧ (∀ (server : UAServer), ∀ s ∈ (r.1.addMonitoredItems server).2.subscriptions_,
        s ∈ r.1.subscriptions_ ∨ s.sensorId ∈ r.1.sensorNodes_.map Prod.fst)
    ∧ (getAllSensors.map SensorDefinition.id).Nodup
    ∧ (∀ d ∈ getAllSensors, d.id ≠ [])
    ∧ (∀ d ∈ getAllSensors, getSensorById d.id = d)
    ∧ (∀ id, id ∉ getAllSensors.map SensorDefinition.id →
        getSensorById id
          = ⟨[], [], [], [], .SYSTEM, .finite false 0 0, .finite false 1000 0, false⟩
        ∧ (getSensorById id).id = []) := by
  obtain ⟨_, hn, hs⟩ := sessionRun_invariant ops _ r h (new_invariant config)
  refine ⟨?_, ?_, ?_, catalog_ids_nodup, catalog_ids_nonempty, getSensorById_catalog, ?_⟩
  · intro s hmem
    obtain ⟨d, hd, hid⟩ := hs s hmem
    refine ⟨d, ⟨hd, hid⟩, ?_⟩
    rintro y ⟨hy, hyid⟩
    exact List.inj_on_of_nodup_map catalog_ids_nodup hy hd (hyid.trans hid.symm)
  · intro p hp
    obtain ⟨d, hd, hid⟩ := hn p hp
    exact List.mem_map.2 ⟨d, hd, hid⟩
  · intro server s hmem
    exact monitorLoop_ids server _ _ 0 _ s hmem
  · intro id hid
    have hu := getSensorById_unknown id hid
    refine ⟨hu, ?_⟩
    rw [hu]

/-- C27 at the session start. -/
theorem subscription_ids_in_catalog_witness :
    (((OPCUAClient.new exampleConfig).sessionRun startupSession).get
        startupSession_defined).1.subscriptions_.length = 29
    ∧ ∀ s ∈ (((OPCUAClient.new exampleConfig).sessionRun startupSession).get
        startupSession_defined).1.subscriptions_,
      ∃! d, d ∈ getAllSensors ∧ d.id = s.sensorId :=
  ⟨by decide,
    (subscription_ids_in_catalog exampleConfig startupSession
      (((OPCUAClient.new exampleConfig).sessionRun startupSession).get startupSession_defined)
      (Option.some_get startupSession_defined).symm).1⟩


/-! ### Node addresses -/

theorem digitChar_value (k : Nat) (h : k < 10) : (Nat.digitChar k).toNat - '0'.toNat = k := by
  interval_cases k <;> rfl

theorem toDigitsCore_value (fuel : Nat) :
    ∀ (n : Nat) (ds : List Char), n < fuel →
      ∃ X : List Char, Nat.toDigitsCore 10 fuel n ds = X ++ ds
        ∧ X ≠ []
        ∧ X.foldl (fun acc c => acc * 10 + (c.toNat - '0'.toNat)) 0 = n := by
  induction fuel with
  | zero => intro n ds h; exact absurd h (Nat.not_lt_zero n)
  | succ fuel ih =>
    intro n ds h
    simp only [Nat.toDigitsCore]
    by_cases h0 : n / 10 = 0
    · rw [if_pos h0]
      refine ⟨[Nat.digitChar (n % 10)], rfl, List.cons_ne_nil _ _, ?_⟩
      simp only [List.foldl_cons, List.foldl_nil, Nat.zero_mul, Nat.zero_add]
      rw [digitChar_value _ (Nat.mod_lt n (by decide))]
      have hlt : n < 10 := by
        by_contra hc
        have : 1 ≤ n / 10 := (Nat.le_div_iff_mul_le (by decide)).2 (by omega)
        omega
      exact Nat.mod_eq_of_lt hlt
    · rw [if_neg h0]
      have hlt : n / 10 < fuel := by
        have : n / 10 < n := Nat.div_lt_self (by
          rcases Nat.eq_zero_or_pos n with hz | hz
          · rw [hz] at h0; exact absurd rfl h0
          · exact hz) (by decide)
        omega
      obtain ⟨X, hX, _, hv⟩ := ih (n / 10) (Nat.digitChar (n % 10) :: ds) hlt
      refine ⟨X ++ [Nat.digitChar (n % 10)], ?_, ?_, ?_⟩
      · rw [hX]
        simp only [List.append_assoc, List.singleton_append]
      · simp
      · rw [List.foldl_append, hv]
        simp only [List.foldl_cons, List.foldl_nil]
        rw [digitChar_value _ (Nat.mod_lt n (by decide))]
        omega

theorem toDigits_value (n : Nat) :
    (Nat.toDigits 10 n).foldl (fun acc c => acc * 10 + (c.toNat - '0'.toNat)) 0 = n
      ∧ Nat.toDigits 10 n ≠ [] := by
  obtain ⟨X, hX, hne, hv⟩ := toDigitsCore_value (n + 1) n [] (Nat.lt_succ_self n)
  unfold Nat.toDigits
  rw [hX, List.append_nil]
  exact ⟨hv, hne⟩


theorem isDigit_not_space (c : Char) (h : c.isDigit = true) : isSpaceChar c = false := by
  unfold isSpaceChar
  have h1 : c ≠ ' ' := by rintro rfl; exact absurd h (by decide)
  have h2 : c ≠ '\t' := by rintro rfl; exact absurd h (by decide)
  have h3 : c ≠ '\n' := by rintro rfl; exact absurd h (by decide)
  have h4 : c ≠ '\x0b' := by rintro rfl; exact absurd h (by decide)
  have h5 : c ≠ '\x0c' := by rintro rfl; exact absurd h (by decide)
  have h6 : c ≠ '\r' := by rintro rfl; exact absurd h (by decide)
  simp only [beq_eq_false_iff_ne.2 h1, beq_eq_false_iff_ne.2 h2, beq_eq_false_iff_ne.2 h3,
    beq_eq_false_iff_ne.2 h4, beq_eq_false_iff_ne.2 h5, beq_eq_false_iff_ne.2 h6, Bool.or_self]

theorem takeWhile_all (p : Char → Bool) (l : List Char) (h : ∀ c ∈ l, p c = true) :
    l.takeWhile p = l := by
  induction l with
  | nil => rfl
  | cons a l ih =>
    rw [List.takeWhile_cons, h a (List.mem_cons_self _ _),
      ih (fun c hc => h c (List.mem_cons_of_mem _ hc))]
    rfl

/-- The function `stoi` on a non-empty string of digits: its value, or the
range error when the value exceeds the range of `int`. -/
theorem stoi_digits (ds : List Char) (hd : ∀ c ∈ ds, c.isDigit = true) (hne : ds ≠ []) :
    stoi ds
      = if 2147483647 < ds.foldl (fun acc c => acc * 10 + (c.toNat - '0'.toNat)) 0
        then .error .outOfRange
        else .ok ((ds.foldl (fun acc c => acc * 10 + (c.toNat - '0'.toNat)) 0 : Nat) : Int) := by
  cases ds with
  | nil => exact absurd rfl hne
  | cons a l =>
    have ha := hd a (List.mem_cons_self _ _)
    have hm : a ≠ '-' := by rintro rfl; exact absurd ha (by decide)
    have hp : a ≠ '+' := by rintro rfl; exact absurd ha (by decide)
    have hdrop : (a :: l).dropWhile isSpaceChar = a :: l := by
      rw [List.dropWhile_cons, isDigit_not_space a ha]
      rfl
    have hmatch : stoi.match_1 (fun _ => Bool × List Char) (a :: l) (fun rest => (true, rest))
        (fun rest => (false, rest)) (fun _ => (false, a :: l)) = (false, a :: l) := by
      split
      · rename_i heq
        injection heq with h1 h2
        exact absurd h1 hm
      · rename_i heq
        injection heq with h1 h2
        exact absurd h1 hp
      · rfl
    unfold stoi
    simp only [hdrop, hmatch]
    simp only [takeWhile_all Char.isDigit (a :: l) hd]
    simp only [List.isEmpty_cons, Bool.false_eq_true, if_false]
    split_ifs with h1 h2 h3
    · rfl
    · rcases h1 with h1 | h1
      · omega
      · exact absurd (by exact_mod_cast h1) h2
    · exfalso
      apply h1
      right
      exact_mod_cast h3
    · rfl


theorem findFrom_skip (p : Char) (ps : Str) (pre : Str) :
    ∀ (rest : Str) (i : Nat), (∀ c ∈ pre, c ≠ p) →
      findFrom (p :: ps) (pre ++ rest) i = findFrom (p :: ps) rest (i + pre.length) := by
  induction pre with
  | nil => intro rest i _; rfl
  | cons a pre ih =>
    intro rest i h
    have ha : (p == a) = false := beq_eq_false_iff_ne.2 (h a (List.mem_cons_self _ _)).symm
    rw [List.cons_append, findFrom]
    simp only [startsWith, ha, Bool.false_and, Bool.false_eq_true, if_false]
    rw [ih rest (i + 1) (fun c hc => h c (List.mem_cons_of_mem _ hc)), List.length_cons]
    congr 1
    omega

theorem findFrom_absent (p : Char) (ps : Str) (s : Str) (i : Nat) (h : ∀ c ∈ s, c ≠ p) :
    findFrom (p :: ps) s i = none := by
  have h1 := findFrom_skip p ps s [] i h
  rw [List.append_nil] at h1
  rw [h1]
  rfl

theorem isDigit_ne_semicolon (c : Char) (h : c.isDigit = true) : c ≠ ';' := by
  rintro rfl
  exact absurd h (by decide)

/-- The parse of `ns=` followed by digits, `;s=`, and an identifier within
quotation marks. -/
theorem parseNodeIdLocals_quoted (D ID : Str) (hd : ∀ c ∈ D, c.isDigit = true)
    (hD : D.length < 2 ^ 64) (hID : ID.length < 2 ^ 64) :
    parseNodeIdLocals ("ns=".toList ++ D ++ ";s=\"".toList ++ ID ++ "\"".toList)
      = match stoi D with
        | .error e => .error e
        | .ok ns => .ok (ns, ID) := by
  have haddr : "ns=".toList ++ D ++ ";s=\"".toList ++ ID ++ "\"".toList
      = 'n' :: 's' :: '=' :: (D ++ ';' :: 's' :: '=' :: '"' :: (ID ++ ['"'])) := by
    simp
  rw [haddr]
  have hns : strFind ('n' :: 's' :: '=' :: (D ++ ';' :: 's' :: '=' :: '"' :: (ID ++ ['"'])))
      "ns=".toList = some 0 := rfl
  have hs : strFind ('n' :: 's' :: '=' :: (D ++ ';' :: 's' :: '=' :: '"' :: (ID ++ ['"'])))
      ";s=".toList = some (D.length + 3) := by
    have h1 := findFrom_skip ';' ['s', '='] ('n' :: 's' :: '=' :: D)
      (';' :: 's' :: '=' :: '"' :: (ID ++ ['"'])) 0 (by
        intro c hc
        simp only [List.mem_cons] at hc
        rcases hc with rfl | rfl | rfl | hc
        · decide
        · decide
        · decide
        · exact isDigit_ne_semicolon c (hd c hc))
    have h2 : strFind ('n' :: 's' :: '=' :: (D ++ ';' :: 's' :: '=' :: '"' :: (ID ++ ['"'])))
        ";s=".toList
        = findFrom (';' :: ['s', '=']) (('n' :: 's' :: '=' :: D)
            ++ (';' :: 's' :: '=' :: '"' :: (ID ++ ['"']))) 0 := rfl
    rw [h2, h1]
    simp only [List.length_cons, Nat.zero_add]
    rfl
  unfold parseNodeIdLocals
  rw [hns, hs]
  simp only []
  have hcount : (((D.length + 3 : Nat) : Int) - ((0 : Nat) : Int) - 3) % 2 ^ 64 = (D.length : Int) := by
    have : (((D.length + 3 : Nat) : Int) - ((0 : Nat) : Int) - 3) = (D.length : Int) := by
      push_cast
      ring
    rw [this]
    exact Int.emod_eq_of_lt (Int.natCast_nonneg _) (by exact_mod_cast hD)
  have hsub : substr ('n' :: 's' :: '=' :: (D ++ ';' :: 's' :: '=' :: '"' :: (ID ++ ['"'])))
      (0 + 3) ((((D.length + 3 : Nat) : Int) - ((0 : Nat) : Int) - 3) % 2 ^ 64).toNat = D := by
    rw [hcount, Int.toNat_natCast]
    unfold substr
    simp only [Nat.zero_add, List.drop_succ_cons, List.drop_zero]
    exact List.take_left' rfl
  rw [hsub]
  cases hst : stoi D with
  | error e => rfl
  | ok ns =>
    have hdrop : List.drop (D.length + 3 + 3)
        ('n' :: 's' :: '=' :: (D ++ ';' :: 's' :: '=' :: '"' :: (ID ++ ['"'])))
        = '"' :: (ID ++ ['"']) := by
      have : D.length + 3 + 3 = (D.length + 3) + 1 + 1 + 1 := rfl
      rw [this]
      simp only [List.drop_succ_cons]
      have h3 : D.length + 3 = D.length + 1 + 1 + 1 := rfl
      rw [h3, List.drop_append_eq_append_drop, List.drop_eq_nil_of_le (by omega)]
      have h4 : D.length + 1 + 1 + 1 - D.length = 3 := by omega
      rw [h4]
      rfl
    rw [hdrop]
    have hlast : ('"' :: (ID ++ ['"'])).getLast? = some '"' := by
      rw [← List.cons_append, List.getLast?_append]
      rfl
    rw [if_pos ⟨rfl, hlast⟩]
    have hlen : (((('"' :: (ID ++ ['"'])).length : Nat) : Int) - 2) % 2 ^ 64 = (ID.length : Int) := by
      have : (((('"' :: (ID ++ ['"'])).length : Nat) : Int) - 2) = (ID.length : Int) := by
        simp only [List.length_cons, List.length_append, List.length_nil]
        push_cast
        ring
      rw [this]
      exact Int.emod_eq_of_lt (Int.natCast_nonneg _) (by exact_mod_cast hID)
    rw [hlen, Int.toNat_natCast]
    have hsub2 : substr ('"' :: (ID ++ ['"'])) 1 ID.length = ID := by
      unfold substr
      simp only [List.drop_succ_cons, List.drop_zero]
      exact List.take_left' rfl
    rw [hsub2]


theorem strFind_numeric (D K : Str) (hd : ∀ c ∈ D, c.isDigit = true)
    (hk : ∀ c ∈ K, c.isDigit = true) :
    strFind ("ns=".toList ++ D ++ ";i=".toList ++ K) ";s=".toList = none := by
  have haddr : "ns=".toList ++ D ++ ";i=".toList ++ K
      = ('n' :: 's' :: '=' :: D) ++ (';' :: 'i' :: '=' :: K) := by
    simp
  rw [haddr]
  have h1 := findFrom_skip ';' ['s', '='] ('n' :: 's' :: '=' :: D) (';' :: 'i' :: '=' :: K) 0 (by
    intro c hc
    simp only [List.mem_cons] at hc
    rcases hc with rfl | rfl | rfl | hc
    · decide
    · decide
    · decide
    · exact isDigit_ne_semicolon c (hd c hc))
  have h2 : strFind (('n' :: 's' :: '=' :: D) ++ (';' :: 'i' :: '=' :: K)) ";s=".toList
      = findFrom (';' :: ['s', '=']) (('n' :: 's' :: '=' :: D) ++ (';' :: 'i' :: '=' :: K)) 0 :=
    rfl
  rw [h2, h1]
  have h3 : findFrom (';' :: ['s', '=']) (';' :: 'i' :: '=' :: K)
      (0 + ('n' :: 's' :: '=' :: D).length)
      = findFrom (';' :: ['s', '=']) ('i' :: '=' :: K)
          (0 + ('n' :: 's' :: '=' :: D).length + 1) := rfl
  rw [h3]
  apply findFrom_absent
  intro c hc
  simp only [List.mem_cons] at hc
  rcases hc with rfl | rfl | hc
  · decide
  · decide
  · exact isDigit_ne_semicolon c (hk c hc)

theorem parseNodeId_missing_part (s : Str)
    (h : strFind s "ns=".toList = none ∨ strFind s ";s=".toList = none) :
    parseNodeId s = .error .invalidArgument := by
  unfold parseNodeId parseNodeIdLocals
  rcases h with h | h
  · rw [h]
  · rw [h]
    cases strFind s "ns=".toList <;> rfl

/-- The locals of `parseNodeId` at its `return`, for an address in the quoted
string form: the namespace written in the address and the identifier without
its enclosing quotation marks. -/
theorem parseNodeIdLocals_string_form (N : Nat) (ID : Str) (hN : N ≤ 2147483647)
    (hID : ID.length < 2 ^ 64) :
    parseNodeIdLocals (stringAddress N ID) = .ok ((N : Int), ID) := by
  have hlen : (Nat.toDigits 10 N).length ≤ 10 :=
    Nat.toDigitsCore_length 10 (by decide) (N + 1) N 10 (by omega) (by decide)
  unfold stringAddress
  rw [parseNodeIdLocals_quoted _ ID (toDigits_isDigit N)
    (lt_of_le_of_lt hlen (by decide)) hID,
    stoi_digits _ (toDigits_isDigit N) (toDigits_value N).2, (toDigits_value N).1,
    if_neg (by omega)]

/-- C26, the claim as stated, fails: the address `ns=2;i=2258` with a numeric
identifier is rejected with an invalid-argument error. -/
theorem parseNodeId_rejects_numeric_identifier :
    parseNodeId "ns=2;i=2258".toList = .error .invalidArgument ∧
      numericAddress 2 2258 = "ns=2;i=2258".toList :=
  ⟨parseNodeId_missing_part _ (Or.inr (by decide)), by decide⟩

/-- C26, amended: `parseNodeId` accepts the namespace-index-plus-identifier
scheme in the quoted string form only. For every namespace index `N` (at most
65535) and every identifier `ID` without NUL character, the address
`ns=N;s="ID"` is accepted: the function reaches its `return` with namespace `N`
and the local string `ID`, the enclosing quotation marks removed, and the node
id it returns has namespace `N` and a string identifier of the length of `ID`;
the characters of `ID` are not part of what the caller receives. In general,
for `N` in the range of `int`, the namespace is `N` reduced to 16 bits and the
length is counted up to the first NUL character. Every address `ns=N;i=K` with
a numeric identifier is rejected with an invalid-argument error, and so is
every address without `ns=` or without `;s=`. -/
theorem parseNodeId_string_form :
    (∀ (N : Nat) (ID : Str), N ≤ 65535 → ID.length < 2 ^ 64 → '\x00' ∉ ID →
        parseNodeIdLocals (stringAddress N ID) = .ok ((N : Int), ID)
        ∧ parseNodeId (stringAddress N ID) = .ok ⟨N, ⟨ID.length, none⟩⟩)
    ∧ (∀ (N : Nat) (ID : Str), N ≤ 2147483647 → ID.length < 2 ^ 64 →
        parseNodeId (stringAddress N ID)
          = .ok ⟨N % 65536, ⟨(ID.takeWhile (fun ch => ch != '\x00')).length, none⟩⟩)
    ∧ (∀ N K : Nat, parseNodeId (numericAddress N K) = .error .invalidArgument)
    ∧ (∀ s : Str, strFind s "ns=".toList = none ∨ strFind s ";s=".toList = none →
        parseNodeId s = .error .invalidArgument)
    ∧ (parseNodeIdLocals (stringAddress 2 "DB100\".\"Pressure_Supply".toList)).toOption
        = some (2, "DB100\".\"Pressure_Supply".toList)
    ∧ (parseNodeId (stringAddress 2 "DB100\".\"Pressure_Supply".toList)).toOption
        = some ⟨2, ⟨23, none⟩⟩
    ∧ stringAddress 2 "DB100\".\"Pressure_Supply".toList
        = "ns=2;s=\"DB100\".\"Pressure_Supply\"".toList := by
  have hgen : ∀ (N : Nat) (ID : Str), N ≤ 2147483647 → ID.length < 2 ^ 64 →
      parseNodeId (stringAddress N ID)
        = .ok ⟨N % 65536, ⟨(ID.takeWhile (fun ch => ch != '\x00')).length, none⟩⟩ := by
    intro N ID hN hID
    unfold parseNodeId
    rw [parseNodeIdLocals_string_form N ID hN hID]
    simp only [UA_NODEID_STRING]
    congr 3
  refine ⟨?_, hgen, ?_, parseNodeId_missing_part, by decide, by decide, by decide⟩
  · intro N ID hN hID hnul
    refine ⟨parseNodeIdLocals_string_form N ID (by omega) hID, ?_⟩
    rw [hgen N ID (by omega) hID, Nat.mod_eq_of_lt (by omega),
      takeWhile_all _ ID (fun c hc => by
        simp only [bne_iff_ne, ne_eq]
        rintro rfl
        exact hnul hc)]
  · intro N K
    exact parseNodeId_missing_part _
      (Or.inr (strFind_numeric _ _ (toDigits_isDigit N) (toDigits_isDigit K)))

/-! ### Binary64 arithmetic of the outlier test -/

theorem validateSensorData_no_outlier (m : DataManager) (d : SensorData)
    (hn : ¬ invalidSample d) (hd : m.detectOutlier d = false) :
    m.validateSensorData d = true := by
  unfold invalidSample at hn
  have h1 : d.id ≠ [] := fun h => hn (Or.inl h)
  have h2 : d.name ≠ [] := fun h => hn (Or.inr (Or.inl h))
  have h3 : ¬ (d.quality ≠ "good".toList ∧ d.quality ≠ "uncertain".toList) :=
    fun h => hn (Or.inr (Or.inr h))
  unfold DataManager.validateSensorData
  rw [hd]
  have e1 : d.id.isEmpty = false := by
    cases hid : d.id with
    | nil => exact absurd hid h1
    | cons a l => rfl
  have e2 : d.name.isEmpty = false := by
    cases hid : d.name with
    | nil => exact absurd hid h2
    | cons a l => rfl
  have e3 : (d.quality != "good".toList && d.quality != "uncertain".toList) = false := by
    by_cases hg : d.quality = "good".toList
    · simp [hg]
    · by_cases hu : d.quality = "uncertain".toList
      · simp [hu]
      · exact absurd ⟨hg, hu⟩ h3
  simp only [e1, e2, e3, Bool.or_self, Bool.false_eq_true, if_false, Bool.and_false]
  split_ifs <;> rfl

/-- The encoders on sample inputs. -/
theorem encoding_examples :
    escapeTagValue "a b,c=d\\e".toList = "a\\ b\\,c\\=d\\\\e".toList
      ∧ unescape (escapeTagValue "a b,c=d\\e".toList) = "a b,c=d\\e".toList
      ∧ value12345678.fixed6 = "12.345678".toList
      ∧ (Double.finite true 0 0).fixed6 = "-0.000000".toList
      ∧ (Double.finite false 1 (-1)).fixed6 = "0.500000".toList
      ∧ (Double.finite false 1 (-21)).fixed6 = "0.000000".toList
      ∧ (Double.finite false 3 (-21)).fixed6 = "0.000001".toList
      ∧ formatTimestamp ⟨1700000000000999999⟩ = "1700000000000".toList
      ∧ formatTimestamp ⟨-1999999⟩ = "-1".toList
      ∧ generateLineProtocol exampleConfig pressureSample
          = ("hgu_sensors,sensor_id=pressure_supply,sensor_name=Supply\\ Pressure,"
              ++ "location=PLCSIM,equipment=hgu_main,unit=bar "
              ++ "value=12.345678,quality=\"good\" 1700000000000").toList := by
  refine ⟨by decide, by decide, by decide, by decide, by decide, by decide, by decide,
    by decide, by decide, ?_⟩
  rw [generateLineProtocol_eq_spec]
  decide

/-- The writer built by the constructor, `initialize` and `connect`, and calls
of `writeBatch` and `connect` whose answers come without and with a body. -/
theorem delivery_examples :
    connectedWriter.connected_ = true ∧ connectedWriter.curl_ = true
      ∧ connectedWriter.maxRetries_ = 3 ∧ connectedWriter.retryDelay_ = 1000
      ∧ (connectedWriter.writeBatch [pressureSample]
            (netOfList [httpStatus 503, httpStatus 503, httpStatus 503, httpStatus 204])).map
          (fun r => (r.1, sleepsOf r.2.2, postCount r.2.2)) = some (true, [1000, 2000, 3000], 4)
      ∧ (connectedWriter.writeBatch [pressureSample]
            (netOfList [httpStatus 400, httpStatus 204])).map
          (fun r => (r.1, sleepsOf r.2.2, postCount r.2.2)) = some (false, [], 1)
      ∧ (connectedWriter.writeBatch [pressureSample] (netOfList [])).map
          (fun r => (r.1, sleepsOf r.2.2, postCount r.2.2))
          = some (false, [1000, 2000, 3000], 4)
      ∧ ((InfluxDBWriter.new exampleConfig).initializeWriter true).2.connect (httpStatus 200)
          = some (true, connectedWriter)
      ∧ ((InfluxDBWriter.new exampleConfig).initializeWriter true).2.connect
          (httpAnswer 200 "ready".toList) = none
      ∧ connectedWriter.writeBatch [pressureSample]
          (netOfList [httpStatus 503, httpAnswer 400 "bad request".toList]) = none := by
  decide

/-- A run of the data manager: start, two samples enqueued, one rejected, one
worker iteration. -/
theorem pipeline_example :
    (runningManager.run
        [.enqueue pressureSample, .enqueue emptyIdSample,
         .enqueue { pressureSample with id := "temp_oil".toList },
         .worker ⟨⟨0⟩, ⟨0⟩, ⟨0⟩, .returned true⟩]).1.dataQueue_
        = [{ pressureSample with id := "temp_oil".toList }]
      ∧ poppedOf (runningManager.run
        [.enqueue pressureSample, .enqueue emptyIdSample,
         .enqueue { pressureSample with id := "temp_oil".toList },
         .worker ⟨⟨0⟩, ⟨0⟩, ⟨0⟩, .returned true⟩]).2 = [pressureSample]
      ∧ (runningManager.run
        [.enqueue pressureSample, .enqueue emptyIdSample,
         .enqueue { pressureSample with id := "temp_oil".toList },
         .worker ⟨⟨0⟩, ⟨0⟩, ⟨0⟩, .returned true⟩]).1.metrics_.failedWrites = 1
      ∧ (runningManager.run
        [.enqueue pressureSample, .enqueue emptyIdSample,
         .enqueue { pressureSample with id := "temp_oil".toList },
         .worker ⟨⟨0⟩, ⟨0⟩, ⟨0⟩, .returned true⟩]).1.currentBatch_ = [pressureSample] := by
  decide

/-- The outlier test at the boundary: from 100, a step to 110 is a change of
exactly the threshold 10 percent and passes; a step to 110.01 does not. -/
theorem detectOutlier_examples :
    (Double.finite false 10 0).div (.finite false 100 0) = .finite false 7205759403792794 (-56)
      ∧ DataManager.detectOutlier
          { runningManager with lastValues_ :=
              [("pressure_supply".toList, { pressureSample with value := .finite false 100 0 })] }
          { pressureSample with value := .finite false 110 0 } = false
      ∧ DataManager.detectOutlier
          { runningManager with lastValues_ :=
              [("pressure_supply".toList, { pressureSample with value := .finite false 100 0 })] }
          { pressureSample with value := .finite false 7741265546984817 (-46) } = true := by
  decide

/-- The client on sample inputs: a catalog address parses to namespace 2 and an
identifier of 23 characters, the length without the enclosing quotes; a connect to a server that accepts
everything registers the 29 catalog nodes and 29 items; records left over by an
earlier connect make a later one succeed although every item is refused. -/
theorem client_examples :
    (parseNodeId "ns=2;s=\"DB100\".\"Pressure_Supply\"".toList).toOption
        = some ⟨2, ⟨23, none⟩⟩
      ∧ (parseNodeId "i=2258".toList).toOption = none
      ∧ (freshClient.connect acceptingServer ⟨5⟩).map
          (fun r => (r.1, r.2.state_, r.2.sensorNodes_.length, r.2.subscriptions_.length))
        = some (true, .SUBSCRIPTION_ACTIVE, 29, 29)
      ∧ ((freshClient.connect acceptingServer ⟨5⟩).bind
          (fun r => (r.2.initializeClient true).2.connect noItemsServer ⟨6⟩)).map
            (fun r => (r.1, r.2.state_, r.2.subscriptions_.length))
        = some (true, .SUBSCRIPTION_ACTIVE, 29) := by
  refine ⟨by decide, by decide, by decide, by decide⟩

end TusasHgu
